import Mathlib

/-! # piano-tutor-plus: MIDI note events to LED strip commands

A shallow embedding of the parts of `pianotutor+.cpp`, `LedStrip.cpp`,
`MidiClient.cpp`, `Config.cpp` and `PianoTutorPlusConfig.cpp` that decide how a
note event becomes an LED position and a colour, and how the configuration is
validated.

Conventions of the embedding.

* `unsigned char` values are `Fin 256`; wider unsigned fields are `Nat` holding
  the value after the explicit reduction modulo `2 ^ w` done by the cast.
* `int` values are `Int`; a conversion into `int` or `unsigned char` is an
  explicit function (`floatToInt`, `toUChar`).
* `float` values are IEEE 754 binary32 values (`Float32`): a finite value
  is the rational it holds, and the product `int * float` is the exact product
  rounded to the nearest binary32 value, ties to even, as the single precision
  arithmetic of the targets delivers it.
* `std::string` is `String`, processed through its list of characters.
* An exception is a value of `Exn` carried by `Except`.
-/

namespace PianoTutor

/-! ## Machine arithmetic -/

/-- Smallest value of the 32-bit `int` type. -/
def INT_MIN : Int := -2147483648

/-- Largest value of the 32-bit `int` type. -/
def INT_MAX : Int := 2147483647

/-- Conversion of an integer to `unsigned char`: the value modulo `2 ^ 8`. -/
def toUChar (x : Int) : Nat := (x % 256).toNat

/-- Conversion of an integer to `unsigned short`: the value modulo `2 ^ 16`. -/
def toUShort (x : Int) : Nat := (x % 65536).toNat

/-- Conversion of an integer to `unsigned int`: the value modulo `2 ^ 32`. -/
def toUInt (x : Int) : Nat := (x % 4294967296).toNat

/-- The `round` of `<math.h>` on an exact value, after the C standard: the
nearest integer, a halfway case going away from zero. A non-negative argument
is rounded by the floor of `x + 1/2`, a negative one by the ceiling of
`x - 1/2`; the integral floating result is given as the integer it holds. -/
def cRound (x : ℚ) : ℤ := if 0 ≤ x then ⌊x + 1 / 2⌋ else ⌈x - 1 / 2⌉

/-- Conversion of the integral floating value `r` to `int` (the assignment
`pin = round(...)`): the value itself when `int` can represent it; otherwise
the conversion has no defined result (`none`): C++ leaves the behaviour
undefined, and the usual targets give `-2^31` or a saturated value. -/
def floatToInt (r : ℤ) : Option Int :=
  if INT_MIN ≤ r ∧ r ≤ INT_MAX then some r else none

/-! ## The type `float` -/

/-- A value of the type `float`, an IEEE 754 binary32 value: a finite value,
given by the rational number it holds, an infinity with its sign, or a NaN.
The two zeros are one value: the program compares `float` values with zero
and rounds them, which does not tell the zeros apart. -/
inductive Float32 where
  | finite (v : ℚ)
  | inf (negative : Bool)
  | nan
  deriving DecidableEq

/-- Rounding to the nearest integer, a halfway case going to the even
neighbour. -/
def roundHalfEven (y : ℚ) : ℤ :=
  if y - ⌊y⌋ < 1 / 2 then ⌊y⌋
  else if 1 / 2 < y - ⌊y⌋ then ⌊y⌋ + 1
  else if ⌊y⌋ % 2 = 0 then ⌊y⌋
  else ⌊y⌋ + 1

/-- The exponent `e` of the binade `2 ^ e <= |x| < 2 ^ (e + 1)` that holds
`x`; the values below the smallest normal number `2 ^ (-126)`, zero among
them, share the exponent `-126` of the subnormal numbers. -/
def binade (x : ℚ) : ℤ :=
  if |x| < (2 : ℚ) ^ (-126 : ℤ) then -126 else Int.log 2 |x|

/-- The distance between neighbouring binary32 values around `x`: the
significand has 24 bits. -/
def ulp (x : ℚ) : ℚ := (2 : ℚ) ^ (binade x - 23)

/-- The multiple of `ulp x` nearest to `x`, ties to even: the binary32 value
that rounding to nearest gives for the exact value `x`, as long as it does
not pass the largest finite value. -/
def roundToBinary32 (x : ℚ) : ℚ := (roundHalfEven (x / ulp x) : ℚ) * ulp x

/-- The `float` that an operation with the exact result `x` delivers: `x`
rounded to nearest, and an infinity when the rounded value reaches
`2 ^ 128`. -/
def Float32.ofRat (x : ℚ) : Float32 :=
  if (2 : ℚ) ^ (128 : ℕ) ≤ |roundToBinary32 x| then .inf (decide (x < 0))
  else .finite (roundToBinary32 x)

/-- The conversion of an `int` to `float`. -/
def Float32.ofInt (n : Int) : Float32 := Float32.ofRat (n : ℚ)

/-- The product of two `float` values. -/
def Float32.mul : Float32 → Float32 → Float32
  | .nan, _ => .nan
  | _, .nan => .nan
  | .inf s, .inf t => .inf (s != t)
  | .inf s, .finite v => if v = 0 then .nan else .inf (s != decide (v < 0))
  | .finite u, .inf t => if u = 0 then .nan else .inf (decide (u < 0) != t)
  | .finite u, .finite v => Float32.ofRat (u * v)

/-- The comparison `x <= 0` of a `float` with zero; it is false of a NaN. -/
def Float32.leZero : Float32 → Bool
  | .finite v => decide (v ≤ 0)
  | .inf negative => negative
  | .nan => false

/-- The comparison `x > 0` of a `float` with zero; it is false of a NaN. -/
def Float32.gtZero : Float32 → Bool
  | .finite v => decide (0 < v)
  | .inf negative => !negative
  | .nan => false

/-- The assignment `pin = round(x)` for a `float` value `x`: `round` of a
finite value is the integral value `cRound` gives, which is then converted to
`int`; for an infinity or a NaN the conversion has no defined result. -/
def roundToInt : Float32 → Option Int
  | .finite v => floatToInt (cRound v)
  | _ => none

/-! ## `LedStrip.h`: colours, strip types, LED orders -/

/-- The enumeration `LedColor::Color`. -/
inductive LedColor.Color where
  | RED
  | ORANGE
  | YELLOW
  | GREEN
  | LIGHTBLUE
  | BLUE
  | PURPLE
  | PINK
deriving DecidableEq, Repr

/-- The numeric value of each `LedColor::Color` enumerator. -/
def LedColor.Color.val : LedColor.Color → Nat
  | .RED => 0x00200000
  | .ORANGE => 0x00201000
  | .YELLOW => 0x00202000
  | .GREEN => 0x00002000
  | .LIGHTBLUE => 0x00002020
  | .BLUE => 0x00000020
  | .PURPLE => 0x00100010
  | .PINK => 0x00200010

/-- The enumeration `StripType::Type`. -/
inductive StripType.Type where
  | RGB
  | RBG
  | GRB
  | GBR
  | BRG
  | BGR
deriving DecidableEq, Repr

/-- The numeric value of each `StripType::Type` enumerator. -/
def StripType.Type.val : StripType.Type → Nat
  | .RGB => 0x00100800
  | .RBG => 0x00100008
  | .GRB => 0x00081000
  | .GBR => 0x00080010
  | .BRG => 0x00001008
  | .BGR => 0x00000810

/-- The enumeration `LedOrder::Order`. -/
inductive LedOrder.Order where
  | DIR
  | INV
deriving DecidableEq, Repr

/-! ## `LedStrip`: the colour buffer of channel 0 -/

/-- The fields of `ledstring` that `LedStrip` reads or writes. `leds` is the
buffer `ledstring.channel[0].leds`, a map from a position to the stored 32-bit
value; the positions below `count` are the LEDs of the strip. The stores of
`switchOn` and `switchOff` are unchecked, so the map also has the cells at
positions from `count` on. -/
structure LedStrip where
  freq : Nat
  dmanum : Nat
  gpionum : Nat
  count : Nat
  invert : Nat
  brightness : Nat
  strip_type : Nat
  leds : Nat → Nat

/-- The method `LedStrip::switchOn(unsigned char pos, LedColor::Color color)`:
`ledstring.channel[0].leds[pos] = color`. -/
def LedStrip.switchOn (s : LedStrip) (pos : Nat) (color : LedColor.Color) : LedStrip :=
  { s with leds := fun i => if i = pos then color.val else s.leds i }

/-- The method `LedStrip::switchOff(uint8_t pos)`:
`ledstring.channel[0].leds[pos] = 0`. -/
def LedStrip.switchOff (s : LedStrip) (pos : Nat) : LedStrip :=
  { s with leds := fun i => if i = pos then 0 else s.leds i }

/-! ## `MidiClient.h`: events -/

/-- The enumeration `MidiEvent::Type`. -/
inductive MidiEvent.EventType where
  | NOTE_ON
  | NOTE_OFF
  | UNKNOWN
  | NO_EVENT
deriving DecidableEq, Repr

/-- The enumeration `MidiEvent::Hand`. -/
inductive MidiEvent.Hand where
  | RIGHT
  | LEFT
deriving DecidableEq, Repr

/-- The struct `MidiEvent`. -/
structure MidiEvent where
  note : Fin 256
  type : MidiEvent.EventType
  hand : MidiEvent.Hand

/-! ## `PianoTutorPlusConfig`: the validated settings -/

/-- The data members of `PianoTutorPlusConfig`. -/
structure PianoTutorPlusConfig where
  freq : Nat
  gpioPin : Nat
  dmaChannel : Nat
  ledCount : Nat
  ledOrder : LedOrder.Order
  stripType : StripType.Type
  ledPerKey : Float32
  colorRightHand : LedColor.Color
  colorLeftHand : LedColor.Color
  keyboardMinNote : Fin 256
  keyboardMaxNote : Fin 256

/-! ## `main`: from an event to a strip command -/

/-- The `switch` of `main` that assigns `pin`. The two notes are promoted to
`int` before the subtraction, the difference is converted to `float` and
multiplied by `ledPerKey` in `float`, the product is rounded by `round` and
the result is converted to the `int` `pin`. -/
def mainPin (config : PianoTutorPlusConfig) (midiEvent : MidiEvent) : Option Int :=
  match config.ledOrder with
  | .DIR =>
    roundToInt (Float32.mul
      (Float32.ofInt ((midiEvent.note.val : Int) - (config.keyboardMinNote.val : Int)))
      config.ledPerKey)
  | .INV =>
    roundToInt (Float32.mul
      (Float32.ofInt ((config.keyboardMaxNote.val : Int) - (midiEvent.note.val : Int)))
      config.ledPerKey)

/-- The `if` of `main` that follows the `switch`: a `NOTE_ON` event switches the
LED at `pin` on with the colour of the hand, any other event that reaches this
point switches it off. `pin` is converted to the `unsigned char` parameter of
`switchOn` and `switchOff` at the call. -/
def mainSwitch (config : PianoTutorPlusConfig) (strip : LedStrip) (pin : Int)
    (midiEvent : MidiEvent) : LedStrip :=
  if midiEvent.type = .NOTE_ON then
    strip.switchOn (toUChar pin)
      (if midiEvent.hand = .RIGHT then config.colorRightHand else config.colorLeftHand)
  else
    strip.switchOff (toUChar pin)

/-- The guarded block of the loop body up to, and without, `strip.render()`:
an event of type `UNKNOWN` or `NO_EVENT` leaves the strip as it is; any other
event computes `pin` and applies `mainSwitch`. The result is `none` when the
conversion to `pin` has no defined result. -/
def mainEvent (config : PianoTutorPlusConfig) (strip : LedStrip)
    (midiEvent : MidiEvent) : Option LedStrip :=
  if midiEvent.type ≠ .UNKNOWN ∧ midiEvent.type ≠ .NO_EVENT then
    (mainPin config midiEvent).map (fun pin => mainSwitch config strip pin midiEvent)
  else
    some strip

/-! ## The index of the specification -/

/-- Rounding to the nearest integer, a halfway case going away from zero, as
the specification words it: the magnitude is rounded half up and the sign of
the argument is put back. -/
def roundHalfAwayFromZero (x : ℚ) : ℤ :=
  if x < 0 then -⌊-x + 1 / 2⌋ else ⌊x + 1 / 2⌋

/-- The `indexFor` of the specification, on unbounded integers:
`round((note - minNote) * ledsPerKey)` for the direct order and
`round((maxNote - note) * ledsPerKey)` for the inverted order. -/
def indexFor (minNote maxNote : ℤ) (ledsPerKey : ℚ) (order : LedOrder.Order)
    (note : ℤ) : ℤ :=
  match order with
  | .DIR => roundHalfAwayFromZero (((note - minNote : ℤ) : ℚ) * ledsPerKey)
  | .INV => roundHalfAwayFromZero (((maxNote - note : ℤ) : ℚ) * ledsPerKey)

/-- The specification index of the note of an event under the notes and the
order of a configuration, with the exact rational `ledsPerKey`. -/
def specIndex (config : PianoTutorPlusConfig) (ledsPerKey : ℚ) (midiEvent : MidiEvent) : ℤ :=
  indexFor config.keyboardMinNote.val config.keyboardMaxNote.val ledsPerKey
    config.ledOrder midiEvent.note.val

/-- The integer offset of the note of an event: `note - minNote` for the direct
order, `maxNote - note` for the inverted order. -/
def keyOffset (config : PianoTutorPlusConfig) (midiEvent : MidiEvent) : ℤ :=
  match config.ledOrder with
  | .DIR => (midiEvent.note.val : ℤ) - (config.keyboardMinNote.val : ℤ)
  | .INV => (config.keyboardMaxNote.val : ℤ) - (midiEvent.note.val : ℤ)

/-! ## Sample values -/

/-- A configuration with the given keyboard geometry, a finite number of LEDs
per key and the settings of a 61-LED strip for the remaining fields. -/
def sampleConfig (minNote maxNote : Fin 256) (ledPerKey : ℚ)
    (order : LedOrder.Order) : PianoTutorPlusConfig :=
  { freq := 800000, gpioPin := 18, dmaChannel := 10, ledCount := 61,
    ledOrder := order, stripType := .GRB, ledPerKey := .finite ledPerKey,
    colorRightHand := .BLUE, colorLeftHand := .GREEN,
    keyboardMinNote := minNote, keyboardMaxNote := maxNote }

/-- A strip of 61 LEDs with every cell of the buffer at zero, as the
constructor of `LedStrip` leaves it. -/
def sampleStrip : LedStrip :=
  { freq := 800000, dmanum := 10, gpionum := 18, count := 61, invert := 0,
    brightness := 255, strip_type := 0x00081000, leds := fun _ => 0 }

/-! ## Exceptions -/

/-- The exception classes of the program, all derived from `std::exception`.
`LibraryException` stands for the `std::invalid_argument` and
`std::out_of_range` thrown by `std::stoi` and `std::stof`. -/
inductive Exn where
  | OpenFileException
  | ParsingException
  | MidiDeviceException
  | LedStripException
  | ColorNotFoundException
  | StripTypeNotFoundException
  | LedOrderNotFoundException
  | LibraryException
deriving DecidableEq, Repr

/-! ## `LedStrip.cpp`: names of colours, strip types and LED orders -/

/-- The call `std::transform(s.begin(), s.end(), s.begin(), ::tolower)`. -/
def strToLower (s : String) : String := String.mk (s.data.map Char.toLower)

/-- The call `std::transform(s.begin(), s.end(), s.begin(), ::toupper)`. -/
def strToUpper (s : String) : String := String.mk (s.data.map Char.toUpper)

/-- The function `LedColor::parse`. -/
def LedColor.parse (color : String) : Except Exn LedColor.Color :=
  if strToLower color = "red" then .ok .RED
  else if strToLower color = "orange" then .ok .ORANGE
  else if strToLower color = "yellow" then .ok .YELLOW
  else if strToLower color = "green" then .ok .GREEN
  else if strToLower color = "lightblue" then .ok .LIGHTBLUE
  else if strToLower color = "blue" then .ok .BLUE
  else if strToLower color = "purple" then .ok .PURPLE
  else if strToLower color = "pink" then .ok .PINK
  else .error .ColorNotFoundException

/-- The function `StripType::parse`. -/
def StripType.parse (type : String) : Except Exn StripType.Type :=
  if strToUpper type = "RGB" then .ok .RGB
  else if strToUpper type = "RBG" then .ok .RBG
  else if strToUpper type = "GRB" then .ok .GRB
  else if strToUpper type = "GBR" then .ok .GBR
  else if strToUpper type = "BRG" then .ok .BRG
  else if strToUpper type = "BGR" then .ok .BGR
  else .error .StripTypeNotFoundException

/-- The function `LedOrder::parse`. -/
def LedOrder.parse (order : String) : Except Exn LedOrder.Order :=
  if strToUpper order = "DIR" then .ok .DIR
  else if strToUpper order = "INV" then .ok .INV
  else .error .LedOrderNotFoundException

/-! ## `MidiClient.cpp`: note names -/

/-- The characters that `c_str()` exposes: those before the first NUL. -/
def cstr (s : List Char) : List Char := s.takeWhile (fun c => c ≠ Char.ofNat 0)

/-- A match of the whole text against the regular expression
`^([A-G]|[A|C|D|F|G][\#])([0-9])$`: the two captured groups. The second
bracket of the expression lists the bar among its characters. -/
def MidiClient.regexMatch (s : List Char) : Option (String × Char) :=
  match s with
  | [l, d] =>
    if ('A' ≤ l ∧ l ≤ 'G') ∧ ('0' ≤ d ∧ d ≤ '9') then some (String.mk [l], d) else none
  | [l, h, d] =>
    if (l = 'A' ∨ l = '|' ∨ l = 'C' ∨ l = 'D' ∨ l = 'F' ∨ l = 'G') ∧ h = '#'
        ∧ ('0' ≤ d ∧ d ≤ '9') then
      some (String.mk [l, h], d)
    else none
  | _ => none

/-- The chain of comparisons of `cm[1]` in `note2midi`, starting from
`ret = -1`. -/
def MidiClient.pitchClass (g : String) : Int :=
  if g = "C" then 0
  else if g = "C#" then 1
  else if g = "D" then 2
  else if g = "D#" then 3
  else if g = "E" then 4
  else if g = "F" then 5
  else if g = "F#" then 6
  else if g = "G" then 7
  else if g = "G#" then 8
  else if g = "A" then 9
  else if g = "A#" then 10
  else if g = "B" then 11
  else -1

/-- The function `MidiClient::note2midi`; `std::stoi` of the one captured
digit is the value of the digit. -/
def MidiClient.note2midi (note : String) : Int :=
  match MidiClient.regexMatch (cstr (strToUpper note).data) with
  | some (g, d) => MidiClient.pitchClass g + (((d.toNat - 48 : Nat) : Int) + 1) * 12
  | none => -1

/-! ## `Config.cpp`: the key=value file -/

/-- The class `Config`: the map `options`, as an association list in which the
first pair of a key is the current one. -/
structure Config where
  options : List (String × String)

/-- The method `Config::operator[]`: the value of the key, the empty string
for a key that the map does not have. -/
def Config.get (config : Config) (key : String) : String :=
  (config.options.lookup key).getD ""

/-- The assignment `config.options[key] = value`. -/
def Config.set (config : Config) (key value : String) : Config :=
  { options := (key, value) :: config.options }

/-- The predicate `std::isspace` of the C locale. -/
def isspace (c : Char) : Bool := c = ' ' || (9 ≤ c.toNat && c.toNat ≤ 13)

/-- The helper `ltrim`. -/
def ltrim (s : List Char) : List Char := s.dropWhile isspace

/-- The helper `rtrim`. -/
def rtrim (s : List Char) : List Char := (s.reverse.dropWhile isspace).reverse

/-- The helper `trim`. -/
def trim (s : List Char) : List Char := rtrim (ltrim s)

/-- The method `std::string::find(char)`: the first position of the character,
`none` for `npos`. -/
def strFind (c : Char) : List Char → Option Nat
  | [] => none
  | x :: xs => if x = c then some 0 else (strFind c xs).map (fun i => i + 1)

/-- The method `std::string::substr(pos, count)` for `pos` within the string. -/
def substr (s : List Char) (pos count : Nat) : List Char := (s.drop pos).take count

/-- Conversion of an integer to the 64-bit `std::size_t`. -/
def toSizeT (x : Int) : Nat := (x % 18446744073709551616).toNat

/-- The body of the `while` loop of `Config::parse` for one line. -/
def Config.parseLine (config : Config) (line : String) : Config :=
  if (ltrim line.data).headD (Char.ofNat 0) = '#' then config
  else
    match strFind '=' (ltrim line.data) with
    | none => config
    | some equal_pos =>
      config.set
        (String.mk (trim (substr (ltrim line.data) 0 equal_pos)))
        (String.mk (trim
          (match strFind '#' (ltrim line.data) with
            | some comment_pos =>
              substr (ltrim line.data) (equal_pos + 1)
                (toSizeT ((comment_pos : Int) - (equal_pos : Int) - 1))
            | none => (ltrim line.data).drop (equal_pos + 1))))

/-- The lines that successive calls of `std::getline` read from a text: `cur`
holds, reversed, the characters of the line being read. -/
def getlinesAux (cur : List Char) : List Char → List String
  | [] => if cur = [] then [] else [String.mk cur.reverse]
  | c :: cs =>
    if c = '\n' then String.mk cur.reverse :: getlinesAux [] cs
    else getlinesAux (c :: cur) cs

/-- The lines of a text, as `std::getline` reads them. -/
def getlines (text : String) : List String := getlinesAux [] text.data

/-- The `while` loop of `Config::parse` over the lines of the file. -/
def Config.parseLines (lines : List String) : Config :=
  lines.foldl Config.parseLine { options := [] }

/-- The function `Config::parse`. The files are a map from a file name to the
text of the file, `none` for a file that cannot be opened. -/
def Config.parse (files : String → Option String) (filename : String) :
    Except Exn Config :=
  match files filename with
  | none => .error .OpenFileException
  | some text => .ok (Config.parseLines (getlines text))

/-- The conversions `std::stoi` and `std::stof` of the standard library;
`none` stands for the exception they throw. A result of `stoi` is an `int`, a
result of `stof` is a `float`, which may be an infinity or a NaN. -/
structure StdLib where
  stoi : String → Option Int
  stof : String → Option Float32
  stoi_range : ∀ (s : String) (v : Int), stoi s = some v → INT_MIN ≤ v ∧ v ≤ INT_MAX

/-- The function `Config::parseInt`. -/
def Config.parseInt (lib : StdLib) (str : String) : Except Exn Int :=
  match lib.stoi str with
  | some v => .ok v
  | none => .error .LibraryException

/-- The function `Config::parseFloat`. -/
def Config.parseFloat (lib : StdLib) (str : String) : Except Exn Float32 :=
  match lib.stof str with
  | some v => .ok v
  | none => .error .LibraryException

/-! ## `PianoTutorPlusConfig.cpp`: the constructor -/

/-- The key `KEY_FREQ`. -/
def KEY_FREQ : String := "FREQUENCY"

/-- The key `KEY_GPIO_PIN`. -/
def KEY_GPIO_PIN : String := "GPIO_PIN"

/-- The key `KEY_DMA_CHANNEL`. -/
def KEY_DMA_CHANNEL : String := "DMA_CHANNEL"

/-- The key `KEY_LED_COUNT`. -/
def KEY_LED_COUNT : String := "LED_COUNT"

/-- The key `KEY_LED_ORDER`. -/
def KEY_LED_ORDER : String := "LED_ORDER"

/-- The key `KEY_LED_TYPE`. -/
def KEY_LED_TYPE : String := "LED_TYPE"

/-- The key `KEY_LED_PER_KEY`. -/
def KEY_LED_PER_KEY : String := "LED_PER_KEY"

/-- The key `KEY_COLOR_RIGHT`. -/
def KEY_COLOR_RIGHT : String := "COLOR_RIGHT_HAND"

/-- The key `KEY_COLOR_LEFT`. -/
def KEY_COLOR_LEFT : String := "COLOR_LEFT_HAND"

/-- The key `KEY_KEYBOARD_MIN_NOTE`. -/
def KEY_KEYBOARD_MIN_NOTE : String := "KEYBOARD_MIN_NOTE"

/-- The key `KEY_KEYBOARD_MAX_NOTE`. -/
def KEY_KEYBOARD_MAX_NOTE : String := "KEYBOARD_MAX_NOTE"

/-- Conversion of an integer to an `unsigned char` field. -/
def toUCharFin (x : Int) : Fin 256 := ⟨(x % 256).toNat, by omega⟩

/-- The method `PianoTutorPlusConfig::throwParsingError`: the message goes to
the error stream and a `ParsingException` is thrown. -/
def PianoTutorPlusConfig.throwParsingError {α : Type} (_msg : String) : Except Exn α :=
  .error .ParsingException

/-- The inner `try` block of the constructor: the four names. -/
def PianoTutorPlusConfig.parseNames (conf : Config) :
    Except Exn (LedOrder.Order × StripType.Type × LedColor.Color × LedColor.Color) := do
  let ledOrder ← LedOrder.parse (conf.get KEY_LED_ORDER)
  let stripType ← StripType.parse (conf.get KEY_LED_TYPE)
  let colorRightHand ← LedColor.parse (conf.get KEY_COLOR_RIGHT)
  let colorLeftHand ← LedColor.parse (conf.get KEY_COLOR_LEFT)
  pure (ledOrder, stripType, colorRightHand, colorLeftHand)

/-- The three `catch` clauses of the inner `try` block; an exception of
another class passes through. -/
def PianoTutorPlusConfig.catchNames {α : Type} (e : Exn) : Except Exn α :=
  match e with
  | .ColorNotFoundException => PianoTutorPlusConfig.throwParsingError "Available colors: "
  | .StripTypeNotFoundException => PianoTutorPlusConfig.throwParsingError "Available types: "
  | .LedOrderNotFoundException => PianoTutorPlusConfig.throwParsingError "Available orders: "
  | other => .error other

/-- The outer `try` block of the constructor. -/
def PianoTutorPlusConfig.tryBlock (lib : StdLib) (conf : Config) :
    Except Exn PianoTutorPlusConfig := do
  let freq := toUInt (← Config.parseInt lib (conf.get KEY_FREQ))
  if freq ≤ 0 then
    PianoTutorPlusConfig.throwParsingError "The frequency must be a non-null positive integer"
  let gpioPin := toUShort (← Config.parseInt lib (conf.get KEY_GPIO_PIN))
  if gpioPin ≤ 0 then
    PianoTutorPlusConfig.throwParsingError "The GPIO pin must be a non-null positive integer"
  let dmaChannel := toUShort (← Config.parseInt lib (conf.get KEY_DMA_CHANNEL))
  if dmaChannel ≤ 0 then
    PianoTutorPlusConfig.throwParsingError "The DMA channel must be a non-null positive integer"
  let ledCount := toUShort (← Config.parseInt lib (conf.get KEY_LED_COUNT))
  if ledCount ≤ 0 then
    PianoTutorPlusConfig.throwParsingError "The LED count must be a non-null positive integer"
  let ledPerKey ← Config.parseFloat lib (conf.get KEY_LED_PER_KEY)
  if ledPerKey.leZero then
    PianoTutorPlusConfig.throwParsingError
      "The number of LED(s) per key must be a non-negative real number"
  let keyboardMinNote := toUCharFin (MidiClient.note2midi (conf.get KEY_KEYBOARD_MIN_NOTE))
  if keyboardMinNote.val ≤ 0 then
    PianoTutorPlusConfig.throwParsingError
      "The min keyboard note has to be a proper note, such as C2"
  let keyboardMaxNote := toUCharFin (MidiClient.note2midi (conf.get KEY_KEYBOARD_MAX_NOTE))
  if keyboardMaxNote.val ≤ 0 then
    PianoTutorPlusConfig.throwParsingError
      "The max keyboard note has to be a proper note, such as C7"
  let names ← tryCatch (PianoTutorPlusConfig.parseNames conf) PianoTutorPlusConfig.catchNames
  pure { freq := freq, gpioPin := gpioPin, dmaChannel := dmaChannel, ledCount := ledCount,
         ledOrder := names.1, stripType := names.2.1, ledPerKey := ledPerKey,
         colorRightHand := names.2.2.1, colorLeftHand := names.2.2.2,
         keyboardMinNote := keyboardMinNote, keyboardMaxNote := keyboardMaxNote }

/-- The constructor `PianoTutorPlusConfig::PianoTutorPlusConfig(filename)`:
`Config::parse` runs outside the `try` block, and the clause
`catch (std::exception&)` turns every exception of the block into a
`ParsingException`. -/
def PianoTutorPlusConfig.construct (lib : StdLib) (files : String → Option String)
    (filename : String) : Except Exn PianoTutorPlusConfig :=
  match Config.parse files filename with
  | .error e => .error e
  | .ok conf =>
    match PianoTutorPlusConfig.tryBlock lib conf with
    | .ok config => .ok config
    | .error _ => .error .ParsingException

/-! ## A sample library and sample files -/

/-- The value of a run of decimal digits read after the value `acc`. -/
def digitsValue (acc : Nat) : List Char → Nat
  | [] => acc
  | c :: cs => digitsValue (acc * 10 + (c.toNat - 48)) cs

/-- The sign that may start a number, and the text after it. -/
def splitSign : List Char → Bool × List Char
  | '-' :: r => (true, r)
  | '+' :: r => (false, r)
  | r => (false, r)

/-- The value `v` when it is an `int`. -/
def checkInt (v : Int) : Option Int :=
  if INT_MIN ≤ v ∧ v ≤ INT_MAX then some v else none

/-- The decimal number at the start of a text: leading spaces, an optional
sign, then at least one digit; the text after the digits is ignored. -/
def readInt (s : String) : Option Int :=
  if (splitSign (ltrim s.data)).2.takeWhile Char.isDigit = [] then none
  else if (splitSign (ltrim s.data)).1 then
    some (-(digitsValue 0 ((splitSign (ltrim s.data)).2.takeWhile Char.isDigit) : Int))
  else
    some (digitsValue 0 ((splitSign (ltrim s.data)).2.takeWhile Char.isDigit) : Int)

/-- A decimal reading of `std::stoi`: a number outside `int` is refused. -/
def sampleStoi (s : String) : Option Int := (readInt s).bind checkInt

/-- The digits after a decimal point at the start of a text. -/
def fractionDigits : List Char → List Char
  | '.' :: r => r.takeWhile Char.isDigit
  | _ => []

/-- The decimal fraction at the start of a text, as sign, digits and number of
digits after the point: leading spaces, an optional sign, digits, and an
optional point followed by digits. -/
def readDecimal (s : String) : Option (Bool × Nat × Nat) :=
  if (splitSign (ltrim s.data)).2.takeWhile Char.isDigit = [] ∧
      fractionDigits ((splitSign (ltrim s.data)).2.dropWhile Char.isDigit) = [] then none
  else
    some ((splitSign (ltrim s.data)).1,
      digitsValue 0 ((splitSign (ltrim s.data)).2.takeWhile Char.isDigit ++
        fractionDigits ((splitSign (ltrim s.data)).2.dropWhile Char.isDigit)),
      (fractionDigits ((splitSign (ltrim s.data)).2.dropWhile Char.isDigit)).length)

/-- The text that follows the digits and the fraction of a decimal number. -/
def afterMantissa (body : List Char) : List Char :=
  match body.dropWhile Char.isDigit with
  | '.' :: r => r.dropWhile Char.isDigit
  | r => r

/-- The decimal exponent at the start of a text: the letter `e` in either
case, an optional sign and at least one digit; without one the exponent is
0. -/
def readExponent : List Char → Int
  | c :: r =>
    if (c = 'e' ∨ c = 'E') ∧ (splitSign r).2.takeWhile Char.isDigit ≠ [] then
      if (splitSign r).1 then -(digitsValue 0 ((splitSign r).2.takeWhile Char.isDigit) : Int)
      else (digitsValue 0 ((splitSign r).2.takeWhile Char.isDigit) : Int)
    else 0
  | [] => 0

/-- The exact value of the decimal number at the start of a text: the decimal
fraction times the power of ten of its exponent. -/
def readNumber (s : String) : Option ℚ :=
  (readDecimal s).map (fun d =>
    (if d.1 then -1 else 1) * ((d.2.1 : ℚ) / (10 : ℚ) ^ d.2.2)
      * (10 : ℚ) ^ readExponent (afterMantissa (splitSign (ltrim s.data)).2))

/-- The infinity or the NaN that a text starts with: leading spaces, an
optional sign, then `inf` or `nan` in either case. -/
def readSpecial (s : String) : Option Float32 :=
  if ((splitSign (ltrim s.data)).2.take 3).map Char.toLower = ['i', 'n', 'f'] then
    some (.inf (splitSign (ltrim s.data)).1)
  else if ((splitSign (ltrim s.data)).2.take 3).map Char.toLower = ['n', 'a', 'n'] then
    some .nan
  else none

/-- The `float` nearest to an exact decimal value. A value that rounds beyond
the largest finite `float`, and a value below the smallest normal number that
is not a `float` itself, make `std::stof` throw `std::out_of_range`, as it does
with the GNU C library. -/
def stofRound (x : ℚ) : Option Float32 :=
  if (2 : ℚ) ^ (128 : ℕ) ≤ |roundToBinary32 x| then none
  else if |x| < (2 : ℚ) ^ (-126 : ℤ) ∧ roundToBinary32 x ≠ x then none
  else some (.finite (roundToBinary32 x))

/-- A reading of `std::stof` on the texts that start, after spaces and a
sign, with `inf`, with `nan`, or with a decimal number with an optional
fraction and exponent; the decimal value is rounded to the nearest `float`.
Hexadecimal numbers are not read as such. -/
def sampleStof (s : String) : Option Float32 :=
  match readSpecial s with
  | some f => some f
  | none => (readNumber s).bind stofRound

/-- The sample library: the decimal `stoi` and the `stof` above. -/
def sampleLib : StdLib :=
  { stoi := sampleStoi
    stof := sampleStof
    stoi_range := by
      intro s v h
      obtain ⟨w, _, hw⟩ := Option.bind_eq_some.mp h
      unfold checkInt at hw
      by_cases hr : INT_MIN ≤ w ∧ w ≤ INT_MAX
      · rw [if_pos hr] at hw
        cases hw
        exact hr
      · rw [if_neg hr] at hw
        cases hw }

/-- The text of a configuration file for a 61-key keyboard, with the given
values of `LED_ORDER` and `LED_PER_KEY`. -/
def sampleText (ledOrder ledPerKey : String) : String :=
  "# keyboard with 61 keys\nFREQUENCY = 800000\nGPIO_PIN = 18\nDMA_CHANNEL = 10\n" ++
  "LED_COUNT = 61   # one LED per key\nLED_ORDER = " ++ ledOrder ++
  "\nLED_TYPE = GRB\nLED_PER_KEY = " ++ ledPerKey ++
  "\nCOLOR_RIGHT_HAND = blue\nCOLOR_LEFT_HAND = Green\n" ++
  "KEYBOARD_MIN_NOTE = C2\nKEYBOARD_MAX_NOTE = c7\n"

/-- The sample files: one with 1.5 LEDs per key, one with none, one with a
negative number of LEDs per key, two with `2 ^ 30` LEDs per key, in the direct
and in the inverted order, and one each with `0.7`, `0.5`, `16777215`,
`5592405.5`, `inf` and `nan` for the number of LEDs per key. -/
def sampleFiles (filename : String) : Option String :=
  if filename = "piano.conf" then some (sampleText "dir" "1.5")
  else if filename = "zero.conf" then some (sampleText "dir" "0")
  else if filename = "minus.conf" then some (sampleText "dir" "-2.5")
  else if filename = "huge.conf" then some (sampleText "dir" "1073741824")
  else if filename = "huge-inv.conf" then some (sampleText "INV" "1073741824")
  else if filename = "tenths.conf" then some (sampleText "dir" "0.7")
  else if filename = "half.conf" then some (sampleText "dir" "0.5")
  else if filename = "big.conf" then some (sampleText "dir" "16777215")
  else if filename = "halves.conf" then some (sampleText "dir" "5592405.5")
  else if filename = "inf.conf" then some (sampleText "dir" "inf")
  else if filename = "nan.conf" then some (sampleText "dir" "nan")
  else none

/-! ## `LedStrip.cpp`: the names of the enumerators -/

/-- The function `LedColor::toString`; `none` stands for `nullptr`. -/
def LedColor.toString : LedColor.Color → Option String
  | .RED => some "RED"
  | .ORANGE => some "ORANGE"
  | .YELLOW => some "YELLOW"
  | .GREEN => some "GREEN"
  | .LIGHTBLUE => some "LIGHTBLUE"
  | .BLUE => some "BLUE"
  | .PURPLE => some "PURPLE"
  | .PINK => some "PINK"

/-- The function `LedColor::getAllColors`. -/
def LedColor.getAllColors : List LedColor.Color :=
  [.RED, .ORANGE, .YELLOW, .GREEN, .LIGHTBLUE, .BLUE, .PURPLE, .PINK]

/-- The function `StripType::toString`; `none` stands for `nullptr`. -/
def StripType.toString : StripType.Type → Option String
  | .RGB => some "RGB"
  | .RBG => some "RBG"
  | .GRB => some "GRB"
  | .GBR => some "GBR"
  | .BRG => some "BRG"
  | .BGR => some "BGR"

/-- The function `StripType::getAllStripTypes`. -/
def StripType.getAllStripTypes : List StripType.Type :=
  [.RGB, .RBG, .GRB, .GBR, .BRG, .BGR]

/-- The function `LedOrder::toString`; `none` stands for `nullptr`. -/
def LedOrder.toString : LedOrder.Order → Option String
  | .DIR => some "DIR"
  | .INV => some "INV"

/-- The function `LedOrder::getAllLedOrders`. -/
def LedOrder.getAllLedOrders : List LedOrder.Order := [.DIR, .INV]

/-- A recognised colour name: the name of one of the colours of
`getAllColors`, compared without regard to case. -/
def LedColor.isName (s : String) : Prop :=
  ∃ c ∈ LedColor.getAllColors, ∃ n : String,
    LedColor.toString c = some n ∧ strToLower s = strToLower n

/-- A recognised strip type name: the name of one of the types of
`getAllStripTypes`, compared without regard to case. -/
def StripType.isName (s : String) : Prop :=
  ∃ t ∈ StripType.getAllStripTypes, ∃ n : String,
    StripType.toString t = some n ∧ strToUpper s = strToUpper n

/-- A recognised LED order name: the name of one of the orders of
`getAllLedOrders`, compared without regard to case. -/
def LedOrder.isName (s : String) : Prop :=
  ∃ o ∈ LedOrder.getAllLedOrders, ∃ n : String,
    LedOrder.toString o = some n ∧ strToUpper s = strToUpper n

/-! ## `LedStrip.cpp`: construction and rendering -/

/-- The constructor of `LedStrip`. `init` is what `ws2811_init` of the
rpi_ws281x library does: `none` when it does not return `WS2811_SUCCESS`,
otherwise the buffer that it allocates for channel 0. -/
def LedStrip.create (freq dmaChannel gpioPin : Nat) (stripType : StripType.Type)
    (count : Nat) (init : Option (Nat → Nat)) : Except Exn LedStrip :=
  match init with
  | none => .error .LedStripException
  | some leds =>
    .ok { freq := freq, dmanum := dmaChannel, gpionum := gpioPin, count := count,
          invert := 0, brightness := 255, strip_type := stripType.val, leds := leds }

/-- The state that the loop of `main` works on: the strip, the colours that
the LEDs show, the number of calls of `render`, the microseconds slept, and
the variable `pin`. -/
structure Machine where
  strip : LedStrip
  hardware : Nat → Nat
  renders : Nat
  slept : Nat
  pin : Int

/-- The method `LedStrip::render`, a call of `ws2811_render` of the
rpi_ws281x library: the LEDs of the strip, those at the positions below
`count`, show the colours of the buffer. -/
def Machine.render (m : Machine) : Machine :=
  { m with
    hardware := fun i => if i < m.strip.count then m.strip.leds i else m.hardware i
    renders := m.renders + 1 }

/-- The call `usleep(usec)`. -/
def Machine.usleep (m : Machine) (usec : Nat) : Machine :=
  { m with slept := m.slept + usec }

/-! ## `main`: the loop and the start of the program -/

/-- The body of the `while` loop of `main` for the event that `getEvent`
returns. The string `note` only feeds the debug print and is left out. The
result is `none` when the conversion to `pin` has no defined result. -/
def mainIteration (config : PianoTutorPlusConfig) (m : Machine) (midiEvent : MidiEvent) :
    Option Machine :=
  if midiEvent.type ≠ .UNKNOWN ∧ midiEvent.type ≠ .NO_EVENT then
    (mainPin config midiEvent).map (fun pin =>
      (Machine.render
        { m with strip := mainSwitch config m.strip pin midiEvent, pin := pin }).usleep 10000)
  else
    some (m.usleep 10000)

/-- The `while (run)` loop of `main` over the events polled by the iterations
that run before the flag `run` is cleared. -/
def mainLoop (config : PianoTutorPlusConfig) : Machine → List MidiEvent → Option Machine
  | m, [] => some m
  | m, ev :: evs => (mainIteration config m ev).bind (fun m1 => mainLoop config m1 evs)

/-- The status `ERR_OPEN_FILE`. -/
def ERR_OPEN_FILE : Int := -1

/-- The status `ERR_PARSE_FILE`. -/
def ERR_PARSE_FILE : Int := -2

/-- The status `ERR_MIDI_DEVICE`. -/
def ERR_MIDI_DEVICE : Int := -3

/-- The status `EXIT_SUCCESS`. -/
def EXIT_SUCCESS : Int := 0

/-- What `getopt_long` returns for one option of the command line: one of the
three options that `main` registers, with its argument, or any other value
(an option that is not registered, a missing argument). -/
inductive CliOption where
  | help
  | version
  | file (arg : String)
  | other
deriving DecidableEq, Repr

/-- How a run of the program ends: a call of `exit`, the `return` of `main`,
or an exception that leaves `main` (which ends the process through
`std::terminate`); `badFunctionCall` is the `std::bad_function_call` of the
empty handler that `ArgParser::parse` calls for an option that is not
registered. -/
inductive Outcome where
  | exited (status : Int)
  | returned (value : Int)
  | uncaught (e : Exn)
  | badFunctionCall
deriving DecidableEq, Repr

/-- The method `ArgParser::parse` with the three handlers of `main`: the
value of `configFile` when every option is handled, or the way the program
ends in a handler. -/
def parseArgs : List CliOption → String → Except Outcome String
  | [], configFile => .ok configFile
  | .help :: _, _ => .error (.exited EXIT_SUCCESS)
  | .version :: _, _ => .error (.exited EXIT_SUCCESS)
  | .file arg :: rest, _ => parseArgs rest arg
  | .other :: _, _ => .error .badFunctionCall

/-- What a run of the program meets outside of its code: the options of the
command line, the standard library, the files, the result of `ws2811_init`,
whether the three calls of the MIDI sequencer in the constructor of
`MidiClient` succeed, the hardware state and the events polled by the
iterations of the loop that run before the flag `run` is cleared. -/
structure MainEnv where
  opts : List CliOption
  lib : StdLib
  files : String → Option String
  ws2811_init : Option (Nat → Nat)
  midiOpen : Bool
  hardware : Nat → Nat
  events : List MidiEvent

/-- The constructor of `MidiClient`. -/
def MidiClient.create (midiOpen : Bool) : Except Exn Unit :=
  if midiOpen then .ok () else .error .MidiDeviceException

/-- The three `catch` clauses of `main`; an exception of another class leaves
`main`. -/
def mainCatch : Exn → Outcome
  | .OpenFileException => .exited ERR_OPEN_FILE
  | .ParsingException => .exited ERR_PARSE_FILE
  | .MidiDeviceException => .exited ERR_MIDI_DEVICE
  | e => .uncaught e

/-- The `try` block of `main` after the options are parsed, and the `return 0`
that follows it when the block is left without an exception. The arguments of
the constructor of `LedStrip` are converted to its `unsigned char`
parameters. The result is `none` when a loop iteration has no defined
result. -/
def mainTry (env : MainEnv) (configFile : String) : Option (Except Exn Outcome) :=
  if configFile = "" then some (.ok (.exited ERR_OPEN_FILE))
  else
    match PianoTutorPlusConfig.construct env.lib env.files configFile with
    | .error e => some (.error e)
    | .ok config =>
      match LedStrip.create config.freq (toUChar config.dmaChannel) (toUChar config.gpioPin)
          config.stripType (toUChar config.ledCount) env.ws2811_init with
      | .error e => some (.error e)
      | .ok strip =>
        match MidiClient.create env.midiOpen with
        | .error e => some (.error e)
        | .ok _ =>
          (mainLoop config
            { strip := strip, hardware := env.hardware, renders := 0, slept := 0, pin := 0 }
            env.events).map (fun _ => .ok (.returned 0))

/-- The function `main`. -/
def main (env : MainEnv) : Option Outcome :=
  match parseArgs env.opts "" with
  | .error o => some o
  | .ok configFile =>
    (mainTry env configFile).map (fun r =>
      match r with
      | .ok o => o
      | .error e => mainCatch e)

/-! ## More sample files -/

/-- The text of a configuration file with one line `KEY = VALUE` for each
pair. -/
def settingsText (settings : List (String × String)) : String :=
  String.join (settings.map (fun kv => kv.1 ++ " = " ++ kv.2 ++ "\n"))

/-- The settings of a 61-key keyboard with the given values for the four
integers and the two notes. -/
def sampleSettings (freq gpio dma count minNote maxNote : String) : List (String × String) :=
  [("FREQUENCY", freq), ("GPIO_PIN", gpio), ("DMA_CHANNEL", dma), ("LED_COUNT", count),
   ("LED_ORDER", "DIR"), ("LED_TYPE", "GRB"), ("LED_PER_KEY", "1"),
   ("COLOR_RIGHT_HAND", "BLUE"), ("COLOR_LEFT_HAND", "GREEN"),
   ("KEYBOARD_MIN_NOTE", minNote), ("KEYBOARD_MAX_NOTE", maxNote)]

/-- The line `<spaces>KEY<spaces>=<spaces>VALUE<spaces>`. -/
def settingLine (sp1 key sp2 sp3 value sp4 : List Char) : String :=
  String.mk (sp1 ++ key ++ sp2 ++ ['='] ++ sp3 ++ value ++ sp4)

/-- The line `<spaces>KEY<spaces>=<spaces>VALUE<spaces>` followed by a comment
that starts with `#`. -/
def settingLineWithComment (sp1 key sp2 sp3 value sp4 comment : List Char) : String :=
  String.mk (sp1 ++ key ++ sp2 ++ ['='] ++ sp3 ++ value ++ sp4 ++ ['#'] ++ comment)

/-- The settings without the lines of one key. -/
def withoutKey (key : String) (settings : List (String × String)) : List (String × String) :=
  settings.filter (fun kv => kv.1 != key)

/-- The files in which every name opens the same text. -/
def onlyFile (text : String) (_filename : String) : Option String := some text

/-- A run of the program on one of the sample files, with the given results of
`ws2811_init` and of the MIDI sequencer, that polls a press and a release of
key 60 and then an empty queue before the flag `run` is cleared. -/
def sampleEnv (filename : String) (init : Option (Nat → Nat)) (midiOpen : Bool) : MainEnv :=
  { opts := [.file filename], lib := sampleLib, files := sampleFiles,
    ws2811_init := init, midiOpen := midiOpen, hardware := fun _ => 0,
    events := [⟨60, .NOTE_ON, .RIGHT⟩, ⟨60, .NOTE_OFF, .RIGHT⟩, ⟨0, .NO_EVENT, .RIGHT⟩] }

/-! ## `MidiClient.cpp`: from a MIDI value to a note name -/

/-- The array `notes` of `midi2note`. -/
def MidiClient.notes : List String :=
  ["C", "C#", "D", "D#", "E", "F"] ++ ["F#", "G", "G#", "A", "A#", "B"]

/-- The function `std::to_string(int)`: the decimal digits of the value, after
a minus sign when it is negative. -/
def to_string (v : Int) : String :=
  if v < 0 then "-" ++ Nat.repr v.natAbs else Nat.repr v.natAbs

/-- The function `MidiClient::midi2note`. The operators `%` and `/` of `int`
truncate towards zero; the result is `none` when `notes[note]` is read outside
of the array. -/
def MidiClient.midi2note (midi : Int) : Option String :=
  let note := Int.tmod midi 12
  let octave := Int.tdiv midi 12 - 1
  if 0 ≤ note then
    (MidiClient.notes.get? note.toNat).map (fun ret => ret ++ to_string octave)
  else none

/-! ## `MidiClient.cpp`: the events of the sequencer -/

/-- The value `SND_SEQ_EVENT_NOTEON` of the ALSA header `seq_event.h`. -/
def SND_SEQ_EVENT_NOTEON : Fin 256 := 6

/-- The value `SND_SEQ_EVENT_NOTEOFF` of the ALSA header `seq_event.h`. -/
def SND_SEQ_EVENT_NOTEOFF : Fin 256 := 7

/-- The fields of `snd_seq_event_t` that `getEvent` reads. `channel` is the
first byte of the union `data`: it is the field `channel` of `data.note` and
of `data.control` alike. -/
structure SndSeqEvent where
  type : Fin 256
  channel : Fin 256
  note : Fin 256
  velocity : Fin 256

/-- What a call `snd_seq_event_input(seq_handle, &ev)` does: it returns
`-EAGAIN` when no event is pending, or it makes `ev` point to the pending
event, or it returns another error and leaves `ev` null. -/
inductive SeqInput where
  | again
  | event (ev : SndSeqEvent)
  | failed

/-- The method `MidiClient::getEvent`. `ret` is the local variable of that
name as it is declared, without an initial value. The result is `none` when
the null pointer `ev` is read. -/
def MidiClient.getEvent (ret : MidiEvent) (input : SeqInput) : Option MidiEvent :=
  match input with
  | .again => some { ret with type := .NO_EVENT }
  | .failed => none
  | .event ev =>
    if ev.type = SND_SEQ_EVENT_NOTEON ∨ ev.type = SND_SEQ_EVENT_NOTEOFF then
      some
        { note := ev.note
          type :=
            if ev.type = SND_SEQ_EVENT_NOTEOFF
                ∨ (ev.type = SND_SEQ_EVENT_NOTEON ∧ ev.velocity = 0) then
              .NOTE_OFF
            else .NOTE_ON
          hand := if ev.channel = 0 then .RIGHT else .LEFT }
    else
      some { ret with type := .UNKNOWN }

/-! ## Note names as the specification describes them -/

/-- The letters A to G in upper and in lower case. -/
def noteLetters : List Char :=
  ['A', 'B', 'C', 'D', 'E', 'F', 'G', 'a', 'b', 'c', 'd', 'e', 'f', 'g']

/-- The letters that a `#` may follow: A, C, D, F and G in upper and in lower
case. -/
def sharpLetters : List Char := ['A', 'C', 'D', 'F', 'G', 'a', 'c', 'd', 'f', 'g']

/-- The digits 0 to 9. -/
def noteDigits : List Char := ['0', '1', '2', '3', '4', '5', '6', '7', '8', '9']

/-- The table of the semitone offsets of the pitch classes. -/
def semitoneTable : List (String × Int) :=
  [("C", 0), ("C#", 1), ("D", 2), ("D#", 3), ("E", 4), ("F", 5), ("F#", 6), ("G", 7),
   ("G#", 8), ("A", 9), ("A#", 10), ("B", 11)]

/-- The semitone offset of the pitch class of a letter, in either case, with
or without a `#`. -/
def semitone (l : Char) (sharp : Bool) : Option Int :=
  semitoneTable.lookup (String.mk (l.toUpper :: (if sharp then ['#'] else [])))

/-- The value of a decimal digit. -/
def digitValue (d : Char) : Int := ((d.toNat - 48 : Nat) : Int)

/-- A proper note name: one letter A-G in either case, then a `#` only after
A, C, D, F or G, then exactly one digit 0-9, and nothing else. -/
def isProperNoteName (s : String) : Bool :=
  match s.data with
  | [l, d] => noteLetters.contains l && noteDigits.contains d
  | [l, h, d] => sharpLetters.contains l && h == '#' && noteDigits.contains d
  | _ => false

/-- The pitch-class name at a position of the list C, C#, D, D#, E, F, F#,
G, G#, A, A#, B. -/
def specPitchName : Nat → String
  | 0 => "C"
  | 1 => "C#"
  | 2 => "D"
  | 3 => "D#"
  | 4 => "E"
  | 5 => "F"
  | 6 => "F#"
  | 7 => "G"
  | 8 => "G#"
  | 9 => "A"
  | 10 => "A#"
  | 11 => "B"
  | _ => ""

/-- The name that the specification gives to a MIDI value: the pitch class at
position `m mod 12` of the twelve names, then the octave `m / 12 - 1` in
decimal. -/
def specNoteName (m : Nat) : String :=
  specPitchName (m % 12) ++ toString (((m / 12 : Nat) : Int) - 1)

/-! ## Spellings of a name -/

/-- A spelling of the name `n` in another case: `s` has the length of `n`, and
at each place it has the character of `n`, its lower-case letter or its
upper-case letter. -/
def isCaseSpelling (s n : String) : Prop :=
  List.Forall₂ (fun a b => a = b ∨ a = b.toLower ∨ a = b.toUpper) s.data n.data

/-! ## `LedStrip.cpp`: clearing the strip and the destructor -/

/-- The method `LedStrip::clearAll`:
`memset(ledstring.channel[0].leds, 0, sizeof(ws2811_led_t) * count)`. -/
def LedStrip.clearAll (s : LedStrip) : LedStrip :=
  { s with leds := fun i => if i < s.count then 0 else s.leds i }

/-- The destructor `LedStrip::~LedStrip`: `clearAll()`, `render()` and then
`ws2811_fini` of the rpi_ws281x library, which releases the buffer and sends
nothing to the LEDs. -/
def Machine.destroyStrip (m : Machine) : Machine :=
  Machine.render { m with strip := m.strip.clearAll }

/-- The loop of `main` and the end of the `try` block on the path on which the
flag `run` is cleared and the loop is left: the objects of the block are
destroyed, `midi` closes the sequencer and then the destructor of `strip`
runs. -/
def mainShutdown (config : PianoTutorPlusConfig) (m : Machine) (events : List MidiEvent) :
    Option Machine :=
  (mainLoop config m events).map Machine.destroyStrip

end PianoTutor

namespace PianoTutor

/-! ## Rounding -/

/-- The library rounding and the rounding of the specification agree. -/
theorem cRound_eq_roundHalfAwayFromZero (x : ℚ) : cRound x = roundHalfAwayFromZero x := by
  unfold cRound roundHalfAwayFromZero
  by_cases h : 0 ≤ x
  · rw [if_pos h, if_neg (not_lt.mpr h)]
  · rw [if_neg h, if_pos (not_le.mp h), ← Int.ceil_neg]
    congr 1
    ring

/-- The library rounding is monotone. -/
theorem cRound_mono {x y : ℚ} (h : x ≤ y) : cRound x ≤ cRound y := by
  unfold cRound
  by_cases hx : 0 ≤ x
  · have hy : 0 ≤ y := le_trans hx h
    rw [if_pos hx, if_pos hy]
    exact Int.floor_mono (by linarith)
  · rw [if_neg hx]
    by_cases hy : 0 ≤ y
    · rw [if_pos hy]
      have h1 : ⌈x - 1 / 2⌉ ≤ 0 := by
        rw [Int.ceil_le]
        push_cast
        linarith [not_le.mp hx]
      have h2 : (0 : ℤ) ≤ ⌊y + 1 / 2⌋ := by
        rw [Int.le_floor]
        push_cast
        linarith
      exact le_trans h1 h2
    · rw [if_neg hy]
      exact Int.ceil_mono (by linarith)

/-- Rounding an integer gives the integer back. -/
theorem cRound_intCast (n : ℤ) : cRound (n : ℚ) = n := by
  unfold cRound
  by_cases h : (0 : ℚ) ≤ n
  · rw [if_pos h, Int.floor_eq_iff]
    constructor <;> linarith
  · rw [if_neg h, Int.ceil_eq_iff]
    constructor <;> linarith

/-- A halfway case above zero rounds up. -/
theorem cRound_half_pos (k : ℤ) (hk : 0 ≤ k) : cRound ((k : ℚ) + 1 / 2) = k + 1 := by
  have hk' : (0 : ℚ) ≤ k := by exact_mod_cast hk
  unfold cRound
  rw [if_pos (by linarith), Int.floor_eq_iff]
  push_cast
  constructor <;> linarith

/-- A halfway case below zero rounds down. -/
theorem cRound_half_neg (k : ℤ) (hk : 0 ≤ k) :
    cRound (-((k : ℚ) + 1 / 2)) = -(k + 1) := by
  have hk' : (0 : ℚ) ≤ k := by exact_mod_cast hk
  unfold cRound
  rw [if_neg (by linarith), Int.ceil_eq_iff]
  push_cast
  constructor <;> linarith

/-- The rounded value is within one half of the argument. -/
theorem cRound_dist_le (x : ℚ) : |(cRound x : ℚ) - x| ≤ 1 / 2 := by
  unfold cRound
  by_cases h : 0 ≤ x
  · rw [if_pos h, abs_le]
    have h1 := Int.floor_le (x + 1 / 2)
    have h2 := Int.lt_floor_add_one (x + 1 / 2)
    constructor <;> linarith
  · rw [if_neg h, abs_le]
    have h1 := Int.le_ceil (x - 1 / 2)
    have h2 := Int.ceil_lt_add_one (x - 1 / 2)
    constructor <;> linarith

/-- Away from the halfway cases the rounded value is strictly within one half
of the argument, so it is the nearest integer. -/
theorem cRound_dist_lt (x : ℚ)
    (hpos : ∀ k : ℤ, 0 ≤ k → x ≠ (k : ℚ) + 1 / 2)
    (hneg : ∀ k : ℤ, 0 ≤ k → x ≠ -((k : ℚ) + 1 / 2)) :
    |(cRound x : ℚ) - x| < 1 / 2 := by
  rcases lt_or_eq_of_le (cRound_dist_le x) with h | h
  · exact h
  · exfalso
    by_cases hx : 0 ≤ x
    · have hr : cRound x = ⌊x + 1 / 2⌋ := by unfold cRound; rw [if_pos hx]
      have h2 := Int.lt_floor_add_one (x + 1 / 2)
      have h1 := Int.floor_le (x + 1 / 2)
      rw [hr] at h
      have h3 : ((⌊x + 1 / 2⌋ : ℤ) : ℚ) - x = 1 / 2 := by
        rcases abs_eq (by norm_num : (0 : ℚ) ≤ 1 / 2) |>.mp h with h' | h'
        · exact h'
        · linarith
      have h4 : (1 : ℤ) ≤ ⌊x + 1 / 2⌋ := by
        have : (0 : ℚ) < ((⌊x + 1 / 2⌋ : ℤ) : ℚ) := by linarith
        have : (0 : ℤ) < ⌊x + 1 / 2⌋ := by exact_mod_cast this
        omega
      apply hpos (⌊x + 1 / 2⌋ - 1) (by omega)
      push_cast
      linarith
    · have hr : cRound x = ⌈x - 1 / 2⌉ := by unfold cRound; rw [if_neg hx]
      have h1 := Int.le_ceil (x - 1 / 2)
      have h2 := Int.ceil_lt_add_one (x - 1 / 2)
      rw [hr] at h
      have h3 : ((⌈x - 1 / 2⌉ : ℤ) : ℚ) - x = -(1 / 2) := by
        rcases abs_eq (by norm_num : (0 : ℚ) ≤ 1 / 2) |>.mp h with h' | h'
        · linarith
        · exact h'
      have h4 : ⌈x - 1 / 2⌉ ≤ -1 := by
        have : ((⌈x - 1 / 2⌉ : ℤ) : ℚ) < 0 := by linarith [not_le.mp hx]
        have : ⌈x - 1 / 2⌉ < 0 := by exact_mod_cast this
        omega
      apply hneg (-⌈x - 1 / 2⌉ - 1) (by omega)
      push_cast
      linarith

/-! ## Rounding to binary32 -/

/-- Rounding to even lies between the floor and the floor plus one. -/
theorem roundHalfEven_bounds (y : ℚ) : ⌊y⌋ ≤ roundHalfEven y ∧ roundHalfEven y ≤ ⌊y⌋ + 1 := by
  unfold roundHalfEven
  split_ifs <;> constructor <;> omega

/-- Rounding an integer to even gives the integer back. -/
theorem roundHalfEven_intCast (n : ℤ) : roundHalfEven (n : ℚ) = n := by
  unfold roundHalfEven
  rw [Int.floor_intCast, sub_self, if_pos (by norm_num)]

/-- Rounding to even is monotone. -/
theorem roundHalfEven_mono {x y : ℚ} (h : x ≤ y) : roundHalfEven x ≤ roundHalfEven y := by
  have hf := Int.floor_mono h
  rcases lt_or_eq_of_le hf with hlt | heq
  · have h1 := (roundHalfEven_bounds x).2
    have h2 := (roundHalfEven_bounds y).1
    omega
  · unfold roundHalfEven
    rw [← heq]
    have hxy : x - ⌊x⌋ ≤ y - ⌊x⌋ := by linarith
    by_cases hy1 : y - ⌊x⌋ < 1 / 2
    · rw [if_pos hy1, if_pos (lt_of_le_of_lt hxy hy1)]
    · rw [if_neg hy1]
      by_cases hy2 : 1 / 2 < y - ⌊x⌋
      · rw [if_pos hy2]
        split_ifs <;> omega
      · rw [if_neg hy2]
        have hy : y - ⌊x⌋ = 1 / 2 := le_antisymm (not_lt.mp hy2) (not_lt.mp hy1)
        by_cases hx1 : x - ⌊x⌋ < 1 / 2
        · rw [if_pos hx1]
          split_ifs <;> omega
        · rw [if_neg hx1, if_neg (by linarith)]

/-- Rounding to even moves a value by one half at most. -/
theorem roundHalfEven_dist_le (y : ℚ) : |(roundHalfEven y : ℚ) - y| ≤ 1 / 2 := by
  have h1 := Int.floor_le y
  have h2 := Int.lt_floor_add_one y
  unfold roundHalfEven
  rw [abs_le]
  split_ifs with ha hb hc
  · constructor <;> linarith
  · push_cast
    constructor <;> linarith
  · constructor <;> linarith
  · push_cast
    constructor <;> linarith

/-- The logarithm of a value that reaches `2 ^ e` is at least `e`. -/
theorem le_log_of_zpow_le {x : ℚ} {e : ℤ} (h : (2 : ℚ) ^ e ≤ |x|) : e ≤ Int.log 2 |x| := by
  have hpos : 0 < |x| := lt_of_lt_of_le (by positivity) h
  apply (Int.zpow_le_iff_le_log (b := 2) (by norm_num) hpos).mp
  have : ((2 : ℕ) : ℚ) = 2 := by norm_num
  rw [this]
  exact h

/-- The logarithm of a positive value below `2 ^ e` is below `e`. -/
theorem log_lt_of_lt_zpow {x : ℚ} {e : ℤ} (hpos : 0 < |x|) (h : |x| < (2 : ℚ) ^ e) :
    Int.log 2 |x| < e := by
  apply (Int.lt_zpow_iff_log_lt (b := 2) (by norm_num) hpos).mp
  have : ((2 : ℕ) : ℚ) = 2 := by norm_num
  rw [this]
  exact h

/-- The binade of a value is one of the exponents of the normal numbers or
the exponent `-126` that the subnormal numbers share. -/
theorem binade_ge (x : ℚ) : -126 ≤ binade x := by
  unfold binade
  split_ifs with h
  · exact le_refl _
  · exact le_log_of_zpow_le (not_lt.mp h)

/-- A value lies below the upper end of its binade. -/
theorem abs_lt_zpow_binade (x : ℚ) : |x| < (2 : ℚ) ^ (binade x + 1) := by
  unfold binade
  split_ifs with h
  · calc |x| < (2 : ℚ) ^ (-126 : ℤ) := h
      _ ≤ (2 : ℚ) ^ (-126 + 1 : ℤ) := zpow_le_zpow_right₀ (by norm_num) (by norm_num)
  · have h1 := Int.lt_zpow_succ_log_self (b := 2) (by norm_num) |x|
    have : ((2 : ℕ) : ℚ) = 2 := by norm_num
    rw [this] at h1
    exact h1

/-- A value whose binade is above `-126` reaches the lower end of its
binade. -/
theorem zpow_binade_le_abs (x : ℚ) (h : -126 < binade x) : (2 : ℚ) ^ binade x ≤ |x| := by
  unfold binade at h ⊢
  split_ifs at h ⊢ with hs
  · exact absurd h (lt_irrefl _)
  · have hpos : 0 < |x| := lt_of_lt_of_le (by positivity) (not_lt.mp hs)
    have h1 := Int.zpow_log_le_self (b := 2) (by norm_num) hpos
    have : ((2 : ℕ) : ℚ) = 2 := by norm_num
    rw [this] at h1
    exact h1

/-- The binade of a value between two consecutive powers of two, from
`2 ^ (-126)` on. -/
theorem binade_eq_of_bounds (x : ℚ) (e : ℤ) (he : -126 ≤ e) (h1 : (2 : ℚ) ^ e ≤ |x|)
    (h2 : |x| < (2 : ℚ) ^ (e + 1)) : binade x = e := by
  have hpos : 0 < |x| := lt_of_lt_of_le (by positivity) h1
  have hs : ¬ |x| < (2 : ℚ) ^ (-126 : ℤ) := by
    rw [not_lt]
    exact le_trans (zpow_le_zpow_right₀ (by norm_num) he) h1
  unfold binade
  rw [if_neg hs]
  have ha := le_log_of_zpow_le h1
  have hb := log_lt_of_lt_zpow hpos h2
  omega

/-- The binade of a value below the smallest normal number. -/
theorem binade_eq_of_small (x : ℚ) (h : |x| < (2 : ℚ) ^ (-126 : ℤ)) : binade x = -126 := by
  unfold binade
  rw [if_pos h]

/-- The binade grows with the magnitude. -/
theorem binade_mono {x y : ℚ} (h : |x| ≤ |y|) : binade x ≤ binade y := by
  by_contra hlt
  push_neg at hlt
  have h1 : -126 < binade x := lt_of_le_of_lt (binade_ge y) hlt
  have h2 := zpow_binade_le_abs x h1
  have h3 := abs_lt_zpow_binade y
  have h4 : (2 : ℚ) ^ (binade y + 1) ≤ (2 : ℚ) ^ binade x :=
    zpow_le_zpow_right₀ (by norm_num) (by omega)
  linarith

/-- The spacing of the floats around a value is positive. -/
theorem ulp_pos (x : ℚ) : 0 < ulp x := by
  unfold ulp
  positivity

/-- Zero rounds to zero. -/
theorem roundToBinary32_zero : roundToBinary32 0 = 0 := by
  unfold roundToBinary32
  rw [zero_div]
  have := roundHalfEven_intCast 0
  simp only [Int.cast_zero] at this
  rw [this]
  simp

/-- A value `m * 2 ^ e` with `|m| < 2 ^ 24` and `e` from `-149` on is a
float: rounding leaves it as it is. -/
theorem roundToBinary32_exact (m e : ℤ) (hm : |m| < 2 ^ 24) (he : -149 ≤ e) :
    roundToBinary32 ((m : ℚ) * (2 : ℚ) ^ e) = (m : ℚ) * (2 : ℚ) ^ e := by
  have hb : binade ((m : ℚ) * (2 : ℚ) ^ e) ≤ e + 23 := by
    by_contra hlt
    push_neg at hlt
    have h1 : -126 < binade ((m : ℚ) * (2 : ℚ) ^ e) := by omega
    have h2 := zpow_binade_le_abs _ h1
    have h3 : |(m : ℚ) * (2 : ℚ) ^ e| < (2 : ℚ) ^ (e + 24) := by
      rw [abs_mul, abs_of_pos (by positivity : (0 : ℚ) < (2 : ℚ) ^ e)]
      have hmq : |(m : ℚ)| < (2 : ℚ) ^ (24 : ℤ) := by
        have : ((|m| : ℤ) : ℚ) < ((2 ^ 24 : ℤ) : ℚ) := by exact_mod_cast hm
        rw [Int.cast_abs] at this
        norm_num at this ⊢
        exact this
      calc |(m : ℚ)| * (2 : ℚ) ^ e < (2 : ℚ) ^ (24 : ℤ) * (2 : ℚ) ^ e :=
            mul_lt_mul_of_pos_right hmq (by positivity)
        _ = (2 : ℚ) ^ (e + 24) := by
            rw [← zpow_add₀ (by norm_num : (2 : ℚ) ≠ 0)]
            congr 1
            ring
    have h4 : (2 : ℚ) ^ (e + 24) ≤ (2 : ℚ) ^ binade ((m : ℚ) * (2 : ℚ) ^ e) :=
      zpow_le_zpow_right₀ (by norm_num) (by omega)
    linarith
  unfold roundToBinary32 ulp
  generalize binade ((m : ℚ) * (2 : ℚ) ^ e) = b at hb
  obtain ⟨k, hk⟩ : ∃ k : ℕ, e = b - 23 + (k : ℤ) := ⟨(e - (b - 23)).toNat, by omega⟩
  have hdiv : (m : ℚ) * (2 : ℚ) ^ e / (2 : ℚ) ^ (b - 23) = ((m * 2 ^ k : ℤ) : ℚ) := by
    rw [hk, zpow_add₀ (by norm_num : (2 : ℚ) ≠ 0), zpow_natCast]
    push_cast
    field_simp
    ring
  rw [hdiv, roundHalfEven_intCast, ← hdiv]
  field_simp

/-- Rounding to binary32 is monotone on the values from zero on. -/
theorem roundToBinary32_mono {x y : ℚ} (hx : 0 ≤ x) (h : x ≤ y) :
    roundToBinary32 x ≤ roundToBinary32 y := by
  have hy : 0 ≤ y := le_trans hx h
  have hb : binade x ≤ binade y := binade_mono (by rw [abs_of_nonneg hx, abs_of_nonneg hy]; exact h)
  rcases eq_or_lt_of_le hb with heq | hlt
  · unfold roundToBinary32 ulp
    rw [heq]
    apply mul_le_mul_of_nonneg_right _ (by positivity)
    have : x / (2 : ℚ) ^ (binade y - 23) ≤ y / (2 : ℚ) ^ (binade y - 23) :=
      div_le_div_of_nonneg_right h (by positivity)
    exact_mod_cast roundHalfEven_mono this
  · have h1 : roundToBinary32 x ≤ (2 : ℚ) ^ (binade x + 1) := by
      unfold roundToBinary32 ulp
      have hlt2 := abs_lt_zpow_binade x
      rw [abs_of_nonneg hx] at hlt2
      have hq : x / (2 : ℚ) ^ (binade x - 23) ≤ ((2 ^ 24 : ℤ) : ℚ) := by
        rw [div_le_iff₀ (by positivity)]
        have : ((2 ^ 24 : ℤ) : ℚ) * (2 : ℚ) ^ (binade x - 23) = (2 : ℚ) ^ (binade x + 1) := by
          have : ((2 ^ 24 : ℤ) : ℚ) = (2 : ℚ) ^ (24 : ℤ) := by norm_num
          rw [this, ← zpow_add₀ (by norm_num : (2 : ℚ) ≠ 0)]
          congr 1
          ring
        rw [this]
        exact le_of_lt hlt2
      have hr := roundHalfEven_mono hq
      rw [roundHalfEven_intCast] at hr
      have hr2 : (roundHalfEven (x / (2 : ℚ) ^ (binade x - 23)) : ℚ) ≤ ((2 ^ 24 : ℤ) : ℚ) := by
        exact_mod_cast hr
      calc (roundHalfEven (x / (2 : ℚ) ^ (binade x - 23)) : ℚ) * (2 : ℚ) ^ (binade x - 23)
          ≤ ((2 ^ 24 : ℤ) : ℚ) * (2 : ℚ) ^ (binade x - 23) :=
            mul_le_mul_of_nonneg_right hr2 (by positivity)
        _ = (2 : ℚ) ^ (binade x + 1) := by
          have : ((2 ^ 24 : ℤ) : ℚ) = (2 : ℚ) ^ (24 : ℤ) := by norm_num
          rw [this, ← zpow_add₀ (by norm_num : (2 : ℚ) ≠ 0)]
          congr 1
          ring
    have h2 : (2 : ℚ) ^ binade y ≤ roundToBinary32 y := by
      have hge := zpow_binade_le_abs y (lt_of_le_of_lt (binade_ge x) hlt)
      rw [abs_of_nonneg hy] at hge
      unfold roundToBinary32 ulp
      have hq : ((2 ^ 23 : ℤ) : ℚ) ≤ y / (2 : ℚ) ^ (binade y - 23) := by
        rw [le_div_iff₀ (by positivity)]
        have : ((2 ^ 23 : ℤ) : ℚ) * (2 : ℚ) ^ (binade y - 23) = (2 : ℚ) ^ binade y := by
          have : ((2 ^ 23 : ℤ) : ℚ) = (2 : ℚ) ^ (23 : ℤ) := by norm_num
          rw [this, ← zpow_add₀ (by norm_num : (2 : ℚ) ≠ 0)]
          congr 1
          ring
        rw [this]
        exact hge
      have hr := roundHalfEven_mono hq
      rw [roundHalfEven_intCast] at hr
      have hr2 : ((2 ^ 23 : ℤ) : ℚ) ≤ (roundHalfEven (y / (2 : ℚ) ^ (binade y - 23)) : ℚ) := by
        exact_mod_cast hr
      calc (2 : ℚ) ^ binade y = ((2 ^ 23 : ℤ) : ℚ) * (2 : ℚ) ^ (binade y - 23) := by
            have : ((2 ^ 23 : ℤ) : ℚ) = (2 : ℚ) ^ (23 : ℤ) := by norm_num
            rw [this, ← zpow_add₀ (by norm_num : (2 : ℚ) ≠ 0)]
            congr 1
            ring
        _ ≤ _ := mul_le_mul_of_nonneg_right hr2 (by positivity)
    have h3 : (2 : ℚ) ^ (binade x + 1) ≤ (2 : ℚ) ^ binade y :=
      zpow_le_zpow_right₀ (by norm_num) (by omega)
    linarith

/-- Rounding a value from zero on gives a value from zero on. -/
theorem roundToBinary32_nonneg {x : ℚ} (hx : 0 ≤ x) : 0 ≤ roundToBinary32 x := by
  have := roundToBinary32_mono (le_refl 0) hx
  rwa [roundToBinary32_zero] at this

/-- The rounding of a value in a known binade. -/
theorem roundToBinary32_of_binade (x : ℚ) (e : ℤ) (h : binade x = e) :
    roundToBinary32 x = (roundHalfEven (x / (2 : ℚ) ^ (e - 23)) : ℚ) * (2 : ℚ) ^ (e - 23) := by
  unfold roundToBinary32 ulp
  rw [h]

/-- The rounded value is a multiple `m * 2 ^ e` of the spacing with
`|m| <= 2 ^ 24` and `e >= -149`: a binary32 value, or `2 ^ 128` in magnitude
when the rounding passes the largest finite value. -/
theorem roundToBinary32_form (x : ℚ) :
    ∃ m : ℤ, |m| ≤ 2 ^ 24 ∧ -149 ≤ binade x - 23 ∧
      roundToBinary32 x = (m : ℚ) * (2 : ℚ) ^ (binade x - 23) := by
  refine ⟨roundHalfEven (x / ulp x), ?_, ?_, rfl⟩
  · have hlt := abs_lt_zpow_binade x
    have hu : (2 : ℚ) ^ (binade x + 1) = ((2 ^ 24 : ℤ) : ℚ) * ulp x := by
      unfold ulp
      have : ((2 ^ 24 : ℤ) : ℚ) = (2 : ℚ) ^ (24 : ℤ) := by norm_num
      rw [this, ← zpow_add₀ (by norm_num : (2 : ℚ) ≠ 0)]
      congr 1
      ring
    rw [hu, abs_lt] at hlt
    have hpos := ulp_pos x
    have h1 : ((-(2 ^ 24) : ℤ) : ℚ) ≤ x / ulp x := by
      rw [le_div_iff₀ hpos]
      push_cast at hlt ⊢
      linarith [hlt.1]
    have h2 : x / ulp x ≤ ((2 ^ 24 : ℤ) : ℚ) := by
      rw [div_le_iff₀ hpos]
      linarith [hlt.2]
    have r1 := roundHalfEven_mono h1
    have r2 := roundHalfEven_mono h2
    rw [roundHalfEven_intCast] at r1 r2
    rw [abs_le]
    exact ⟨r1, r2⟩
  · have := binade_ge x
    omega

/-- The rounded value is at most half a spacing away from the exact value. -/
theorem roundToBinary32_dist_le (x : ℚ) : |roundToBinary32 x - x| ≤ ulp x / 2 := by
  have hpos := ulp_pos x
  have h := roundHalfEven_dist_le (x / ulp x)
  have hx : roundToBinary32 x - x = ((roundHalfEven (x / ulp x) : ℚ) - x / ulp x) * ulp x := by
    unfold roundToBinary32
    field_simp
  rw [hx, abs_mul, abs_of_pos hpos]
  calc |(roundHalfEven (x / ulp x) : ℚ) - x / ulp x| * ulp x ≤ 1 / 2 * ulp x :=
        mul_le_mul_of_nonneg_right h (le_of_lt hpos)
    _ = ulp x / 2 := by ring

/-- A value given as `m * 2 ^ e` with `|m| < 2 ^ 24` and `e` from `-149` on
is a float. -/
theorem roundToBinary32_eq_self (x : ℚ) (m e : ℤ) (hm : |m| < 2 ^ 24) (he : -149 ≤ e)
    (hx : x = (m : ℚ) * (2 : ℚ) ^ e) : roundToBinary32 x = x := by
  rw [hx]
  exact roundToBinary32_exact m e hm he

/-- An integer below `2 ^ 24` in magnitude is a float. -/
theorem roundToBinary32_intCast (n : ℤ) (hn : |n| < 2 ^ 24) :
    roundToBinary32 (n : ℚ) = (n : ℚ) :=
  roundToBinary32_eq_self _ n 0 hn (by norm_num) (by simp)

/-- The library rounding of a value is at most one half away from it, so a
value whose rounding is an `int` is far below `2 ^ 128`. -/
theorem abs_lt_of_cRound_fits {r : ℚ} (hlo : INT_MIN ≤ cRound r) (hhi : cRound r ≤ INT_MAX) :
    |r| < (2 : ℚ) ^ (128 : ℕ) := by
  have hd := cRound_dist_le r
  rw [abs_le] at hd
  have h1 : ((INT_MIN : ℤ) : ℚ) ≤ (cRound r : ℚ) := by exact_mod_cast hlo
  have h2 : (cRound r : ℚ) ≤ ((INT_MAX : ℤ) : ℚ) := by exact_mod_cast hhi
  have h3 : ((INT_MIN : ℤ) : ℚ) = -2147483648 := by unfold INT_MIN; norm_num
  have h4 : ((INT_MAX : ℤ) : ℚ) = 2147483647 := by unfold INT_MAX; norm_num
  rw [h3] at h1
  rw [h4] at h2
  rw [abs_lt]
  constructor
  · have : -(2 : ℚ) ^ (128 : ℕ) < -2147483649 := by norm_num
    linarith [hd.1, hd.2]
  · have : (2147483648 : ℚ) < (2 : ℚ) ^ (128 : ℕ) := by norm_num
    linarith [hd.1, hd.2]

/-- The `float` of an exact result whose rounding is below `2 ^ 128` in
magnitude is that rounding. -/
theorem ofRat_eq_finite {x : ℚ} (h : |roundToBinary32 x| < (2 : ℚ) ^ (128 : ℕ)) :
    Float32.ofRat x = .finite (roundToBinary32 x) := by
  unfold Float32.ofRat
  rw [if_neg (not_le.mpr h)]

/-- The `float` of an exact result whose rounding reaches `2 ^ 128` in
magnitude is an infinity. -/
theorem ofRat_eq_inf {x : ℚ} (h : (2 : ℚ) ^ (128 : ℕ) ≤ |roundToBinary32 x|) :
    Float32.ofRat x = .inf (decide (x < 0)) := by
  unfold Float32.ofRat
  rw [if_pos h]

/-- The conversion of an `int` below `2 ^ 24` in magnitude to `float` is
exact. -/
theorem ofInt_eq_finite (n : ℤ) (hn : |n| < 2 ^ 24) : Float32.ofInt n = .finite (n : ℚ) := by
  unfold Float32.ofInt
  have hr := roundToBinary32_intCast n hn
  have hlt : |roundToBinary32 (n : ℚ)| < (2 : ℚ) ^ (128 : ℕ) := by
    rw [hr]
    have h1 : |(n : ℚ)| < ((2 ^ 24 : ℤ) : ℚ) := by
      have : ((|n| : ℤ) : ℚ) < ((2 ^ 24 : ℤ) : ℚ) := by exact_mod_cast hn
      rwa [Int.cast_abs] at this
    have h2 : ((2 ^ 24 : ℤ) : ℚ) < (2 : ℚ) ^ (128 : ℕ) := by norm_num
    exact lt_trans h1 h2
  rw [ofRat_eq_finite hlt, hr]

/-- The assignment `pin = round(x)` on the `float` of an exact result whose
rounded value is an `int`. -/
theorem roundToInt_ofRat {x : ℚ} (hlo : INT_MIN ≤ cRound (roundToBinary32 x))
    (hhi : cRound (roundToBinary32 x) ≤ INT_MAX) :
    roundToInt (Float32.ofRat x) = some (cRound (roundToBinary32 x)) := by
  rw [ofRat_eq_finite (abs_lt_of_cRound_fits hlo hhi)]
  show floatToInt _ = _
  unfold floatToInt
  rw [if_pos ⟨hlo, hhi⟩]

/-- The assignment `pin = round(x)` has no defined result on the `float` of an
exact result whose rounded value is not an `int`. -/
theorem roundToInt_ofRat_eq_none {x : ℚ}
    (h : cRound (roundToBinary32 x) < INT_MIN ∨ INT_MAX < cRound (roundToBinary32 x)) :
    roundToInt (Float32.ofRat x) = none := by
  unfold Float32.ofRat
  split_ifs
  · rfl
  · show floatToInt _ = none
    unfold floatToInt
    rw [if_neg]
    rintro ⟨h1, h2⟩
    rcases h with h | h <;> omega

/-! ## The constructor of the configuration -/

/-- A successful `Config::parseInt` is a successful `std::stoi`. -/
theorem parseInt_eq_ok {lib : StdLib} {str : String} {v : Int}
    (h : Config.parseInt lib str = .ok v) : lib.stoi str = some v := by
  unfold Config.parseInt at h
  split at h
  · rename_i w hw
    cases h
    exact hw
  · cases h

/-- A successful `Config::parseFloat` is a successful `std::stof`. -/
theorem parseFloat_eq_ok {lib : StdLib} {str : String} {v : Float32}
    (h : Config.parseFloat lib str = .ok v) : lib.stof str = some v := by
  unfold Config.parseFloat at h
  split at h
  · rename_i w hw
    cases h
    exact hw
  · cases h

/-- What a successful run of the `try` block of the constructor says about the
settings of the file and the fields of the object. -/
theorem tryBlock_ok_inv (lib : StdLib) (conf : Config) (config : PianoTutorPlusConfig)
    (h : PianoTutorPlusConfig.tryBlock lib conf = .ok config) :
    (∃ v : Int, lib.stoi (conf.get KEY_FREQ) = some v ∧ config.freq = toUInt v
      ∧ 0 < config.freq) ∧
    (∃ v : Int, lib.stoi (conf.get KEY_GPIO_PIN) = some v ∧ config.gpioPin = toUShort v
      ∧ 0 < config.gpioPin) ∧
    (∃ v : Int, lib.stoi (conf.get KEY_DMA_CHANNEL) = some v ∧ config.dmaChannel = toUShort v
      ∧ 0 < config.dmaChannel) ∧
    (∃ v : Int, lib.stoi (conf.get KEY_LED_COUNT) = some v ∧ config.ledCount = toUShort v
      ∧ 0 < config.ledCount) ∧
    (lib.stof (conf.get KEY_LED_PER_KEY) = some config.ledPerKey
      ∧ config.ledPerKey.leZero = false) ∧
    (config.keyboardMinNote = toUCharFin (MidiClient.note2midi (conf.get KEY_KEYBOARD_MIN_NOTE))
      ∧ 0 < config.keyboardMinNote.val) ∧
    (config.keyboardMaxNote = toUCharFin (MidiClient.note2midi (conf.get KEY_KEYBOARD_MAX_NOTE))
      ∧ 0 < config.keyboardMaxNote.val) ∧
    tryCatch (PianoTutorPlusConfig.parseNames conf) PianoTutorPlusConfig.catchNames
      = .ok (config.ledOrder, config.stripType, config.colorRightHand, config.colorLeftHand) := by
  unfold PianoTutorPlusConfig.tryBlock at h
  simp only [bind, Except.bind, pure, Except.pure, PianoTutorPlusConfig.throwParsingError] at h
  split at h
  · cases h
  rename_i v0 hv0
  split at h
  · cases h
  rename_i hp0
  split at h
  · cases h
  rename_i v1 hv1
  split at h
  · cases h
  rename_i hp1
  split at h
  · cases h
  rename_i v2 hv2
  split at h
  · cases h
  rename_i hp2
  split at h
  · cases h
  rename_i v3 hv3
  split at h
  · cases h
  rename_i hp3
  split at h
  · cases h
  rename_i v4 hv4
  split at h
  · cases h
  rename_i hp4
  split at h
  · cases h
  rename_i hp5
  split at h
  · cases h
  rename_i hp6
  split at h
  · cases h
  rename_i v7 hv7
  cases h
  exact ⟨⟨v0, parseInt_eq_ok hv0, rfl, Nat.lt_of_not_le hp0⟩,
    ⟨v1, parseInt_eq_ok hv1, rfl, Nat.lt_of_not_le hp1⟩,
    ⟨v2, parseInt_eq_ok hv2, rfl, Nat.lt_of_not_le hp2⟩,
    ⟨v3, parseInt_eq_ok hv3, rfl, Nat.lt_of_not_le hp3⟩,
    ⟨parseFloat_eq_ok hv4, Bool.eq_false_iff.mpr hp4⟩,
    ⟨rfl, Nat.lt_of_not_le hp5⟩, ⟨rfl, Nat.lt_of_not_le hp6⟩, hv7⟩

/-- The `try` block succeeds when every setting passes its check. -/
theorem tryBlock_eq_ok (lib : StdLib) (conf : Config) (f g d c : Int) (q : Float32)
    (names : LedOrder.Order × StripType.Type × LedColor.Color × LedColor.Color)
    (hf : lib.stoi (conf.get KEY_FREQ) = some f) (hf0 : 0 < toUInt f)
    (hg : lib.stoi (conf.get KEY_GPIO_PIN) = some g) (hg0 : 0 < toUShort g)
    (hd : lib.stoi (conf.get KEY_DMA_CHANNEL) = some d) (hd0 : 0 < toUShort d)
    (hc : lib.stoi (conf.get KEY_LED_COUNT) = some c) (hc0 : 0 < toUShort c)
    (hq : lib.stof (conf.get KEY_LED_PER_KEY) = some q) (hq0 : q.leZero = false)
    (hmin : 0 < (toUCharFin (MidiClient.note2midi (conf.get KEY_KEYBOARD_MIN_NOTE))).val)
    (hmax : 0 < (toUCharFin (MidiClient.note2midi (conf.get KEY_KEYBOARD_MAX_NOTE))).val)
    (hn : tryCatch (PianoTutorPlusConfig.parseNames conf) PianoTutorPlusConfig.catchNames
      = .ok names) :
    PianoTutorPlusConfig.tryBlock lib conf = .ok
      { freq := toUInt f, gpioPin := toUShort g, dmaChannel := toUShort d,
        ledCount := toUShort c, ledOrder := names.1, stripType := names.2.1, ledPerKey := q,
        colorRightHand := names.2.2.1, colorLeftHand := names.2.2.2,
        keyboardMinNote := toUCharFin (MidiClient.note2midi (conf.get KEY_KEYBOARD_MIN_NOTE)),
        keyboardMaxNote :=
          toUCharFin (MidiClient.note2midi (conf.get KEY_KEYBOARD_MAX_NOTE)) } := by
  unfold PianoTutorPlusConfig.tryBlock
  simp only [bind, Except.bind, pure, Except.pure, PianoTutorPlusConfig.throwParsingError,
    Config.parseInt, Config.parseFloat, hf, hg, hd, hc, hq, hn]
  rw [if_neg (Nat.not_le.mpr hf0), if_neg (Nat.not_le.mpr hg0), if_neg (Nat.not_le.mpr hd0),
    if_neg (Nat.not_le.mpr hc0), if_neg (Bool.eq_false_iff.mp hq0),
    if_neg (Nat.not_le.mpr hmin),
    if_neg (Nat.not_le.mpr hmax)]

/-- The constructor, once the file is read, returns what the `try` block
returns, or throws a `ParsingException`. -/
theorem construct_of_parse_ok (lib : StdLib) (files : String → Option String)
    (filename : String) (conf : Config) (h : Config.parse files filename = .ok conf) :
    PianoTutorPlusConfig.construct lib files filename =
      match PianoTutorPlusConfig.tryBlock lib conf with
      | .ok config => .ok config
      | .error _ => .error .ParsingException := by
  unfold PianoTutorPlusConfig.construct
  rw [h]

/-- A constructed configuration comes from a file that was read and a `try`
block that succeeded on it. -/
theorem construct_ok_inv (lib : StdLib) (files : String → Option String)
    (filename : String) (config : PianoTutorPlusConfig)
    (h : PianoTutorPlusConfig.construct lib files filename = .ok config) :
    ∃ conf : Config, Config.parse files filename = .ok conf ∧
      PianoTutorPlusConfig.tryBlock lib conf = .ok config := by
  unfold PianoTutorPlusConfig.construct at h
  split at h
  · cases h
  · rename_i conf hconf
    split at h
    · rename_i c hc
      cases h
      exact ⟨conf, hconf, hc⟩
    · cases h

/-- The sample `stof` on a text that starts with a decimal number is the
rounding of the value of the number. -/
theorem sampleStof_of_number (s : String) (x : ℚ) (hs : readSpecial s = none)
    (hn : readNumber s = some x) : sampleStof s = stofRound x := by
  unfold sampleStof
  rw [hs, hn]
  rfl

/-- The sample `stof` returns a decimal value that is a float as it is. -/
theorem stofRound_of_float (x : ℚ) (m e : ℤ) (hm : |m| < 2 ^ 24) (he : -149 ≤ e)
    (hx : x = (m : ℚ) * (2 : ℚ) ^ e) (hlt : |x| < (2 : ℚ) ^ (128 : ℕ)) :
    stofRound x = some (.finite x) := by
  have hr := roundToBinary32_eq_self x m e hm he hx
  unfold stofRound
  rw [hr, if_neg (not_le.mpr hlt), if_neg (fun h => h.2 rfl)]

/-- The sample `stof` returns the nearest float of a decimal value in the
range of the normal numbers. -/
theorem stofRound_of_normal (x r : ℚ) (hr : roundToBinary32 x = r)
    (hlo : (2 : ℚ) ^ (-126 : ℤ) ≤ |x|) (hhi : |r| < (2 : ℚ) ^ (128 : ℕ)) :
    stofRound x = some (.finite r) := by
  unfold stofRound
  rw [hr, if_neg (not_le.mpr hhi), if_neg (fun h => absurd h.1 (not_lt.mpr hlo))]

/-- The sample `stof` on the values of `LED_PER_KEY` of the sample files that
are floats as they are written. -/
theorem sampleStof_values :
    sampleStof "0" = some (.finite 0) ∧ sampleStof "-2.5" = some (.finite (-5 / 2)) ∧
    sampleStof "1.5" = some (.finite (3 / 2)) ∧ sampleStof "1" = some (.finite 1) ∧
    sampleStof "0.5" = some (.finite (1 / 2)) ∧
    sampleStof "1073741824" = some (.finite 1073741824) ∧
    sampleStof "16777215" = some (.finite 16777215) ∧
    sampleStof "5592405.5" = some (.finite (11184811 / 2)) := by
  have n0 : readNumber "0" = some 0 := by
    have h : readDecimal "0" = some (false, 0, 0) := by decide
    have he : readExponent (afterMantissa (splitSign (ltrim "0".data)).2) = 0 := by decide
    unfold readNumber
    rw [h, he]
    norm_num
  have n1 : readNumber "-2.5" = some (-5 / 2) := by
    have h : readDecimal "-2.5" = some (true, 25, 1) := by decide
    have he : readExponent (afterMantissa (splitSign (ltrim "-2.5".data)).2) = 0 := by decide
    unfold readNumber
    rw [h, he]
    norm_num
  have n2 : readNumber "1.5" = some (3 / 2) := by
    have h : readDecimal "1.5" = some (false, 15, 1) := by decide
    have he : readExponent (afterMantissa (splitSign (ltrim "1.5".data)).2) = 0 := by decide
    unfold readNumber
    rw [h, he]
    norm_num
  have n3 : readNumber "1" = some 1 := by
    have h : readDecimal "1" = some (false, 1, 0) := by decide
    have he : readExponent (afterMantissa (splitSign (ltrim "1".data)).2) = 0 := by decide
    unfold readNumber
    rw [h, he]
    norm_num
  have n4 : readNumber "0.5" = some (1 / 2) := by
    have h : readDecimal "0.5" = some (false, 5, 1) := by decide
    have he : readExponent (afterMantissa (splitSign (ltrim "0.5".data)).2) = 0 := by decide
    unfold readNumber
    rw [h, he]
    norm_num
  have n5 : readNumber "1073741824" = some 1073741824 := by
    have h : readDecimal "1073741824" = some (false, 1073741824, 0) := by decide
    have he : readExponent (afterMantissa (splitSign (ltrim "1073741824".data)).2) = 0 := by
      decide
    unfold readNumber
    rw [h, he]
    norm_num
  have n6 : readNumber "16777215" = some 16777215 := by
    have h : readDecimal "16777215" = some (false, 16777215, 0) := by decide
    have he : readExponent (afterMantissa (splitSign (ltrim "16777215".data)).2) = 0 := by
      decide
    unfold readNumber
    rw [h, he]
    norm_num
  have n7 : readNumber "5592405.5" = some (11184811 / 2) := by
    have h : readDecimal "5592405.5" = some (false, 55924055, 1) := by decide
    have he : readExponent (afterMantissa (splitSign (ltrim "5592405.5".data)).2) = 0 := by
      decide
    unfold readNumber
    rw [h, he]
    norm_num
  refine ⟨?_, ?_, ?_, ?_, ?_, ?_, ?_, ?_⟩
  · rw [sampleStof_of_number _ _ (by decide) n0]
    exact stofRound_of_float 0 0 0 (by norm_num) (by norm_num) (by norm_num) (by norm_num)
  · rw [sampleStof_of_number _ _ (by decide) n1]
    exact stofRound_of_float _ (-5) (-1) (by norm_num) (by norm_num) (by norm_num)
      (by norm_num [abs_of_neg])
  · rw [sampleStof_of_number _ _ (by decide) n2]
    exact stofRound_of_float _ 3 (-1) (by norm_num) (by norm_num) (by norm_num)
      (by norm_num [abs_of_pos])
  · rw [sampleStof_of_number _ _ (by decide) n3]
    exact stofRound_of_float _ 1 0 (by norm_num) (by norm_num) (by norm_num)
      (by norm_num [abs_of_pos])
  · rw [sampleStof_of_number _ _ (by decide) n4]
    exact stofRound_of_float _ 1 (-1) (by norm_num) (by norm_num) (by norm_num)
      (by norm_num [abs_of_pos])
  · rw [sampleStof_of_number _ _ (by decide) n5]
    exact stofRound_of_float _ 1 30 (by norm_num) (by norm_num) (by norm_num)
      (by norm_num [abs_of_pos])
  · rw [sampleStof_of_number _ _ (by decide) n6]
    exact stofRound_of_float _ 16777215 0 (by norm_num) (by norm_num) (by norm_num)
      (by norm_num [abs_of_pos])
  · rw [sampleStof_of_number _ _ (by decide) n7]
    exact stofRound_of_float _ 11184811 (-1) (by norm_num) (by norm_num) (by norm_num)
      (by norm_num [abs_of_pos])

/-- The float nearest to seven tenths. -/
theorem roundToBinary32_tenths : roundToBinary32 (7 / 10) = 11744051 / 16777216 := by
  rw [roundToBinary32_of_binade _ (-1) (binade_eq_of_bounds _ _ (by norm_num)
    (by norm_num [abs_of_pos]) (by norm_num [abs_of_pos]))]
  norm_num [roundHalfEven]

/-- The sample `stof` on `0.7`, which is not a float, on `inf` and on
`nan`. -/
theorem sampleStof_special :
    sampleStof "0.7" = some (.finite (11744051 / 16777216)) ∧
    sampleStof "inf" = some (.inf false) ∧ sampleStof "nan" = some .nan := by
  refine ⟨?_, by decide, by decide⟩
  have n : readNumber "0.7" = some (7 / 10) := by
    have h : readDecimal "0.7" = some (false, 7, 1) := by decide
    have he : readExponent (afterMantissa (splitSign (ltrim "0.7".data)).2) = 0 := by decide
    unfold readNumber
    rw [h, he]
    norm_num
  rw [sampleStof_of_number _ _ (by decide) n]
  exact stofRound_of_normal _ _ roundToBinary32_tenths (by norm_num [abs_of_pos])
    (by norm_num [abs_of_pos])

/-- The sample file with 1.5 LEDs per key is accepted by the constructor. -/
theorem construct_piano_conf :
    PianoTutorPlusConfig.construct sampleLib sampleFiles "piano.conf" = .ok
      { freq := 800000, gpioPin := 18, dmaChannel := 10, ledCount := 61,
        ledOrder := .DIR, stripType := .GRB, ledPerKey := .finite (3 / 2),
        colorRightHand := .BLUE, colorLeftHand := .GREEN,
        keyboardMinNote := 36, keyboardMaxNote := 96 } := by
  have hparse : Config.parse sampleFiles "piano.conf"
      = .ok (Config.parseLines (getlines (sampleText "dir" "1.5"))) := rfl
  rw [construct_of_parse_ok sampleLib sampleFiles "piano.conf" _ hparse]
  have hq : sampleLib.stof ((Config.parseLines (getlines (sampleText "dir" "1.5"))).get
      KEY_LED_PER_KEY) = some (.finite (3 / 2)) := sampleStof_values.2.2.1
  rw [tryBlock_eq_ok sampleLib (Config.parseLines (getlines (sampleText "dir" "1.5")))
    800000 18 10 61 (.finite (3 / 2)) (.DIR, .GRB, .BLUE, .GREEN)
    (by decide) (by decide) (by decide) (by decide) (by decide) (by decide) (by decide)
    (by decide) hq (by simp [Float32.leZero]) (by decide) (by decide) rfl]
  rfl

/-- The configuration with `2 ^ 30` LEDs per key, lowest key 36, highest key 96
and the direct order passes every check of the constructor: it is the
configuration built from the sample file `huge.conf`. -/
theorem construct_huge_conf :
    PianoTutorPlusConfig.construct sampleLib sampleFiles "huge.conf" = .ok
      (sampleConfig 36 96 1073741824 .DIR) := by
  have hparse : Config.parse sampleFiles "huge.conf"
      = .ok (Config.parseLines (getlines (sampleText "dir" "1073741824"))) := rfl
  rw [construct_of_parse_ok sampleLib sampleFiles "huge.conf" _ hparse]
  have hq : sampleLib.stof ((Config.parseLines (getlines (sampleText "dir" "1073741824"))).get
      KEY_LED_PER_KEY) = some (.finite 1073741824) := sampleStof_values.2.2.2.2.2.1
  rw [tryBlock_eq_ok sampleLib (Config.parseLines (getlines (sampleText "dir" "1073741824")))
    800000 18 10 61 (.finite 1073741824) (.DIR, .GRB, .BLUE, .GREEN)
    (by decide) (by decide) (by decide) (by decide) (by decide) (by decide) (by decide)
    (by decide) hq (by simp [Float32.leZero]) (by decide) (by decide) rfl]
  rfl

/-- The same configuration in the inverted order is the one built from the
sample file `huge-inv.conf`. -/
theorem construct_huge_inv_conf :
    PianoTutorPlusConfig.construct sampleLib sampleFiles "huge-inv.conf" = .ok
      (sampleConfig 36 96 1073741824 .INV) := by
  have hparse : Config.parse sampleFiles "huge-inv.conf"
      = .ok (Config.parseLines (getlines (sampleText "INV" "1073741824"))) := rfl
  rw [construct_of_parse_ok sampleLib sampleFiles "huge-inv.conf" _ hparse]
  have hq : sampleLib.stof ((Config.parseLines (getlines (sampleText "INV" "1073741824"))).get
      KEY_LED_PER_KEY) = some (.finite 1073741824) := sampleStof_values.2.2.2.2.2.1
  rw [tryBlock_eq_ok sampleLib (Config.parseLines (getlines (sampleText "INV" "1073741824")))
    800000 18 10 61 (.finite 1073741824) (.INV, .GRB, .BLUE, .GREEN)
    (by decide) (by decide) (by decide) (by decide) (by decide) (by decide) (by decide)
    (by decide) hq (by simp [Float32.leZero]) (by decide) (by decide) rfl]
  rfl

/-- The sample file with `LED_PER_KEY = 0.7` is accepted, with the float nearest
to seven tenths for the number of LEDs per key. -/
theorem construct_tenths_conf :
    PianoTutorPlusConfig.construct sampleLib sampleFiles "tenths.conf" = .ok
      (sampleConfig 36 96 (11744051 / 16777216) .DIR) := by
  have hparse : Config.parse sampleFiles "tenths.conf"
      = .ok (Config.parseLines (getlines (sampleText "dir" "0.7"))) := rfl
  rw [construct_of_parse_ok sampleLib sampleFiles "tenths.conf" _ hparse]
  have hq : sampleLib.stof ((Config.parseLines (getlines (sampleText "dir" "0.7"))).get
      KEY_LED_PER_KEY) = some (.finite (11744051 / 16777216)) := sampleStof_special.1
  rw [tryBlock_eq_ok sampleLib (Config.parseLines (getlines (sampleText "dir" "0.7")))
    800000 18 10 61 (.finite (11744051 / 16777216)) (.DIR, .GRB, .BLUE, .GREEN)
    (by decide) (by decide) (by decide) (by decide) (by decide) (by decide) (by decide)
    (by decide) hq (by simp [Float32.leZero]) (by decide) (by decide) rfl]
  rfl

/-- The sample file with half an LED per key is accepted. -/
theorem construct_half_conf :
    PianoTutorPlusConfig.construct sampleLib sampleFiles "half.conf" = .ok
      (sampleConfig 36 96 (1 / 2) .DIR) := by
  have hparse : Config.parse sampleFiles "half.conf"
      = .ok (Config.parseLines (getlines (sampleText "dir" "0.5"))) := rfl
  rw [construct_of_parse_ok sampleLib sampleFiles "half.conf" _ hparse]
  have hq : sampleLib.stof ((Config.parseLines (getlines (sampleText "dir" "0.5"))).get
      KEY_LED_PER_KEY) = some (.finite (1 / 2)) := sampleStof_values.2.2.2.2.1
  rw [tryBlock_eq_ok sampleLib (Config.parseLines (getlines (sampleText "dir" "0.5")))
    800000 18 10 61 (.finite (1 / 2)) (.DIR, .GRB, .BLUE, .GREEN)
    (by decide) (by decide) (by decide) (by decide) (by decide) (by decide) (by decide)
    (by decide) hq (by simp [Float32.leZero]) (by decide) (by decide) rfl]
  rfl

/-- The sample file with `2 ^ 24 - 1` LEDs per key is accepted. -/
theorem construct_big_conf :
    PianoTutorPlusConfig.construct sampleLib sampleFiles "big.conf" = .ok
      (sampleConfig 36 96 16777215 .DIR) := by
  have hparse : Config.parse sampleFiles "big.conf"
      = .ok (Config.parseLines (getlines (sampleText "dir" "16777215"))) := rfl
  rw [construct_of_parse_ok sampleLib sampleFiles "big.conf" _ hparse]
  have hq : sampleLib.stof ((Config.parseLines (getlines (sampleText "dir" "16777215"))).get
      KEY_LED_PER_KEY) = some (.finite 16777215) := sampleStof_values.2.2.2.2.2.2.1
  rw [tryBlock_eq_ok sampleLib (Config.parseLines (getlines (sampleText "dir" "16777215")))
    800000 18 10 61 (.finite 16777215) (.DIR, .GRB, .BLUE, .GREEN)
    (by decide) (by decide) (by decide) (by decide) (by decide) (by decide) (by decide)
    (by decide) hq (by simp [Float32.leZero]) (by decide) (by decide) rfl]
  rfl

/-- The sample file with `5592405.5` LEDs per key is accepted. -/
theorem construct_halves_conf :
    PianoTutorPlusConfig.construct sampleLib sampleFiles "halves.conf" = .ok
      (sampleConfig 36 96 (11184811 / 2) .DIR) := by
  have hparse : Config.parse sampleFiles "halves.conf"
      = .ok (Config.parseLines (getlines (sampleText "dir" "5592405.5"))) := rfl
  rw [construct_of_parse_ok sampleLib sampleFiles "halves.conf" _ hparse]
  have hq : sampleLib.stof ((Config.parseLines (getlines (sampleText "dir" "5592405.5"))).get
      KEY_LED_PER_KEY) = some (.finite (11184811 / 2)) := sampleStof_values.2.2.2.2.2.2.2
  rw [tryBlock_eq_ok sampleLib (Config.parseLines (getlines (sampleText "dir" "5592405.5")))
    800000 18 10 61 (.finite (11184811 / 2)) (.DIR, .GRB, .BLUE, .GREEN)
    (by decide) (by decide) (by decide) (by decide) (by decide) (by decide) (by decide)
    (by decide) hq (by simp [Float32.leZero]) (by decide) (by decide) rfl]
  rfl

/-- The sample file with `LED_PER_KEY = inf` is accepted: an infinity is not
`<= 0`. -/
theorem construct_inf_conf :
    PianoTutorPlusConfig.construct sampleLib sampleFiles "inf.conf" = .ok
      { freq := 800000, gpioPin := 18, dmaChannel := 10, ledCount := 61,
        ledOrder := .DIR, stripType := .GRB, ledPerKey := .inf false,
        colorRightHand := .BLUE, colorLeftHand := .GREEN,
        keyboardMinNote := 36, keyboardMaxNote := 96 } := by
  have hparse : Config.parse sampleFiles "inf.conf"
      = .ok (Config.parseLines (getlines (sampleText "dir" "inf"))) := rfl
  rw [construct_of_parse_ok sampleLib sampleFiles "inf.conf" _ hparse]
  have hq : sampleLib.stof ((Config.parseLines (getlines (sampleText "dir" "inf"))).get
      KEY_LED_PER_KEY) = some (.inf false) := sampleStof_special.2.1
  rw [tryBlock_eq_ok sampleLib (Config.parseLines (getlines (sampleText "dir" "inf")))
    800000 18 10 61 (.inf false) (.DIR, .GRB, .BLUE, .GREEN)
    (by decide) (by decide) (by decide) (by decide) (by decide) (by decide) (by decide)
    (by decide) hq (by simp [Float32.leZero]) (by decide) (by decide) rfl]
  rfl

/-- The sample file with `LED_PER_KEY = nan` is accepted: a NaN is not `<= 0`. -/
theorem construct_nan_conf :
    PianoTutorPlusConfig.construct sampleLib sampleFiles "nan.conf" = .ok
      { freq := 800000, gpioPin := 18, dmaChannel := 10, ledCount := 61,
        ledOrder := .DIR, stripType := .GRB, ledPerKey := .nan,
        colorRightHand := .BLUE, colorLeftHand := .GREEN,
        keyboardMinNote := 36, keyboardMaxNote := 96 } := by
  have hparse : Config.parse sampleFiles "nan.conf"
      = .ok (Config.parseLines (getlines (sampleText "dir" "nan"))) := rfl
  rw [construct_of_parse_ok sampleLib sampleFiles "nan.conf" _ hparse]
  have hq : sampleLib.stof ((Config.parseLines (getlines (sampleText "dir" "nan"))).get
      KEY_LED_PER_KEY) = some (.nan) := sampleStof_special.2.2
  rw [tryBlock_eq_ok sampleLib (Config.parseLines (getlines (sampleText "dir" "nan")))
    800000 18 10 61 (.nan) (.DIR, .GRB, .BLUE, .GREEN)
    (by decide) (by decide) (by decide) (by decide) (by decide) (by decide) (by decide)
    (by decide) hq (by simp [Float32.leZero]) (by decide) (by decide) rfl]
  rfl

/-! ## The computed pin -/

/-- An integer that `int` can represent converts to itself. -/
theorem floatToInt_eq_some {r : ℤ} (hlo : INT_MIN ≤ r) (hhi : r ≤ INT_MAX) :
    floatToInt r = some r := by
  unfold floatToInt
  rw [if_pos ⟨hlo, hhi⟩]

/-- An integer that `int` cannot represent has no conversion. -/
theorem floatToInt_eq_none {r : ℤ} (h : r < INT_MIN ∨ INT_MAX < r) :
    floatToInt r = none := by
  unfold floatToInt
  rw [if_neg]
  rintro ⟨h1, h2⟩
  rcases h with h | h <;> omega

/-- The specification index is the library rounding of the exact product of
the offset and `ledsPerKey`. -/
theorem specIndex_eq_cRound (config : PianoTutorPlusConfig) (v : ℚ) (ev : MidiEvent) :
    specIndex config v ev = cRound ((keyOffset config ev : ℚ) * v) := by
  unfold specIndex indexFor keyOffset
  cases config.ledOrder <;> simp only [cRound_eq_roundHalfAwayFromZero]

/-- The promoted subtraction of two `unsigned char` values stays within
`-255 .. 255`, far inside the range of `int`. -/
theorem keyOffset_bounds (config : PianoTutorPlusConfig) (ev : MidiEvent) :
    -255 ≤ keyOffset config ev ∧ keyOffset config ev ≤ 255 := by
  have h1 := ev.note.isLt
  have h2 := config.keyboardMinNote.isLt
  have h3 := config.keyboardMaxNote.isLt
  unfold keyOffset
  cases config.ledOrder <;> constructor <;> simp only <;> omega

/-- The pin of `main` is the rounding and conversion of the `float` product of
the offset and `ledPerKey`. -/
theorem mainPin_eq_roundToInt (config : PianoTutorPlusConfig) (ev : MidiEvent) :
    mainPin config ev
      = roundToInt (Float32.mul (Float32.ofInt (keyOffset config ev)) config.ledPerKey) := by
  unfold mainPin keyOffset
  cases config.ledOrder <;> rfl

/-- The offset of a note converts to `float` exactly. -/
theorem ofInt_keyOffset (config : PianoTutorPlusConfig) (ev : MidiEvent) :
    Float32.ofInt (keyOffset config ev) = .finite (keyOffset config ev : ℚ) := by
  apply ofInt_eq_finite
  have hb := keyOffset_bounds config ev
  rw [abs_lt]
  constructor <;> omega

/-- With a finite number of LEDs per key the pin is the rounding and
conversion of the `float` nearest to the exact product. -/
theorem mainPin_of_finite (config : PianoTutorPlusConfig) (ev : MidiEvent) (v : ℚ)
    (hv : config.ledPerKey = .finite v) :
    mainPin config ev = roundToInt (Float32.ofRat ((keyOffset config ev : ℚ) * v)) := by
  rw [mainPin_eq_roundToInt, ofInt_keyOffset, hv]
  rfl

/-- With a finite number of LEDs per key, the pin of a note whose rounded
`float` product is an `int`. -/
theorem mainPin_of_fits (config : PianoTutorPlusConfig) (ev : MidiEvent) (v : ℚ)
    (hv : config.ledPerKey = .finite v)
    (hlo : INT_MIN ≤ cRound (roundToBinary32 ((keyOffset config ev : ℚ) * v)))
    (hhi : cRound (roundToBinary32 ((keyOffset config ev : ℚ) * v)) ≤ INT_MAX) :
    mainPin config ev = some (cRound (roundToBinary32 ((keyOffset config ev : ℚ) * v))) := by
  rw [mainPin_of_finite config ev v hv]
  exact roundToInt_ofRat hlo hhi

/-- With a finite number of LEDs per key, a note whose rounded `float` product
is not an `int` has no defined pin. -/
theorem mainPin_of_overflow (config : PianoTutorPlusConfig) (ev : MidiEvent) (v : ℚ)
    (hv : config.ledPerKey = .finite v)
    (h : cRound (roundToBinary32 ((keyOffset config ev : ℚ) * v)) < INT_MIN
      ∨ INT_MAX < cRound (roundToBinary32 ((keyOffset config ev : ℚ) * v))) :
    mainPin config ev = none := by
  rw [mainPin_of_finite config ev v hv]
  exact roundToInt_ofRat_eq_none h

/-- With an infinity or a NaN for the number of LEDs per key no note has a
defined pin: the product is an infinity or a NaN. -/
theorem mainPin_of_not_finite (config : PianoTutorPlusConfig) (ev : MidiEvent)
    (h : ∀ v : ℚ, config.ledPerKey ≠ .finite v) : mainPin config ev = none := by
  rw [mainPin_eq_roundToInt, ofInt_keyOffset]
  cases hq : config.ledPerKey with
  | finite v => exact absurd hq (h v)
  | inf s =>
    show roundToInt (if (keyOffset config ev : ℚ) = 0 then Float32.nan else _) = none
    split_ifs <;> rfl
  | nan => rfl

/-- The pin of a note under a sample configuration, from the value of the
exact product and its nearest float. -/
theorem mainPin_sample (minNote maxNote : Fin 256) (v : ℚ) (order : LedOrder.Order)
    (ev : MidiEvent) (x r : ℚ) (i : ℤ)
    (hx : (keyOffset (sampleConfig minNote maxNote v order) ev : ℚ) * v = x)
    (hr : roundToBinary32 x = r) (hi : cRound r = i) :
    mainPin (sampleConfig minNote maxNote v order) ev = floatToInt i := by
  rw [mainPin_of_finite _ ev v rfl, hx]
  by_cases hfit : INT_MIN ≤ i ∧ i ≤ INT_MAX
  · rw [roundToInt_ofRat (by rw [hr, hi]; exact hfit.1) (by rw [hr, hi]; exact hfit.2), hr, hi,
      floatToInt_eq_some hfit.1 hfit.2]
  · have hout : i < INT_MIN ∨ INT_MAX < i := by
      by_contra hc
      push_neg at hc
      exact hfit hc
    rw [roundToInt_ofRat_eq_none (by rw [hr, hi]; exact hout), floatToInt_eq_none hout]

/-- C1 (as stated, refuted): the constructor accepts the sample file with
`LED_PER_KEY = 16777215`, lowest key 36 and the direct order; there note 39
has the exact product `3 * 16777215 = 50331645`, an integer, which the formula
rounds to itself, but the `float` product is 50331644 and so is the computed
index. The constructor also accepts the sample file with
`LED_PER_KEY = 1073741824`; there note 38 has the product `2147483648`, which
the `int` variable `pin` cannot hold: the conversion has no defined result. -/
theorem C1_index_formula_counterexample :
    (PianoTutorPlusConfig.construct sampleLib sampleFiles "big.conf"
        = .ok (sampleConfig 36 96 16777215 .DIR) ∧
      indexFor 36 96 16777215 .DIR 39 = 50331645 ∧
      mainPin (sampleConfig 36 96 16777215 .DIR) ⟨39, .NOTE_ON, .RIGHT⟩ = some 50331644 ∧
      mainPin (sampleConfig 36 96 16777215 .DIR) ⟨39, .NOTE_ON, .RIGHT⟩
        ≠ some (indexFor 36 96 16777215 .DIR 39)) ∧
    (PianoTutorPlusConfig.construct sampleLib sampleFiles "huge.conf"
        = .ok (sampleConfig 36 96 1073741824 .DIR) ∧
      indexFor 36 96 1073741824 .DIR 38 = 2147483648 ∧
      mainPin (sampleConfig 36 96 1073741824 .DIR) ⟨38, .NOTE_ON, .RIGHT⟩ = none) := by
  have hs1 : indexFor 36 96 16777215 .DIR 39 = 50331645 := by
    norm_num [indexFor, roundHalfAwayFromZero]
  have hp1 : mainPin (sampleConfig 36 96 16777215 .DIR) ⟨39, .NOTE_ON, .RIGHT⟩
      = some 50331644 := by
    rw [mainPin_sample 36 96 16777215 .DIR ⟨39, .NOTE_ON, .RIGHT⟩ 50331645 50331644 50331644
      (by norm_num [keyOffset, sampleConfig, Fin.coe_ofNat_eq_mod])
      (by
        rw [roundToBinary32_of_binade _ 25 (binade_eq_of_bounds _ _ (by norm_num)
          (by norm_num [abs_of_pos]) (by norm_num [abs_of_pos]))]
        norm_num [roundHalfEven])
      (by norm_num [cRound])]
    exact floatToInt_eq_some (by decide) (by decide)
  have hs2 : indexFor 36 96 1073741824 .DIR 38 = 2147483648 := by
    norm_num [indexFor, roundHalfAwayFromZero]
  have hp2 : mainPin (sampleConfig 36 96 1073741824 .DIR) ⟨38, .NOTE_ON, .RIGHT⟩ = none := by
    rw [mainPin_sample 36 96 1073741824 .DIR ⟨38, .NOTE_ON, .RIGHT⟩ 2147483648 2147483648
      2147483648
      (by norm_num [keyOffset, sampleConfig, Fin.coe_ofNat_eq_mod])
      (roundToBinary32_eq_self _ 1 31 (by norm_num) (by norm_num) (by norm_num))
      (by norm_num [cRound])]
    exact floatToInt_eq_none (Or.inr (by decide))
  refine ⟨⟨construct_big_conf, hs1, hp1, ?_⟩, construct_huge_conf, hs2, hp2⟩
  rw [hp1, hs1]
  exact fun h => absurd (Option.some.inj h) (by decide)

/-- C1 (amended): for every configuration with a finite number of LEDs per
key and every note value 0..255, the offset of the note being `note - minNote`
for the order DIR and `maxNote - note` for the order INV, computed on integers
without wrap-around: when the `float` product of the offset and `ledsPerKey`,
which is the binary32 value nearest to the exact product, rounds to a value
that the 32-bit `int` variable `pin` can hold, the LED index is `round` of
that `float` product; and it is `round((note - minNote) * ledsPerKey)`,
respectively `round((maxNote - note) * ledsPerKey)`, of the exact product
whenever the exact product is a binary32 value itself, as every product
`m * 2 ^ e` with `|m| < 2 ^ 24` and `e >= -149` is. -/
theorem C1_index_formula (config : PianoTutorPlusConfig) (ev : MidiEvent) (v : ℚ)
    (hv : config.ledPerKey = .finite v)
    (hlo : INT_MIN ≤ cRound (roundToBinary32 ((keyOffset config ev : ℚ) * v)))
    (hhi : cRound (roundToBinary32 ((keyOffset config ev : ℚ) * v)) ≤ INT_MAX) :
    mainPin config ev = some (cRound (roundToBinary32 ((keyOffset config ev : ℚ) * v))) ∧
    (roundToBinary32 ((keyOffset config ev : ℚ) * v) = (keyOffset config ev : ℚ) * v →
      mainPin config ev =
        some (indexFor config.keyboardMinNote.val config.keyboardMaxNote.val v
          config.ledOrder ev.note.val)) ∧
    (∀ m e : ℤ, |m| < 2 ^ 24 → -149 ≤ e →
      (keyOffset config ev : ℚ) * v = (m : ℚ) * (2 : ℚ) ^ e →
      mainPin config ev =
        some (indexFor config.keyboardMinNote.val config.keyboardMaxNote.val v
          config.ledOrder ev.note.val)) := by
  have hpin := mainPin_of_fits config ev v hv hlo hhi
  have hexact : roundToBinary32 ((keyOffset config ev : ℚ) * v) = (keyOffset config ev : ℚ) * v →
      mainPin config ev =
        some (indexFor config.keyboardMinNote.val config.keyboardMaxNote.val v
          config.ledOrder ev.note.val) := by
    intro h
    rw [hpin, h, ← specIndex_eq_cRound]
    rfl
  exact ⟨hpin, hexact, fun m e hm he hx => hexact (roundToBinary32_eq_self _ m e hm he hx)⟩

/-- C1 (witness): lowest key 36, three LEDs per two keys, inverted order with
highest key 96; note 41 lies 55 keys below the top, the product `55 * 1.5` is
the `float` 82.5, its rounded value 83 fits `int`, and 83 is the index of the
note and the value of the formula. -/
theorem C1_index_formula_witness :
    roundToBinary32 ((keyOffset (sampleConfig 36 96 (3 / 2) .INV) ⟨41, .NOTE_OFF, .LEFT⟩ : ℚ)
      * (3 / 2)) = 165 / 2 ∧
    indexFor 36 96 (3 / 2) .INV 41 = 83 ∧
    mainPin (sampleConfig 36 96 (3 / 2) .INV) ⟨41, .NOTE_OFF, .LEFT⟩ = some 83 := by
  have hx : (keyOffset (sampleConfig 36 96 (3 / 2) .INV) ⟨41, .NOTE_OFF, .LEFT⟩ : ℚ)
      * (3 / 2) = 165 / 2 := by
    norm_num [keyOffset, sampleConfig, Fin.coe_ofNat_eq_mod]
  have hr : roundToBinary32 ((keyOffset (sampleConfig 36 96 (3 / 2) .INV)
      ⟨41, .NOTE_OFF, .LEFT⟩ : ℚ) * (3 / 2)) = 165 / 2 := by
    rw [hx]
    exact roundToBinary32_eq_self _ 165 (-1) (by norm_num) (by norm_num) (by norm_num)
  have hc : cRound (roundToBinary32 ((keyOffset (sampleConfig 36 96 (3 / 2) .INV)
      ⟨41, .NOTE_OFF, .LEFT⟩ : ℚ) * (3 / 2))) = 83 := by
    rw [hr]
    norm_num [cRound]
  have hs : indexFor 36 96 (3 / 2) .INV 41 = 83 := by
    norm_num [indexFor, roundHalfAwayFromZero]
  refine ⟨hr, hs, ?_⟩
  have h := (C1_index_formula (sampleConfig 36 96 (3 / 2) .INV) ⟨41, .NOTE_OFF, .LEFT⟩ (3 / 2) rfl
    (by rw [hc]; decide) (by rw [hc]; decide)).1
  rw [h, hc]

/-! ## Colours and the press and release of a key -/

/-- Every colour has a non-zero value: a lit LED differs from an LED that is
off. -/
theorem LedColor.Color.val_ne_zero (c : LedColor.Color) : c.val ≠ 0 := by
  cases c <;> decide

/-- What `mainSwitch` leaves at the position it stores to. -/
theorem mainSwitch_leds_self (config : PianoTutorPlusConfig) (strip : LedStrip) (pin : Int)
    (ev : MidiEvent) :
    (mainSwitch config strip pin ev).leds (toUChar pin) =
      if ev.type = .NOTE_ON then
        (if ev.hand = .RIGHT then config.colorRightHand else config.colorLeftHand).val
      else 0 := by
  unfold mainSwitch
  by_cases h : ev.type = .NOTE_ON
  · simp [h, LedStrip.switchOn]
  · simp [h, LedStrip.switchOff]

/-- The store of `mainSwitch` leaves every other position as it was. -/
theorem mainSwitch_leds_other (config : PianoTutorPlusConfig) (strip : LedStrip) (pin : Int)
    (ev : MidiEvent) (i : Nat) (hi : i ≠ toUChar pin) :
    (mainSwitch config strip pin ev).leds i = strip.leds i := by
  unfold mainSwitch
  by_cases h : ev.type = .NOTE_ON
  · simp [h, LedStrip.switchOn, hi]
  · simp [h, LedStrip.switchOff, hi]

/-- C2: for every note and configuration, whatever value `pin` holds, a
NOTE_ON event with hand RIGHT stores the configured right-hand colour in the
addressed LED, a NOTE_ON event with hand LEFT stores the configured left-hand
colour, and a NOTE_OFF event stores 0 (off) whatever the hand is. -/
theorem C2_colour_by_hand (config : PianoTutorPlusConfig) (strip : LedStrip) (pin : Int)
    (note : Fin 256) :
    (mainSwitch config strip pin ⟨note, .NOTE_ON, .RIGHT⟩).leds (toUChar pin)
        = config.colorRightHand.val ∧
    (mainSwitch config strip pin ⟨note, .NOTE_ON, .LEFT⟩).leds (toUChar pin)
        = config.colorLeftHand.val ∧
    ∀ hand : MidiEvent.Hand,
      (mainSwitch config strip pin ⟨note, .NOTE_OFF, hand⟩).leds (toUChar pin) = 0 := by
  refine ⟨?_, ?_, ?_⟩
  · rw [mainSwitch_leds_self]; simp
  · rw [mainSwitch_leds_self]; simp
  · intro hand
    rw [mainSwitch_leds_self]; simp

/-- C3: for every configuration, note and hand, the NOTE_ON and the NOTE_OFF
event of the same (note, hand) get the same pin; and whenever that pin is
defined, the loop body run on the press and then on the release first stores
the (non-zero) colour of the hand at the addressed LED and then stores 0
there: after a press followed by a release the LED is off. -/
theorem C3_press_release (config : PianoTutorPlusConfig) (note : Fin 256)
    (hand : MidiEvent.Hand) :
    mainPin config ⟨note, .NOTE_ON, hand⟩ = mainPin config ⟨note, .NOTE_OFF, hand⟩ ∧
    ∀ (strip : LedStrip) (pin : Int), mainPin config ⟨note, .NOTE_ON, hand⟩ = some pin →
      ∃ s1 s2 : LedStrip,
        mainEvent config strip ⟨note, .NOTE_ON, hand⟩ = some s1 ∧
        mainEvent config s1 ⟨note, .NOTE_OFF, hand⟩ = some s2 ∧
        s1.leds (toUChar pin) =
          (if hand = .RIGHT then config.colorRightHand else config.colorLeftHand).val ∧
        s1.leds (toUChar pin) ≠ 0 ∧
        s2.leds (toUChar pin) = 0 := by
  have hsame : mainPin config ⟨note, .NOTE_ON, hand⟩
      = mainPin config ⟨note, .NOTE_OFF, hand⟩ := by
    unfold mainPin
    cases config.ledOrder <;> rfl
  refine ⟨hsame, ?_⟩
  intro strip pin hpin
  have hoff : mainPin config ⟨note, .NOTE_OFF, hand⟩ = some pin := by rw [← hsame]; exact hpin
  refine ⟨mainSwitch config strip pin ⟨note, .NOTE_ON, hand⟩,
    mainSwitch config (mainSwitch config strip pin ⟨note, .NOTE_ON, hand⟩) pin
      ⟨note, .NOTE_OFF, hand⟩, ?_, ?_, ?_, ?_, ?_⟩
  · simp [mainEvent, hpin]
  · simp [mainEvent, hoff]
  · rw [mainSwitch_leds_self]; simp
  · rw [mainSwitch_leds_self]
    simpa using LedColor.Color.val_ne_zero _
  · rw [mainSwitch_leds_self]; simp

/-- C3 (witness): on the sample strip, key 60 pressed and released by the
right hand with one LED per key and lowest key 36: both events get pin 24, the
press leaves BLUE at LED 24 and the release leaves 0 there. -/
theorem C3_press_release_witness :
    mainPin (sampleConfig 36 96 1 .DIR) ⟨60, .NOTE_ON, .RIGHT⟩ = some 24 ∧
    ∃ s1 s2 : LedStrip,
      mainEvent (sampleConfig 36 96 1 .DIR) sampleStrip ⟨60, .NOTE_ON, .RIGHT⟩ = some s1 ∧
      mainEvent (sampleConfig 36 96 1 .DIR) s1 ⟨60, .NOTE_OFF, .RIGHT⟩ = some s2 ∧
      s1.leds 24 = 0x00000020 ∧ s2.leds 24 = 0 := by
  have hpin : mainPin (sampleConfig 36 96 1 .DIR) ⟨60, .NOTE_ON, .RIGHT⟩ = some 24 := by
    rw [mainPin_sample 36 96 1 .DIR ⟨60, .NOTE_ON, .RIGHT⟩ 24 24 24
      (by norm_num [keyOffset, sampleConfig, Fin.coe_ofNat_eq_mod])
      (roundToBinary32_eq_self _ 24 0 (by norm_num) (by norm_num) (by norm_num))
      (by norm_num [cRound])]
    exact floatToInt_eq_some (by decide) (by decide)
  refine ⟨hpin, ?_⟩
  obtain ⟨s1, s2, h1, h2, h3, _, h5⟩ :=
    (C3_press_release (sampleConfig 36 96 1 .DIR) 60 .RIGHT).2 sampleStrip 24 hpin
  exact ⟨s1, s2, h1, h2, h3, h5⟩

/-! ## Monotonicity and the ends of the keyboard -/

/-- Zero rounds to zero. -/
theorem cRound_zero : cRound 0 = 0 := by
  have h := cRound_intCast 0
  simpa using h

/-- The offset for the direct order. -/
theorem keyOffset_DIR {config : PianoTutorPlusConfig} (h : config.ledOrder = .DIR)
    (ev : MidiEvent) :
    keyOffset config ev = (ev.note.val : ℤ) - (config.keyboardMinNote.val : ℤ) := by
  unfold keyOffset
  rw [h]

/-- The offset for the inverted order. -/
theorem keyOffset_INV {config : PianoTutorPlusConfig} (h : config.ledOrder = .INV)
    (ev : MidiEvent) :
    keyOffset config ev = (config.keyboardMaxNote.val : ℤ) - (ev.note.val : ℤ) := by
  unfold keyOffset
  rw [h]

/-- A defined pin: the number of LEDs per key is finite, and the pin is the
rounded `float` product, an `int`. -/
theorem mainPin_some_inv (config : PianoTutorPlusConfig) (ev : MidiEvent) (i : Int)
    (h : mainPin config ev = some i) :
    ∃ v : ℚ, config.ledPerKey = .finite v ∧
      i = cRound (roundToBinary32 ((keyOffset config ev : ℚ) * v)) ∧
      INT_MIN ≤ i ∧ i ≤ INT_MAX := by
  cases hq : config.ledPerKey with
  | finite v =>
    refine ⟨v, rfl, ?_⟩
    rw [mainPin_of_finite config ev v hq] at h
    unfold Float32.ofRat at h
    split_ifs at h with hinf
    · cases h
    · have h2 : floatToInt (cRound (roundToBinary32 ((keyOffset config ev : ℚ) * v)))
          = some i := h
      unfold floatToInt at h2
      split_ifs at h2 with hfit
      have hi := Option.some.inj h2
      rw [← hi]
      exact ⟨rfl, hfit.1, hfit.2⟩
  | inf s =>
    rw [mainPin_of_not_finite config ev (fun v hv => by rw [hq] at hv; cases hv)] at h
    cases h
  | nan =>
    rw [mainPin_of_not_finite config ev (fun v hv => by rw [hq] at hv; cases hv)] at h
    cases h

/-- With a positive finite number of LEDs per key, two events whose offsets
are ordered, the smaller one not negative, get ordered pins as soon as the
rounded `float` product of the larger one does not exceed the largest
`int`. -/
theorem mainPin_le_of_offset_le (config : PianoTutorPlusConfig) (ea eb : MidiEvent) (v : ℚ)
    (hv : config.ledPerKey = .finite v) (hlpk : 0 < v) (h0 : 0 ≤ keyOffset config ea)
    (hab : keyOffset config ea ≤ keyOffset config eb)
    (hfit : cRound (roundToBinary32 ((keyOffset config eb : ℚ) * v)) ≤ INT_MAX) :
    ∃ ia ib : Int, mainPin config ea = some ia ∧ mainPin config eb = some ib ∧ ia ≤ ib := by
  have h0q : (0 : ℚ) ≤ (keyOffset config ea : ℚ) := by exact_mod_cast h0
  have habq : (keyOffset config ea : ℚ) ≤ (keyOffset config eb : ℚ) := by exact_mod_cast hab
  have hpa : (0 : ℚ) ≤ (keyOffset config ea : ℚ) * v := mul_nonneg h0q (le_of_lt hlpk)
  have hpab : (keyOffset config ea : ℚ) * v ≤ (keyOffset config eb : ℚ) * v :=
    mul_le_mul_of_nonneg_right habq (le_of_lt hlpk)
  have hra : 0 ≤ cRound (roundToBinary32 ((keyOffset config ea : ℚ) * v)) := by
    have := cRound_mono (roundToBinary32_nonneg hpa)
    rwa [cRound_zero] at this
  have hrab := cRound_mono (roundToBinary32_mono hpa hpab)
  have hmin : INT_MIN ≤ 0 := by decide
  exact ⟨_, _, mainPin_of_fits config ea v hv (le_trans hmin hra) (le_trans hrab hfit),
    mainPin_of_fits config eb v hv (le_trans hmin (le_trans hra hrab)) hfit, hrab⟩

/-- The pin of the note 36 under the configuration with `LED_PER_KEY` equal to
`2 ^ 30` and lowest key 36, direct order. -/
theorem mainPin_huge_36 :
    mainPin (sampleConfig 36 96 1073741824 .DIR) ⟨36, .NOTE_ON, .RIGHT⟩ = some 0 := by
  rw [mainPin_sample 36 96 1073741824 .DIR ⟨36, .NOTE_ON, .RIGHT⟩ 0 0 0
    (by norm_num [keyOffset, sampleConfig, Fin.coe_ofNat_eq_mod])
    roundToBinary32_zero cRound_zero]
  exact floatToInt_eq_some (by decide) (by decide)

/-- The pin of the note 38 under the same configuration is not defined. -/
theorem mainPin_huge_38 :
    mainPin (sampleConfig 36 96 1073741824 .DIR) ⟨38, .NOTE_ON, .RIGHT⟩ = none := by
  rw [mainPin_sample 36 96 1073741824 .DIR ⟨38, .NOTE_ON, .RIGHT⟩ 2147483648 2147483648
    2147483648
    (by norm_num [keyOffset, sampleConfig, Fin.coe_ofNat_eq_mod])
    (roundToBinary32_eq_self _ 1 31 (by norm_num) (by norm_num) (by norm_num))
    (by norm_num [cRound])]
  exact floatToInt_eq_none (Or.inr (by decide))

/-- The pin of the note 94 under the configuration with `LED_PER_KEY` equal to
`2 ^ 30` and highest key 96, inverted order, is not defined. -/
theorem mainPin_huge_inv_94 :
    mainPin (sampleConfig 36 96 1073741824 .INV) ⟨94, .NOTE_ON, .RIGHT⟩ = none := by
  rw [mainPin_sample 36 96 1073741824 .INV ⟨94, .NOTE_ON, .RIGHT⟩ 2147483648 2147483648
    2147483648
    (by norm_num [keyOffset, sampleConfig, Fin.coe_ofNat_eq_mod])
    (roundToBinary32_eq_self _ 1 31 (by norm_num) (by norm_num) (by norm_num))
    (by norm_num [cRound])]
  exact floatToInt_eq_none (Or.inr (by decide))

/-- C4 (as stated, refuted): the constructor accepts the sample file with
lowest key 36, highest key 96, direct order and `LED_PER_KEY = 1073741824`,
which satisfy `minNote < maxNote` and `ledsPerKey > 0`;
the notes 36 and 38 lie in the keyboard range; note 36 gets index 0, but the
rounded product of note 38 is `2147483648`, beyond `int`, so note 38 has no
defined index that could be greater than or equal to 0. -/
theorem C4_direct_monotone_counterexample :
    PianoTutorPlusConfig.construct sampleLib sampleFiles "huge.conf"
      = .ok (sampleConfig 36 96 1073741824 .DIR) ∧
    ((36 : Fin 256) < 96 ∧ (sampleConfig 36 96 1073741824 .DIR).ledPerKey.gtZero = true ∧
      (sampleConfig 36 96 1073741824 .DIR).ledOrder = .DIR ∧
      (36 : Fin 256) ≤ 36 ∧ (36 : Fin 256) ≤ 38 ∧ (38 : Fin 256) ≤ 96) ∧
    mainPin (sampleConfig 36 96 1073741824 .DIR) ⟨36, .NOTE_ON, .RIGHT⟩ = some 0 ∧
    mainPin (sampleConfig 36 96 1073741824 .DIR) ⟨38, .NOTE_ON, .RIGHT⟩ = none ∧
    ¬ ∃ i1 i2 : Int,
      mainPin (sampleConfig 36 96 1073741824 .DIR) ⟨36, .NOTE_ON, .RIGHT⟩ = some i1 ∧
      mainPin (sampleConfig 36 96 1073741824 .DIR) ⟨38, .NOTE_ON, .RIGHT⟩ = some i2 ∧
      i1 ≤ i2 := by
  refine ⟨construct_huge_conf,
    ⟨by decide, by simp [sampleConfig, Float32.gtZero], rfl, by decide, by decide, by decide⟩,
    mainPin_huge_36, mainPin_huge_38, ?_⟩
  rintro ⟨i1, i2, _, h2, _⟩
  rw [mainPin_huge_38] at h2
  exact Option.noConfusion h2

/-- C4 (amended): for every configuration with `minNote < maxNote`,
`ledsPerKey > 0` and order DIR, and all notes `n1 <= n2` with `minNote <= n1`
and `n2 <= maxNote`: if the note `n2` has a computed LED index (the number of
LEDs per key is finite and the rounded `float` product of `n2` does not exceed
the largest `int`), then the note `n1` has a computed LED index too and the
index of `n1` is less than or equal to the index of `n2`. -/
theorem C4_direct_monotone (config : PianoTutorPlusConfig) (e1 e2 : MidiEvent) (i2 : Int)
    (_hmm : config.keyboardMinNote.val < config.keyboardMaxNote.val)
    (hlpk : config.ledPerKey.gtZero = true) (hord : config.ledOrder = .DIR)
    (h1 : config.keyboardMinNote.val ≤ e1.note.val) (h12 : e1.note.val ≤ e2.note.val)
    (_h2 : e2.note.val ≤ config.keyboardMaxNote.val)
    (hdef : mainPin config e2 = some i2) :
    ∃ i1 : Int, mainPin config e1 = some i1 ∧ i1 ≤ i2 := by
  obtain ⟨v, hv, hi2, _, hhi⟩ := mainPin_some_inv config e2 i2 hdef
  have hpos : 0 < v := by
    rw [hv] at hlpk
    simpa [Float32.gtZero] using hlpk
  rw [hi2] at hhi
  obtain ⟨ia, ib, ha, hb, hab⟩ := mainPin_le_of_offset_le config e1 e2 v hv hpos
    (by rw [keyOffset_DIR hord]; omega)
    (by rw [keyOffset_DIR hord, keyOffset_DIR hord]; omega) hhi
  rw [hdef] at hb
  rw [Option.some.inj hb]
  exact ⟨ia, ha, hab⟩

/-- C4 (witness): lowest key 36, highest key 96, three LEDs per two keys,
direct order; the note 38 has the index 3, and the note 37 has an index that
is not greater, the index 2. -/
theorem C4_direct_monotone_witness :
    mainPin (sampleConfig 36 96 (3 / 2) .DIR) ⟨38, .NOTE_ON, .LEFT⟩ = some 3 ∧
    mainPin (sampleConfig 36 96 (3 / 2) .DIR) ⟨37, .NOTE_ON, .LEFT⟩ = some 2 ∧
    ∃ i1 : Int,
      mainPin (sampleConfig 36 96 (3 / 2) .DIR) ⟨37, .NOTE_ON, .LEFT⟩ = some i1 ∧ i1 ≤ 3 := by
  have h38 : mainPin (sampleConfig 36 96 (3 / 2) .DIR) ⟨38, .NOTE_ON, .LEFT⟩ = some 3 := by
    rw [mainPin_sample 36 96 (3 / 2) .DIR ⟨38, .NOTE_ON, .LEFT⟩ 3 3 3
      (by norm_num [keyOffset, sampleConfig, Fin.coe_ofNat_eq_mod])
      (roundToBinary32_eq_self _ 3 0 (by norm_num) (by norm_num) (by norm_num))
      (by norm_num [cRound])]
    exact floatToInt_eq_some (by decide) (by decide)
  have h37 : mainPin (sampleConfig 36 96 (3 / 2) .DIR) ⟨37, .NOTE_ON, .LEFT⟩ = some 2 := by
    rw [mainPin_sample 36 96 (3 / 2) .DIR ⟨37, .NOTE_ON, .LEFT⟩ (3 / 2) (3 / 2) 2
      (by norm_num [keyOffset, sampleConfig, Fin.coe_ofNat_eq_mod])
      (roundToBinary32_eq_self _ 3 (-1) (by norm_num) (by norm_num) (by norm_num))
      (by norm_num [cRound])]
    exact floatToInt_eq_some (by decide) (by decide)
  exact ⟨h38, h37, C4_direct_monotone (sampleConfig 36 96 (3 / 2) .DIR)
    ⟨37, .NOTE_ON, .LEFT⟩ ⟨38, .NOTE_ON, .LEFT⟩ 3 (by decide)
    (by simp [sampleConfig, Float32.gtZero]) rfl (by decide) (by decide) (by decide) h38⟩

/-- C5 (as stated, refuted): the constructor accepts the sample file with
lowest key 36, highest key 96, inverted order and `LED_PER_KEY = 1073741824`,
which satisfy `minNote < maxNote` and `ledsPerKey > 0`;
the notes 94 and 96 lie in the keyboard range; the rounded product of note 94
is `2147483648`, beyond `int`, so note 94 has no defined index that could be
greater than or equal to the index of note 96. -/
theorem C5_inverted_monotone_counterexample :
    PianoTutorPlusConfig.construct sampleLib sampleFiles "huge-inv.conf"
      = .ok (sampleConfig 36 96 1073741824 .INV) ∧
    ((36 : Fin 256) < 96 ∧ (sampleConfig 36 96 1073741824 .INV).ledPerKey.gtZero = true ∧
      (sampleConfig 36 96 1073741824 .INV).ledOrder = .INV ∧
      (36 : Fin 256) ≤ 94 ∧ (94 : Fin 256) ≤ 96 ∧ (96 : Fin 256) ≤ 96) ∧
    mainPin (sampleConfig 36 96 1073741824 .INV) ⟨94, .NOTE_ON, .RIGHT⟩ = none ∧
    ¬ ∃ i1 i2 : Int,
      mainPin (sampleConfig 36 96 1073741824 .INV) ⟨94, .NOTE_ON, .RIGHT⟩ = some i1 ∧
      mainPin (sampleConfig 36 96 1073741824 .INV) ⟨96, .NOTE_ON, .RIGHT⟩ = some i2 ∧
      i2 ≤ i1 := by
  refine ⟨construct_huge_inv_conf,
    ⟨by decide, by simp [sampleConfig, Float32.gtZero], rfl, by decide, by decide, by decide⟩,
    mainPin_huge_inv_94, ?_⟩
  rintro ⟨i1, i2, h1, _, _⟩
  rw [mainPin_huge_inv_94] at h1
  exact Option.noConfusion h1

/-- C5 (amended): for every configuration with `minNote < maxNote`,
`ledsPerKey > 0` and order INV, and all notes `n1 <= n2` within
`[minNote, maxNote]`: if the note `n1` has a computed LED index (the number of
LEDs per key is finite and the rounded `float` product of `n1` does not exceed
the largest `int`), then the note `n2` has a computed LED index too and the
index of `n1` is greater than or equal to the index of `n2`. -/
theorem C5_inverted_monotone (config : PianoTutorPlusConfig) (e1 e2 : MidiEvent) (i1 : Int)
    (_hmm : config.keyboardMinNote.val < config.keyboardMaxNote.val)
    (hlpk : config.ledPerKey.gtZero = true) (hord : config.ledOrder = .INV)
    (_h1 : config.keyboardMinNote.val ≤ e1.note.val) (h12 : e1.note.val ≤ e2.note.val)
    (h2 : e2.note.val ≤ config.keyboardMaxNote.val)
    (hdef : mainPin config e1 = some i1) :
    ∃ i2 : Int, mainPin config e2 = some i2 ∧ i2 ≤ i1 := by
  obtain ⟨v, hv, hi1, _, hhi⟩ := mainPin_some_inv config e1 i1 hdef
  have hpos : 0 < v := by
    rw [hv] at hlpk
    simpa [Float32.gtZero] using hlpk
  rw [hi1] at hhi
  obtain ⟨ia, ib, ha, hb, hab⟩ := mainPin_le_of_offset_le config e2 e1 v hv hpos
    (by rw [keyOffset_INV hord]; omega)
    (by rw [keyOffset_INV hord, keyOffset_INV hord]; omega) hhi
  rw [hdef] at hb
  rw [Option.some.inj hb]
  exact ⟨ia, ha, hab⟩

/-- C5 (witness): lowest key 36, highest key 96, three LEDs per two keys,
inverted order; the note 93 has the index 5 (the product 4.5 is a halfway
case), and the note 95 has an index that is not greater, the index 2. -/
theorem C5_inverted_monotone_witness :
    mainPin (sampleConfig 36 96 (3 / 2) .INV) ⟨93, .NOTE_ON, .LEFT⟩ = some 5 ∧
    mainPin (sampleConfig 36 96 (3 / 2) .INV) ⟨95, .NOTE_ON, .LEFT⟩ = some 2 ∧
    ∃ i2 : Int,
      mainPin (sampleConfig 36 96 (3 / 2) .INV) ⟨95, .NOTE_ON, .LEFT⟩ = some i2 ∧ i2 ≤ 5 := by
  have h93 : mainPin (sampleConfig 36 96 (3 / 2) .INV) ⟨93, .NOTE_ON, .LEFT⟩ = some 5 := by
    rw [mainPin_sample 36 96 (3 / 2) .INV ⟨93, .NOTE_ON, .LEFT⟩ (9 / 2) (9 / 2) 5
      (by norm_num [keyOffset, sampleConfig, Fin.coe_ofNat_eq_mod])
      (roundToBinary32_eq_self _ 9 (-1) (by norm_num) (by norm_num) (by norm_num))
      (by norm_num [cRound])]
    exact floatToInt_eq_some (by decide) (by decide)
  have h95 : mainPin (sampleConfig 36 96 (3 / 2) .INV) ⟨95, .NOTE_ON, .LEFT⟩ = some 2 := by
    rw [mainPin_sample 36 96 (3 / 2) .INV ⟨95, .NOTE_ON, .LEFT⟩ (3 / 2) (3 / 2) 2
      (by norm_num [keyOffset, sampleConfig, Fin.coe_ofNat_eq_mod])
      (roundToBinary32_eq_self _ 3 (-1) (by norm_num) (by norm_num) (by norm_num))
      (by norm_num [cRound])]
    exact floatToInt_eq_some (by decide) (by decide)
  exact ⟨h93, h95, C5_inverted_monotone (sampleConfig 36 96 (3 / 2) .INV)
    ⟨93, .NOTE_ON, .LEFT⟩ ⟨95, .NOTE_ON, .LEFT⟩ 5 (by decide)
    (by simp [sampleConfig, Float32.gtZero]) rfl (by decide) (by decide) (by decide) h93⟩

/-- With a finite number of LEDs per key a note with offset zero gets the pin
zero. -/
theorem mainPin_of_offset_zero (config : PianoTutorPlusConfig) (ev : MidiEvent) (v : ℚ)
    (hv : config.ledPerKey = .finite v) (h0 : keyOffset config ev = 0) :
    mainPin config ev = some 0 := by
  have hx : (keyOffset config ev : ℚ) * v = 0 := by
    rw [h0]
    simp
  have hc : cRound (roundToBinary32 ((keyOffset config ev : ℚ) * v)) = 0 := by
    rw [hx, roundToBinary32_zero, cRound_zero]
  rw [mainPin_of_fits config ev v hv (by rw [hc]; decide) (by rw [hc]; decide), hc]

/-- C6 (as stated, refuted): the constructor accepts the sample files whose
`LED_PER_KEY` is `inf` and `nan`, because neither value is `<= 0`; with
lowest key 36 and the direct order the product of the offset 0 of the note 36
and the infinity, or the NaN, is a NaN, which has no conversion to `int`: the
note `minNote` has no computed index 0. -/
theorem C6_zero_at_ends_counterexample :
    (∃ config : PianoTutorPlusConfig,
      PianoTutorPlusConfig.construct sampleLib sampleFiles "inf.conf" = .ok config ∧
      config.ledPerKey = .inf false ∧ config.ledOrder = .DIR ∧ config.keyboardMinNote = 36 ∧
      Float32.mul (Float32.ofInt 0) config.ledPerKey = .nan ∧
      mainPin config ⟨config.keyboardMinNote, .NOTE_ON, .RIGHT⟩ = none ∧
      mainPin config ⟨config.keyboardMinNote, .NOTE_ON, .RIGHT⟩ ≠ some 0) ∧
    (∃ config : PianoTutorPlusConfig,
      PianoTutorPlusConfig.construct sampleLib sampleFiles "nan.conf" = .ok config ∧
      config.ledPerKey = .nan ∧ config.ledOrder = .DIR ∧ config.keyboardMinNote = 36 ∧
      mainPin config ⟨config.keyboardMinNote, .NOTE_ON, .RIGHT⟩ = none ∧
      mainPin config ⟨config.keyboardMinNote, .NOTE_ON, .RIGHT⟩ ≠ some 0) := by
  refine ⟨⟨_, construct_inf_conf, rfl, rfl, rfl, ?_, ?_, ?_⟩,
    ⟨_, construct_nan_conf, rfl, rfl, rfl, ?_, ?_⟩⟩
  · rw [ofInt_eq_finite 0 (by norm_num)]
    rfl
  · exact mainPin_of_not_finite _ _ (fun v hv => by cases hv)
  · rw [mainPin_of_not_finite _ _ (fun v hv => by cases hv)]
    exact fun h => Option.noConfusion h
  · exact mainPin_of_not_finite _ _ (fun v hv => by cases hv)
  · rw [mainPin_of_not_finite _ _ (fun v hv => by cases hv)]
    exact fun h => Option.noConfusion h

/-- C6 (amended): for every finite `ledsPerKey` and every `minNote`,
`maxNote`: with order DIR the computed LED index of the note `minNote` is 0,
and with order INV the computed LED index of the note `maxNote` is 0. -/
theorem C6_zero_at_ends (config : PianoTutorPlusConfig) (ty : MidiEvent.EventType)
    (hand : MidiEvent.Hand) (v : ℚ) (hv : config.ledPerKey = .finite v) :
    (config.ledOrder = .DIR → mainPin config ⟨config.keyboardMinNote, ty, hand⟩ = some 0) ∧
    (config.ledOrder = .INV → mainPin config ⟨config.keyboardMaxNote, ty, hand⟩ = some 0) := by
  constructor
  · intro h
    apply mainPin_of_offset_zero config _ v hv
    rw [keyOffset_DIR h]
    simp
  · intro h
    apply mainPin_of_offset_zero config _ v hv
    rw [keyOffset_INV h]
    simp

/-- C6 (witness): with lowest key 36, highest key 96 and seven LEDs per four
keys, the direct order puts note 36 at index 0 and the inverted order puts
note 96 at index 0. -/
theorem C6_zero_at_ends_witness :
    mainPin (sampleConfig 36 96 (7 / 4) .DIR) ⟨36, .NOTE_ON, .RIGHT⟩ = some 0 ∧
    mainPin (sampleConfig 36 96 (7 / 4) .INV) ⟨96, .NOTE_OFF, .LEFT⟩ = some 0 :=
  ⟨(C6_zero_at_ends (sampleConfig 36 96 (7 / 4) .DIR) .NOTE_ON .RIGHT (7 / 4) rfl).1 rfl,
   (C6_zero_at_ends (sampleConfig 36 96 (7 / 4) .INV) .NOTE_OFF .LEFT (7 / 4) rfl).2 rfl⟩

/-- With one LED per key the pin is the offset itself. -/
theorem mainPin_of_ledPerKey_one (config : PianoTutorPlusConfig) (ev : MidiEvent)
    (h : config.ledPerKey = .finite 1) : mainPin config ev = some (keyOffset config ev) := by
  have hb := keyOffset_bounds config ev
  have hr : roundToBinary32 ((keyOffset config ev : ℚ) * 1) = (keyOffset config ev : ℚ) := by
    rw [mul_one]
    apply roundToBinary32_intCast
    rw [abs_lt]
    constructor <;> omega
  have hc : cRound (roundToBinary32 ((keyOffset config ev : ℚ) * 1)) = keyOffset config ev := by
    rw [hr, cRound_intCast]
  rw [mainPin_of_fits config ev 1 h (by rw [hc]; unfold INT_MIN; omega)
    (by rw [hc]; unfold INT_MAX; omega), hc]

/-- C7: when `ledsPerKey = 1`, for every note `n` the computed LED index is
exactly `n - minNote` with order DIR and exactly `maxNote - n` with order INV;
with `minNote = 36` and `maxNote = 96`, DIR maps 36, 37, 96 to 0, 1, 60 and
INV maps 96, 36 to 0, 60. -/
theorem C7_one_led_per_key :
    (∀ (config : PianoTutorPlusConfig) (ev : MidiEvent), config.ledPerKey = .finite 1 →
      (config.ledOrder = .DIR →
        mainPin config ev = some ((ev.note.val : ℤ) - (config.keyboardMinNote.val : ℤ))) ∧
      (config.ledOrder = .INV →
        mainPin config ev = some ((config.keyboardMaxNote.val : ℤ) - (ev.note.val : ℤ)))) ∧
    (∀ (ty : MidiEvent.EventType) (hand : MidiEvent.Hand),
      mainPin (sampleConfig 36 96 1 .DIR) ⟨36, ty, hand⟩ = some 0 ∧
      mainPin (sampleConfig 36 96 1 .DIR) ⟨37, ty, hand⟩ = some 1 ∧
      mainPin (sampleConfig 36 96 1 .DIR) ⟨96, ty, hand⟩ = some 60 ∧
      mainPin (sampleConfig 36 96 1 .INV) ⟨96, ty, hand⟩ = some 0 ∧
      mainPin (sampleConfig 36 96 1 .INV) ⟨36, ty, hand⟩ = some 60) := by
  have hgen : ∀ (config : PianoTutorPlusConfig) (ev : MidiEvent), config.ledPerKey = .finite 1 →
      (config.ledOrder = .DIR →
        mainPin config ev = some ((ev.note.val : ℤ) - (config.keyboardMinNote.val : ℤ))) ∧
      (config.ledOrder = .INV →
        mainPin config ev = some ((config.keyboardMaxNote.val : ℤ) - (ev.note.val : ℤ))) := by
    intro config ev h
    constructor
    · intro hd
      rw [mainPin_of_ledPerKey_one config ev h, keyOffset_DIR hd]
    · intro hi
      rw [mainPin_of_ledPerKey_one config ev h, keyOffset_INV hi]
  refine ⟨hgen, ?_⟩
  intro ty hand
  refine ⟨?_, ?_, ?_, ?_, ?_⟩
  · exact ((hgen (sampleConfig 36 96 1 .DIR) ⟨36, ty, hand⟩ rfl).1 rfl).trans rfl
  · exact ((hgen (sampleConfig 36 96 1 .DIR) ⟨37, ty, hand⟩ rfl).1 rfl).trans rfl
  · exact ((hgen (sampleConfig 36 96 1 .DIR) ⟨96, ty, hand⟩ rfl).1 rfl).trans rfl
  · exact ((hgen (sampleConfig 36 96 1 .INV) ⟨96, ty, hand⟩ rfl).2 rfl).trans rfl
  · exact ((hgen (sampleConfig 36 96 1 .INV) ⟨36, ty, hand⟩ rfl).2 rfl).trans rfl

/-- C7 (witness): one LED per key, lowest key 21, highest key 108; the direct
order puts note 60 at index 39 and the inverted order puts note 20, one key
below the keyboard, at index 88. -/
theorem C7_one_led_per_key_witness :
    mainPin (sampleConfig 21 108 1 .DIR) ⟨60, .NOTE_ON, .LEFT⟩ = some 39 ∧
    mainPin (sampleConfig 21 108 1 .INV) ⟨20, .NOTE_OFF, .RIGHT⟩ = some 88 :=
  ⟨((C7_one_led_per_key.1 (sampleConfig 21 108 1 .DIR) ⟨60, .NOTE_ON, .LEFT⟩ rfl).1 rfl).trans
      (by decide),
   ((C7_one_led_per_key.1 (sampleConfig 21 108 1 .INV) ⟨20, .NOTE_OFF, .RIGHT⟩ rfl).2 rfl).trans
      (by decide)⟩

/-! ## The rounding mode of the index -/

/-- An integer strictly within one half of a value is strictly nearer to it
than every other integer. -/
theorem nearest_of_dist_lt_half (i : ℤ) (p : ℚ) (h : |(i : ℚ) - p| < 1 / 2) (j : ℤ)
    (hne : j ≠ i) : |(i : ℚ) - p| < |(j : ℚ) - p| := by
  have h1 : (1 : ℚ) ≤ |(j : ℚ) - (i : ℚ)| := by
    have : (1 : ℤ) ≤ |j - i| := Int.one_le_abs (sub_ne_zero.mpr hne)
    exact_mod_cast this
  have h2 : |(j : ℚ) - (i : ℚ)| ≤ |(j : ℚ) - p| + |p - (i : ℚ)| := abs_sub_le _ _ _
  rw [abs_sub_comm p (i : ℚ)] at h2
  linarith

/-- The pin of the note 40 under the configuration with `LED_PER_KEY` equal to
`2 ^ 30` and lowest key 36, direct order, is not defined. -/
theorem mainPin_huge_40 :
    mainPin (sampleConfig 36 96 1073741824 .DIR) ⟨40, .NOTE_OFF, .LEFT⟩ = none := by
  rw [mainPin_sample 36 96 1073741824 .DIR ⟨40, .NOTE_OFF, .LEFT⟩ 4294967296 4294967296
    4294967296
    (by norm_num [keyOffset, sampleConfig, Fin.coe_ofNat_eq_mod])
    (roundToBinary32_eq_self _ 1 32 (by norm_num) (by norm_num) (by norm_num))
    (by norm_num [cRound])]
  exact floatToInt_eq_none (Or.inr (by decide))

/-- The pin of the note 41 with the float nearest to seven tenths for the
number of LEDs per key and lowest key 36, direct order: the exact product
`5 * 11744051 / 16777216` lies below 3.5, the `float` product is 3.5, and the
pin is 4. -/
theorem mainPin_tenths_41 :
    mainPin (sampleConfig 36 96 (11744051 / 16777216) .DIR) ⟨41, .NOTE_ON, .RIGHT⟩
      = some 4 := by
  rw [mainPin_sample 36 96 (11744051 / 16777216) .DIR ⟨41, .NOTE_ON, .RIGHT⟩
    (58720255 / 16777216) (7 / 2) 4
    (by norm_num [keyOffset, sampleConfig, Fin.coe_ofNat_eq_mod])
    (by
      rw [roundToBinary32_of_binade _ 1 (binade_eq_of_bounds _ _ (by norm_num)
        (by norm_num [abs_of_pos]) (by norm_num [abs_of_pos]))]
      norm_num [roundHalfEven])
    (by norm_num [cRound])]
  exact floatToInt_eq_some (by decide) (by decide)

/-- The pin of the note 39 with `5592405.5` LEDs per key and lowest key 36,
direct order: the exact product is `16777216 + 1/2`, the `float` product is
16777216, and so is the pin. -/
theorem mainPin_halves_39 :
    mainPin (sampleConfig 36 96 (11184811 / 2) .DIR) ⟨39, .NOTE_ON, .RIGHT⟩
      = some 16777216 := by
  rw [mainPin_sample 36 96 (11184811 / 2) .DIR ⟨39, .NOTE_ON, .RIGHT⟩
    (33554433 / 2) 16777216 16777216
    (by norm_num [keyOffset, sampleConfig, Fin.coe_ofNat_eq_mod])
    (by
      rw [roundToBinary32_of_binade _ 24 (binade_eq_of_bounds _ _ (by norm_num)
        (by norm_num [abs_of_pos]) (by norm_num [abs_of_pos]))]
      norm_num [roundHalfEven])
    (by norm_num [cRound])]
  exact floatToInt_eq_some (by decide) (by decide)

/-- C8 (as stated, refuted): three accepted sample files. With
`LED_PER_KEY = 0.7` the number of LEDs per key is the `float` nearest to seven
tenths; the exact product of the offset 5 of the note 41 is not a halfway
case and its nearest integer is 3, but the index is 4. With
`LED_PER_KEY = 5592405.5` the exact product of the offset 3 of the note 39 is
`16777216 + 1/2`, and the index is 16777216, not 16777217. With
`LED_PER_KEY = 1073741824` the product of the offset 4 of the note 40 is
`4294967296`, not a halfway case, and the note has no index: the nearest
integer is beyond `int`. -/
theorem C8_round_half_away_counterexample :
    (PianoTutorPlusConfig.construct sampleLib sampleFiles "tenths.conf"
        = .ok (sampleConfig 36 96 (11744051 / 16777216) .DIR) ∧
      (keyOffset (sampleConfig 36 96 (11744051 / 16777216) .DIR) ⟨41, .NOTE_ON, .RIGHT⟩ : ℚ)
        * (11744051 / 16777216) = 58720255 / 16777216 ∧
      (∀ k : ℤ, (58720255 / 16777216 : ℚ) ≠ (k : ℚ) + 1 / 2) ∧
      |((3 : ℤ) : ℚ) - 58720255 / 16777216| < 1 / 2 ∧
      mainPin (sampleConfig 36 96 (11744051 / 16777216) .DIR) ⟨41, .NOTE_ON, .RIGHT⟩
        = some 4 ∧
      1 / 2 < |((4 : ℤ) : ℚ) - 58720255 / 16777216|) ∧
    (PianoTutorPlusConfig.construct sampleLib sampleFiles "halves.conf"
        = .ok (sampleConfig 36 96 (11184811 / 2) .DIR) ∧
      (keyOffset (sampleConfig 36 96 (11184811 / 2) .DIR) ⟨39, .NOTE_ON, .RIGHT⟩ : ℚ)
        * (11184811 / 2) = ((16777216 : ℤ) : ℚ) + 1 / 2 ∧
      mainPin (sampleConfig 36 96 (11184811 / 2) .DIR) ⟨39, .NOTE_ON, .RIGHT⟩
        = some 16777216 ∧
      mainPin (sampleConfig 36 96 (11184811 / 2) .DIR) ⟨39, .NOTE_ON, .RIGHT⟩
        ≠ some (16777216 + 1)) ∧
    (PianoTutorPlusConfig.construct sampleLib sampleFiles "huge.conf"
        = .ok (sampleConfig 36 96 1073741824 .DIR) ∧
      (keyOffset (sampleConfig 36 96 1073741824 .DIR) ⟨40, .NOTE_OFF, .LEFT⟩ : ℚ)
        * 1073741824 = 4294967296 ∧
      (∀ k : ℤ, (4294967296 : ℚ) ≠ (k : ℚ) + 1 / 2) ∧
      mainPin (sampleConfig 36 96 1073741824 .DIR) ⟨40, .NOTE_OFF, .LEFT⟩ = none) := by
  refine ⟨⟨construct_tenths_conf, ?_, ?_, ?_, mainPin_tenths_41, ?_⟩,
    ⟨construct_halves_conf, ?_, mainPin_halves_39, ?_⟩,
    ⟨construct_huge_conf, ?_, ?_, mainPin_huge_40⟩⟩
  · norm_num [keyOffset, sampleConfig, Fin.coe_ofNat_eq_mod]
  · intro k h
    have h1 : ((16777216 * (2 * k + 1) : ℤ) : ℚ) = ((117440510 : ℤ) : ℚ) := by
      push_cast
      linarith
    have h2 : 16777216 * (2 * k + 1) = (117440510 : ℤ) := by exact_mod_cast h1
    omega
  · rw [abs_lt]
    constructor <;> norm_num
  · rw [lt_abs]
    left
    norm_num
  · norm_num [keyOffset, sampleConfig, Fin.coe_ofNat_eq_mod]
  · rw [mainPin_halves_39]
    exact fun h => absurd (Option.some.inj h) (by decide)
  · norm_num [keyOffset, sampleConfig, Fin.coe_ofNat_eq_mod]
  · intro k h
    have h1 : ((2 * k + 1 : ℤ) : ℚ) = ((8589934592 : ℤ) : ℚ) := by
      push_cast
      linarith
    have h2 : 2 * k + 1 = (8589934592 : ℤ) := by exact_mod_cast h1
    omega

/-- The three pins of the example of the specification: half an LED per key,
lowest key 36, direct order. -/
theorem mainPin_half_examples (ty : MidiEvent.EventType) (hand : MidiEvent.Hand) :
    mainPin (sampleConfig 36 96 (1 / 2) .DIR) ⟨38, ty, hand⟩ = some 1 ∧
    mainPin (sampleConfig 36 96 (1 / 2) .DIR) ⟨37, ty, hand⟩ = some 1 ∧
    mainPin (sampleConfig 36 96 (1 / 2) .DIR) ⟨39, ty, hand⟩ = some 2 := by
  refine ⟨?_, ?_, ?_⟩
  · rw [mainPin_sample 36 96 (1 / 2) .DIR ⟨38, ty, hand⟩ 1 1 1
      (by norm_num [keyOffset, sampleConfig, Fin.coe_ofNat_eq_mod])
      (roundToBinary32_eq_self _ 1 0 (by norm_num) (by norm_num) (by norm_num))
      (by norm_num [cRound])]
    exact floatToInt_eq_some (by decide) (by decide)
  · rw [mainPin_sample 36 96 (1 / 2) .DIR ⟨37, ty, hand⟩ (1 / 2) (1 / 2) 1
      (by norm_num [keyOffset, sampleConfig, Fin.coe_ofNat_eq_mod])
      (roundToBinary32_eq_self _ 1 (-1) (by norm_num) (by norm_num) (by norm_num))
      (by norm_num [cRound])]
    exact floatToInt_eq_some (by decide) (by decide)
  · rw [mainPin_sample 36 96 (1 / 2) .DIR ⟨39, ty, hand⟩ (3 / 2) (3 / 2) 2
      (by norm_num [keyOffset, sampleConfig, Fin.coe_ofNat_eq_mod])
      (roundToBinary32_eq_self _ 3 (-1) (by norm_num) (by norm_num) (by norm_num))
      (by norm_num [cRound])]
    exact floatToInt_eq_some (by decide) (by decide)

/-- A halfway case `k + 1/2` with `0 <= k < 2 ^ 23` is a float. -/
theorem roundToBinary32_half (k : ℤ) (hk : 0 ≤ k) (hk2 : k < 2 ^ 23) :
    roundToBinary32 ((k : ℚ) + 1 / 2) = (k : ℚ) + 1 / 2 ∧
    roundToBinary32 (-((k : ℚ) + 1 / 2)) = -((k : ℚ) + 1 / 2) := by
  constructor
  · apply roundToBinary32_eq_self _ (2 * k + 1) (-1)
    · rw [abs_lt]
      constructor <;> omega
    · norm_num
    · push_cast
      rw [zpow_neg_one]
      ring
  · apply roundToBinary32_eq_self _ (-(2 * k + 1)) (-1)
    · rw [abs_lt]
      constructor <;> omega
    · norm_num
    · push_cast
      rw [zpow_neg_one]
      ring

/-- C8 (amended): the rounding used for the LED index is
round-half-away-from-zero of the `float` product, the binary32 value nearest
to the exact product of the offset and `ledsPerKey`, whenever `ledsPerKey` is
finite and the rounded value fits the 32-bit `int`: if the `float` product is
`k + 1/2` for an integer `k >= 0` the index is `k + 1`, if it is `-(k + 1/2)`
the index is `-(k + 1)`, and for any other `float` product the index is the
integer nearest to it (strictly within one half of it and strictly nearer to
it than every other integer). When the exact product itself is `k + 1/2` or
`-(k + 1/2)` with `0 <= k < 2 ^ 23`, it is the `float` product, and the index
is `k + 1`, respectively `-(k + 1)`. With `ledsPerKey = 1/2` and lowest key
36, note 38 gives 1, note 37 gives 1 and note 39 gives 2. -/
theorem C8_round_half_away :
    (∀ (config : PianoTutorPlusConfig) (ev : MidiEvent) (v : ℚ),
      config.ledPerKey = .finite v →
      INT_MIN ≤ cRound (roundToBinary32 ((keyOffset config ev : ℚ) * v)) →
      cRound (roundToBinary32 ((keyOffset config ev : ℚ) * v)) ≤ INT_MAX →
      (∀ k : ℤ, 0 ≤ k → roundToBinary32 ((keyOffset config ev : ℚ) * v) = (k : ℚ) + 1 / 2 →
        mainPin config ev = some (k + 1)) ∧
      (∀ k : ℤ, 0 ≤ k → roundToBinary32 ((keyOffset config ev : ℚ) * v) = -((k : ℚ) + 1 / 2) →
        mainPin config ev = some (-(k + 1))) ∧
      ((∀ k : ℤ, 0 ≤ k → roundToBinary32 ((keyOffset config ev : ℚ) * v) ≠ (k : ℚ) + 1 / 2) →
        (∀ k : ℤ, 0 ≤ k →
          roundToBinary32 ((keyOffset config ev : ℚ) * v) ≠ -((k : ℚ) + 1 / 2)) →
        ∃ i : Int, mainPin config ev = some i ∧
          |(i : ℚ) - roundToBinary32 ((keyOffset config ev : ℚ) * v)| < 1 / 2 ∧
          ∀ j : ℤ, j ≠ i →
            |(i : ℚ) - roundToBinary32 ((keyOffset config ev : ℚ) * v)|
              < |(j : ℚ) - roundToBinary32 ((keyOffset config ev : ℚ) * v)|)) ∧
    (∀ (config : PianoTutorPlusConfig) (ev : MidiEvent) (v : ℚ) (k : ℤ),
      config.ledPerKey = .finite v → 0 ≤ k → k < 2 ^ 23 →
      ((keyOffset config ev : ℚ) * v = (k : ℚ) + 1 / 2 → mainPin config ev = some (k + 1)) ∧
      ((keyOffset config ev : ℚ) * v = -((k : ℚ) + 1 / 2) →
        mainPin config ev = some (-(k + 1)))) ∧
    (∀ (ty : MidiEvent.EventType) (hand : MidiEvent.Hand),
      mainPin (sampleConfig 36 96 (1 / 2) .DIR) ⟨38, ty, hand⟩ = some 1 ∧
      mainPin (sampleConfig 36 96 (1 / 2) .DIR) ⟨37, ty, hand⟩ = some 1 ∧
      mainPin (sampleConfig 36 96 (1 / 2) .DIR) ⟨39, ty, hand⟩ = some 2) := by
  refine ⟨?_, ?_, mainPin_half_examples⟩
  · intro config ev v hv hlo hhi
    have hpin := mainPin_of_fits config ev v hv hlo hhi
    refine ⟨?_, ?_, ?_⟩
    · intro k hk h
      rw [hpin, h, cRound_half_pos k hk]
    · intro k hk h
      rw [hpin, h, cRound_half_neg k hk]
    · intro hpos hneg
      have hlt := cRound_dist_lt _ hpos hneg
      exact ⟨_, hpin, hlt, fun j hj => nearest_of_dist_lt_half _ _ hlt j hj⟩
  · intro config ev v k hv hk hk2
    have hINT : INT_MIN ≤ -(k + 1) ∧ k + 1 ≤ INT_MAX := by
      unfold INT_MIN INT_MAX
      constructor <;> omega
    constructor
    · intro h
      have hc : cRound (roundToBinary32 ((keyOffset config ev : ℚ) * v)) = k + 1 := by
        rw [h, (roundToBinary32_half k hk hk2).1, cRound_half_pos k hk]
      rw [mainPin_of_fits config ev v hv (by rw [hc]; omega) (by rw [hc]; omega), hc]
    · intro h
      have hc : cRound (roundToBinary32 ((keyOffset config ev : ℚ) * v)) = -(k + 1) := by
        rw [h, (roundToBinary32_half k hk hk2).2, cRound_half_neg k hk]
      rw [mainPin_of_fits config ev v hv (by rw [hc]; omega) (by rw [hc]; omega), hc]

/-- C8 (witness): three LEDs per two keys, lowest key 36, direct order. Note 39
has the product `3 * 3/2 = 4 + 1/2`, a `float`, its rounded value 5 fits
`int`, and its index is 5. -/
theorem C8_round_half_away_witness :
    ((keyOffset (sampleConfig 36 96 (3 / 2) .DIR) ⟨39, .NOTE_ON, .RIGHT⟩ : ℚ) * (3 / 2)
        = ((4 : ℤ) : ℚ) + 1 / 2 ∧
      roundToBinary32 ((keyOffset (sampleConfig 36 96 (3 / 2) .DIR)
        ⟨39, .NOTE_ON, .RIGHT⟩ : ℚ) * (3 / 2)) = ((4 : ℤ) : ℚ) + 1 / 2) ∧
    mainPin (sampleConfig 36 96 (3 / 2) .DIR) ⟨39, .NOTE_ON, .RIGHT⟩ = some (4 + 1) := by
  have hp : (keyOffset (sampleConfig 36 96 (3 / 2) .DIR) ⟨39, .NOTE_ON, .RIGHT⟩ : ℚ)
      * (3 / 2) = ((4 : ℤ) : ℚ) + 1 / 2 := by
    norm_num [keyOffset, sampleConfig, Fin.coe_ofNat_eq_mod]
  have hr : roundToBinary32 ((keyOffset (sampleConfig 36 96 (3 / 2) .DIR)
      ⟨39, .NOTE_ON, .RIGHT⟩ : ℚ) * (3 / 2)) = ((4 : ℤ) : ℚ) + 1 / 2 := by
    rw [hp]
    exact (roundToBinary32_half 4 (by decide) (by decide)).1
  have hc : cRound (roundToBinary32 ((keyOffset (sampleConfig 36 96 (3 / 2) .DIR)
      ⟨39, .NOTE_ON, .RIGHT⟩ : ℚ) * (3 / 2))) = 5 := by
    rw [hr]
    norm_num [cRound]
  exact ⟨⟨hp, hr⟩,
    (C8_round_half_away.1 (sampleConfig 36 96 (3 / 2) .DIR) ⟨39, .NOTE_ON, .RIGHT⟩ (3 / 2) rfl
      (by rw [hc]; decide) (by rw [hc]; decide)).1 4 (by decide) hr⟩

/-! ## The position that is written -/

/-- The conversion to `unsigned char` lands in `0 .. 255`. -/
theorem toUChar_lt (x : Int) : toUChar x < 256 := by
  unfold toUChar
  omega

/-- The conversion to `unsigned char` keeps exactly the values `0 .. 255`. -/
theorem toUChar_cast_eq_iff (x : Int) : ((toUChar x : ℕ) : ℤ) = x ↔ 0 ≤ x ∧ x ≤ 255 := by
  unfold toUChar
  omega

/-- The guarded block on a note event whose pin is defined. -/
theorem mainEvent_of_pin (config : PianoTutorPlusConfig) (strip : LedStrip) (ev : MidiEvent)
    (pin : Int) (hty : ev.type = .NOTE_ON ∨ ev.type = .NOTE_OFF)
    (hpin : mainPin config ev = some pin) :
    mainEvent config strip ev = some (mainSwitch config strip pin ev) := by
  unfold mainEvent
  rcases hty with h | h <;> simp [h, hpin]

/-- C9 (as stated, refuted): with one LED per key, lowest key 36 and the
direct order, a press of note 35 by the right hand has the computed index -1,
and the loop body stores the colour at position 255 of the buffer and changes
no other position; with ten LEDs per key, note 96 has the computed index 600
and the store goes to position 88. The position written is the index wrapped
into `0 .. 255`, not the index. -/
theorem C9_written_position_counterexample :
    (mainPin (sampleConfig 36 96 1 .DIR) ⟨35, .NOTE_ON, .RIGHT⟩ = some (-1) ∧
      ∃ s : LedStrip,
        mainEvent (sampleConfig 36 96 1 .DIR) sampleStrip ⟨35, .NOTE_ON, .RIGHT⟩ = some s ∧
        s.leds 255 = 0x00000020 ∧ sampleStrip.leds 255 = 0 ∧
        (∀ i : Nat, i ≠ 255 → s.leds i = sampleStrip.leds i) ∧ ((255 : Nat) : ℤ) ≠ -1) ∧
    (mainPin (sampleConfig 36 96 10 .DIR) ⟨96, .NOTE_ON, .RIGHT⟩ = some 600 ∧
      ∃ s : LedStrip,
        mainEvent (sampleConfig 36 96 10 .DIR) sampleStrip ⟨96, .NOTE_ON, .RIGHT⟩ = some s ∧
        s.leds 88 = 0x00000020 ∧ sampleStrip.leds 88 = 0 ∧
        (∀ i : Nat, i ≠ 88 → s.leds i = sampleStrip.leds i) ∧ ((88 : Nat) : ℤ) ≠ 600) := by
  have hp1 : mainPin (sampleConfig 36 96 1 .DIR) ⟨35, .NOTE_ON, .RIGHT⟩ = some (-1) := by
    rw [mainPin_of_ledPerKey_one _ _ rfl]
    rfl
  have hp2 : mainPin (sampleConfig 36 96 10 .DIR) ⟨96, .NOTE_ON, .RIGHT⟩ = some 600 := by
    rw [mainPin_sample 36 96 10 .DIR ⟨96, .NOTE_ON, .RIGHT⟩ 600 600 600
      (by norm_num [keyOffset, sampleConfig, Fin.coe_ofNat_eq_mod])
      (roundToBinary32_eq_self _ 600 0 (by norm_num) (by norm_num) (by norm_num))
      (by norm_num [cRound])]
    exact floatToInt_eq_some (by decide) (by decide)
  refine ⟨⟨hp1, _, mainEvent_of_pin _ sampleStrip _ (-1) (Or.inl rfl) hp1, ?_, rfl, ?_,
      by decide⟩,
    ⟨hp2, _, mainEvent_of_pin _ sampleStrip _ 600 (Or.inl rfl) hp2, ?_, rfl, ?_, by decide⟩⟩
  · exact mainSwitch_leds_self _ sampleStrip (-1) ⟨35, .NOTE_ON, .RIGHT⟩
  · intro i hi
    exact mainSwitch_leds_other _ sampleStrip (-1) ⟨35, .NOTE_ON, .RIGHT⟩ i hi
  · exact mainSwitch_leds_self _ sampleStrip 600 ⟨96, .NOTE_ON, .RIGHT⟩
  · intro i hi
    exact mainSwitch_leds_other _ sampleStrip 600 ⟨96, .NOTE_ON, .RIGHT⟩ i hi

/-- C9 (amended): for every NOTE_ON or NOTE_OFF event, also of a note outside
`[minNote, maxNote]`, that has a computed index (the number of LEDs per key is
finite and the rounded `float` product of the offset and `ledsPerKey` fits the
32-bit `int`), the loop body stores the colour (or 0 for NOTE_OFF) at the
position `index mod 256` of the buffer, a position in `0 .. 255`, and leaves
every other position unchanged; that position equals the index exactly when
`0 <= index <= 255`. There is no clamping: a negative index or one above 255
is wrapped modulo 256 by the conversion to the `unsigned char` parameter of
`switchOn` / `switchOff`. -/
theorem C9_written_position (config : PianoTutorPlusConfig) (strip : LedStrip)
    (ev : MidiEvent) (index : Int) (hty : ev.type = .NOTE_ON ∨ ev.type = .NOTE_OFF)
    (hindex : mainPin config ev = some index) :
    (∃ v : ℚ, config.ledPerKey = .finite v ∧
      index = cRound (roundToBinary32 ((keyOffset config ev : ℚ) * v))) ∧
    ∃ s : LedStrip, mainEvent config strip ev = some s ∧
      s.leds (index % 256).toNat =
        (if ev.type = .NOTE_ON then
          (if ev.hand = .RIGHT then config.colorRightHand else config.colorLeftHand).val
        else 0) ∧
      (∀ i : Nat, i ≠ (index % 256).toNat → s.leds i = strip.leds i) ∧
      (index % 256).toNat < 256 ∧
      ((((index % 256).toNat : ℕ) : ℤ) = index ↔ (0 ≤ index ∧ index ≤ 255)) := by
  obtain ⟨v, hv, hi, _, _⟩ := mainPin_some_inv config ev index hindex
  refine ⟨⟨v, hv, hi⟩, _, mainEvent_of_pin config strip ev _ hty hindex, ?_, ?_, ?_, ?_⟩
  · exact mainSwitch_leds_self config strip index ev
  · intro i hi
    exact mainSwitch_leds_other config strip index ev i hi
  · exact toUChar_lt _
  · exact toUChar_cast_eq_iff _

/-- C9 (witness): ten LEDs per key, lowest key 36, direct order, on the strip
of 61 LEDs; the press of note 66 by the left hand has the index 300, which
fits `int`, and the loop body stores the colour of the left hand at position
`300 mod 256 = 44` of the buffer. -/
theorem C9_written_position_witness :
    mainPin (sampleConfig 36 96 10 .DIR) ⟨66, .NOTE_ON, .LEFT⟩ = some 300 ∧
    ∃ s : LedStrip,
      mainEvent (sampleConfig 36 96 10 .DIR) sampleStrip ⟨66, .NOTE_ON, .LEFT⟩ = some s ∧
      s.leds 44 = 0x00002000 ∧ (44 : Nat) < sampleStrip.count := by
  have hp : mainPin (sampleConfig 36 96 10 .DIR) ⟨66, .NOTE_ON, .LEFT⟩ = some 300 := by
    rw [mainPin_sample 36 96 10 .DIR ⟨66, .NOTE_ON, .LEFT⟩ 300 300 300
      (by norm_num [keyOffset, sampleConfig, Fin.coe_ofNat_eq_mod])
      (roundToBinary32_eq_self _ 300 0 (by norm_num) (by norm_num) (by norm_num))
      (by norm_num [cRound])]
    exact floatToInt_eq_some (by decide) (by decide)
  obtain ⟨s, h1, h2, _⟩ := (C9_written_position (sampleConfig 36 96 10 .DIR) sampleStrip
    ⟨66, .NOTE_ON, .LEFT⟩ 300 (Or.inl rfl) hp).2
  exact ⟨hp, s, h1, h2, by decide⟩

/-! ## The check of `LED_PER_KEY` -/

/-- A file whose `LED_PER_KEY` parses to a value that is `<= 0` makes the
constructor throw a `ParsingException`. -/
theorem construct_error_of_leZero (lib : StdLib) (files : String → Option String)
    (filename : String) (conf : Config) (x : Float32)
    (hconf : Config.parse files filename = .ok conf)
    (hx : Config.parseFloat lib (conf.get KEY_LED_PER_KEY) = .ok x) (hx0 : x.leZero = true) :
    PianoTutorPlusConfig.construct lib files filename = .error .ParsingException := by
  rw [construct_of_parse_ok lib files filename conf hconf]
  cases hb : PianoTutorPlusConfig.tryBlock lib conf with
  | error e => rfl
  | ok config =>
    exfalso
    have hinv := (tryBlock_ok_inv lib conf config hb).2.2.2.2.1
    have hsome := parseFloat_eq_ok hx
    rw [hinv.1] at hsome
    have hxc : config.ledPerKey = x := Option.some.inj hsome
    rw [hxc, hx0] at hinv
    exact Bool.noConfusion hinv.2

/-- The number of LEDs per key of a constructed configuration is not `<= 0`:
it is a positive finite value, the positive infinity or a NaN. -/
theorem construct_ledPerKey (lib : StdLib) (files : String → Option String)
    (filename : String) (config : PianoTutorPlusConfig)
    (h : PianoTutorPlusConfig.construct lib files filename = .ok config) :
    config.ledPerKey.leZero = false ∧
    ((∃ v : ℚ, config.ledPerKey = .finite v ∧ 0 < v) ∨ config.ledPerKey = .inf false
      ∨ config.ledPerKey = .nan) := by
  obtain ⟨conf, _, hb⟩ := construct_ok_inv lib files filename config h
  have hle := (tryBlock_ok_inv lib conf config hb).2.2.2.2.1.2
  refine ⟨hle, ?_⟩
  cases hq : config.ledPerKey with
  | finite v =>
    left
    rw [hq] at hle
    exact ⟨v, rfl, by simpa [Float32.leZero] using hle⟩
  | inf s =>
    right; left
    rw [hq] at hle
    have hs : s = false := hle
    rw [hs]
  | nan => right; right; rfl

/-- The sample file with no LEDs per key makes the constructor throw a
`ParsingException`. -/
theorem construct_zero_conf :
    PianoTutorPlusConfig.construct sampleLib sampleFiles "zero.conf"
      = .error .ParsingException := by
  have hf0 : Config.parseFloat sampleLib
      ((Config.parseLines (getlines (sampleText "dir" "0"))).get KEY_LED_PER_KEY)
        = .ok (.finite 0) := by
    have h : sampleLib.stof ((Config.parseLines (getlines (sampleText "dir" "0"))).get
        KEY_LED_PER_KEY) = some (.finite 0) := sampleStof_values.1
    unfold Config.parseFloat
    rw [h]
  exact construct_error_of_leZero sampleLib sampleFiles "zero.conf" _ _ rfl hf0
    (by simp [Float32.leZero])

/-- The sample file with a negative number of LEDs per key makes the
constructor throw a `ParsingException`. -/
theorem construct_minus_conf :
    PianoTutorPlusConfig.construct sampleLib sampleFiles "minus.conf"
      = .error .ParsingException := by
  have hf1 : Config.parseFloat sampleLib
      ((Config.parseLines (getlines (sampleText "dir" "-2.5"))).get KEY_LED_PER_KEY)
        = .ok (.finite (-5 / 2)) := by
    have h : sampleLib.stof ((Config.parseLines (getlines (sampleText "dir" "-2.5"))).get
        KEY_LED_PER_KEY) = some (.finite (-5 / 2)) := sampleStof_values.2.1
    unfold Config.parseFloat
    rw [h]
  exact construct_error_of_leZero sampleLib sampleFiles "minus.conf" _ _ rfl hf1
    (by norm_num [Float32.leZero])

/-- C10: every configuration file whose `LED_PER_KEY` value parses to a number
`<= 0` (a negative number, a zero or the negative infinity) makes the
constructor throw a `ParsingException`, as the sample files with `0` and
`-2.5` do; but the sample file whose `LED_PER_KEY` is `nan` is accepted, and
the constructed configuration has a number of LEDs per key that is a NaN, not
a value `> 0`. -/
theorem C10_nan_accepted :
    (∀ (lib : StdLib) (files : String → Option String) (filename : String) (conf : Config)
      (x : Float32), Config.parse files filename = .ok conf →
      Config.parseFloat lib (conf.get KEY_LED_PER_KEY) = .ok x → x.leZero = true →
      PianoTutorPlusConfig.construct lib files filename = .error .ParsingException) ∧
    PianoTutorPlusConfig.construct sampleLib sampleFiles "zero.conf"
      = .error .ParsingException ∧
    PianoTutorPlusConfig.construct sampleLib sampleFiles "minus.conf"
      = .error .ParsingException ∧
    sampleLib.stof "nan" = some .nan ∧ Float32.leZero .nan = false ∧
    (∃ config : PianoTutorPlusConfig,
      PianoTutorPlusConfig.construct sampleLib sampleFiles "nan.conf" = .ok config ∧
      config.ledPerKey = .nan ∧ config.ledPerKey.gtZero = false) := by
  exact ⟨construct_error_of_leZero, construct_zero_conf, construct_minus_conf,
    sampleStof_special.2.2, rfl, ⟨_, construct_nan_conf, rfl, rfl⟩⟩

/-! ## The two notes of the keyboard -/

/-- A conditional between two integers within bounds is within the bounds. -/
theorem ite_bounds {c : Prop} [Decidable c] {a b lo hi : Int} (ha : lo ≤ a ∧ a ≤ hi)
    (hb : lo ≤ b ∧ b ≤ hi) :
    lo ≤ (if c then a else b) ∧ (if c then a else b) ≤ hi := by
  by_cases h : c
  · rw [if_pos h]; exact ha
  · rw [if_neg h]; exact hb

/-- The chain of comparisons of `note2midi` yields a value from `-1` to `11`. -/
theorem pitchClass_bounds (g : String) :
    -1 ≤ MidiClient.pitchClass g ∧ MidiClient.pitchClass g ≤ 11 := by
  unfold MidiClient.pitchClass
  refine ite_bounds (by decide) (ite_bounds (by decide) (ite_bounds (by decide)
    (ite_bounds (by decide) (ite_bounds (by decide) (ite_bounds (by decide)
    (ite_bounds (by decide) (ite_bounds (by decide) (ite_bounds (by decide)
    (ite_bounds (by decide) (ite_bounds (by decide) (ite_bounds (by decide)
    (by decide))))))))))))

/-- A character from `0` to `9` has a code from 48 to 57. -/
theorem char_digit_bounds {d : Char} (h : '0' ≤ d ∧ d ≤ '9') : 48 ≤ d.toNat ∧ d.toNat ≤ 57 := by
  obtain ⟨h1, h2⟩ := h
  rw [Char.le_def] at h1 h2
  exact ⟨h1, h2⟩

/-- The second group of a match of the regular expression is a digit. -/
theorem regexMatch_digit {s : List Char} {g : String} {d : Char}
    (h : MidiClient.regexMatch s = some (g, d)) : 48 ≤ d.toNat ∧ d.toNat ≤ 57 := by
  unfold MidiClient.regexMatch at h
  split at h
  · split_ifs at h with hc
    cases h
    exact char_digit_bounds hc.2
  · split_ifs at h with hc
    cases h
    exact char_digit_bounds hc.2.2
  · cases h

/-- The function `note2midi` returns `-1` or a value from 11 to 131. -/
theorem note2midi_bounds (note : String) :
    MidiClient.note2midi note = -1 ∨
      (11 ≤ MidiClient.note2midi note ∧ MidiClient.note2midi note ≤ 131) := by
  unfold MidiClient.note2midi
  split
  · rename_i g d hm
    have hd := regexMatch_digit hm
    have hp := pitchClass_bounds g
    right
    omega
  · left; rfl

/-- The result of `note2midi` converted to `unsigned char` is never zero: the
check `<= 0` that follows the conversion never fires. -/
theorem toUCharFin_note2midi_pos (note : String) :
    0 < (toUCharFin (MidiClient.note2midi note)).val := by
  have h := note2midi_bounds note
  unfold toUCharFin
  simp only
  omega

/-- The constructor returns on a file that is read and whose four integers,
number of LEDs per key and four names pass the tests of the constructor: the
tests of the two notes never fire. -/
theorem construct_eq_ok (lib : StdLib) (files : String → Option String) (filename : String)
    (conf : Config) (f g d c : Int) (q : Float32)
    (names : LedOrder.Order × StripType.Type × LedColor.Color × LedColor.Color)
    (hparse : Config.parse files filename = .ok conf)
    (hf : lib.stoi (conf.get KEY_FREQ) = some f) (hf0 : 0 < toUInt f)
    (hg : lib.stoi (conf.get KEY_GPIO_PIN) = some g) (hg0 : 0 < toUShort g)
    (hd : lib.stoi (conf.get KEY_DMA_CHANNEL) = some d) (hd0 : 0 < toUShort d)
    (hc : lib.stoi (conf.get KEY_LED_COUNT) = some c) (hc0 : 0 < toUShort c)
    (hq : lib.stof (conf.get KEY_LED_PER_KEY) = some q) (hq0 : q.leZero = false)
    (hn : tryCatch (PianoTutorPlusConfig.parseNames conf) PianoTutorPlusConfig.catchNames
      = .ok names) :
    PianoTutorPlusConfig.construct lib files filename = .ok
      { freq := toUInt f, gpioPin := toUShort g, dmaChannel := toUShort d,
        ledCount := toUShort c, ledOrder := names.1, stripType := names.2.1, ledPerKey := q,
        colorRightHand := names.2.2.1, colorLeftHand := names.2.2.2,
        keyboardMinNote := toUCharFin (MidiClient.note2midi (conf.get KEY_KEYBOARD_MIN_NOTE)),
        keyboardMaxNote :=
          toUCharFin (MidiClient.note2midi (conf.get KEY_KEYBOARD_MAX_NOTE)) } := by
  rw [construct_of_parse_ok lib files filename conf hparse,
    tryBlock_eq_ok lib conf f g d c q names hf hf0 hg hg0 hd hd0 hc hc0 hq hq0
      (toUCharFin_note2midi_pos _) (toUCharFin_note2midi_pos _) hn]

/-- The sample `stof` reads `1`. -/
theorem sampleStof_one : sampleStof "1" = some (.finite 1) := sampleStof_values.2.2.2.1

/-- One is not `<= 0`. -/
theorem leZero_one : (Float32.finite 1).leZero = false := by
  simp [Float32.leZero]

/-! ## The four names -/

/-- `LedOrder::parse` accepts exactly the recognised names. -/
theorem ledOrder_parse_error_iff (s : String) :
    LedOrder.parse s = .error .LedOrderNotFoundException ↔ ¬ LedOrder.isName s := by
  unfold LedOrder.parse
  constructor
  · intro h hn
    obtain ⟨o, _, n, hto, heq⟩ := hn
    cases o
    · cases hto
      have hk : strToUpper s = "DIR" := heq.trans (by decide)
      rw [if_pos hk] at h
      cases h
    · cases hto
      have hk : strToUpper s = "INV" := heq.trans (by decide)
      have h0 : ¬ strToUpper s = "DIR" := by rw [hk]; decide
      rw [if_neg h0, if_pos hk] at h
      cases h
  · intro hn
    have h0 : ¬ strToUpper s = "DIR" := fun h =>
      hn ⟨.DIR, by decide, "DIR", rfl, h.trans (by decide)⟩
    have h1 : ¬ strToUpper s = "INV" := fun h =>
      hn ⟨.INV, by decide, "INV", rfl, h.trans (by decide)⟩
    rw [if_neg h0, if_neg h1]

/-- `StripType::parse` accepts exactly the recognised names. -/
theorem stripType_parse_error_iff (s : String) :
    StripType.parse s = .error .StripTypeNotFoundException ↔ ¬ StripType.isName s := by
  unfold StripType.parse
  constructor
  · intro h hn
    obtain ⟨o, _, n, hto, heq⟩ := hn
    cases o
    · cases hto
      have hk : strToUpper s = "RGB" := heq.trans (by decide)
      rw [if_pos hk] at h
      cases h
    · cases hto
      have hk : strToUpper s = "RBG" := heq.trans (by decide)
      have h0 : ¬ strToUpper s = "RGB" := by rw [hk]; decide
      rw [if_neg h0, if_pos hk] at h
      cases h
    · cases hto
      have hk : strToUpper s = "GRB" := heq.trans (by decide)
      have h0 : ¬ strToUpper s = "RGB" := by rw [hk]; decide
      have h1 : ¬ strToUpper s = "RBG" := by rw [hk]; decide
      rw [if_neg h0, if_neg h1, if_pos hk] at h
      cases h
    · cases hto
      have hk : strToUpper s = "GBR" := heq.trans (by decide)
      have h0 : ¬ strToUpper s = "RGB" := by rw [hk]; decide
      have h1 : ¬ strToUpper s = "RBG" := by rw [hk]; decide
      have h2 : ¬ strToUpper s = "GRB" := by rw [hk]; decide
      rw [if_neg h0, if_neg h1, if_neg h2, if_pos hk] at h
      cases h
    · cases hto
      have hk : strToUpper s = "BRG" := heq.trans (by decide)
      have h0 : ¬ strToUpper s = "RGB" := by rw [hk]; decide
      have h1 : ¬ strToUpper s = "RBG" := by rw [hk]; decide
      have h2 : ¬ strToUpper s = "GRB" := by rw [hk]; decide
      have h3 : ¬ strToUpper s = "GBR" := by rw [hk]; decide
      rw [if_neg h0, if_neg h1, if_neg h2, if_neg h3, if_pos hk] at h
      cases h
    · cases hto
      have hk : strToUpper s = "BGR" := heq.trans (by decide)
      have h0 : ¬ strToUpper s = "RGB" := by rw [hk]; decide
      have h1 : ¬ strToUpper s = "RBG" := by rw [hk]; decide
      have h2 : ¬ strToUpper s = "GRB" := by rw [hk]; decide
      have h3 : ¬ strToUpper s = "GBR" := by rw [hk]; decide
      have h4 : ¬ strToUpper s = "BRG" := by rw [hk]; decide
      rw [if_neg h0, if_neg h1, if_neg h2, if_neg h3, if_neg h4, if_pos hk] at h
      cases h
  · intro hn
    have h0 : ¬ strToUpper s = "RGB" := fun h =>
      hn ⟨.RGB, by decide, "RGB", rfl, h.trans (by decide)⟩
    have h1 : ¬ strToUpper s = "RBG" := fun h =>
      hn ⟨.RBG, by decide, "RBG", rfl, h.trans (by decide)⟩
    have h2 : ¬ strToUpper s = "GRB" := fun h =>
      hn ⟨.GRB, by decide, "GRB", rfl, h.trans (by decide)⟩
    have h3 : ¬ strToUpper s = "GBR" := fun h =>
      hn ⟨.GBR, by decide, "GBR", rfl, h.trans (by decide)⟩
    have h4 : ¬ strToUpper s = "BRG" := fun h =>
      hn ⟨.BRG, by decide, "BRG", rfl, h.trans (by decide)⟩
    have h5 : ¬ strToUpper s = "BGR" := fun h =>
      hn ⟨.BGR, by decide, "BGR", rfl, h.trans (by decide)⟩
    rw [if_neg h0, if_neg h1, if_neg h2, if_neg h3, if_neg h4, if_neg h5]

/-- `LedColor::parse` accepts exactly the recognised names. -/
theorem ledColor_parse_error_iff (s : String) :
    LedColor.parse s = .error .ColorNotFoundException ↔ ¬ LedColor.isName s := by
  unfold LedColor.parse
  constructor
  · intro h hn
    obtain ⟨o, _, n, hto, heq⟩ := hn
    cases o
    · cases hto
      have hk : strToLower s = "red" := heq.trans (by decide)
      rw [if_pos hk] at h
      cases h
    · cases hto
      have hk : strToLower s = "orange" := heq.trans (by decide)
      have h0 : ¬ strToLower s = "red" := by rw [hk]; decide
      rw [if_neg h0, if_pos hk] at h
      cases h
    · cases hto
      have hk : strToLower s = "yellow" := heq.trans (by decide)
      have h0 : ¬ strToLower s = "red" := by rw [hk]; decide
      have h1 : ¬ strToLower s = "orange" := by rw [hk]; decide
      rw [if_neg h0, if_neg h1, if_pos hk] at h
      cases h
    · cases hto
      have hk : strToLower s = "green" := heq.trans (by decide)
      have h0 : ¬ strToLower s = "red" := by rw [hk]; decide
      have h1 : ¬ strToLower s = "orange" := by rw [hk]; decide
      have h2 : ¬ strToLower s = "yellow" := by rw [hk]; decide
      rw [if_neg h0, if_neg h1, if_neg h2, if_pos hk] at h
      cases h
    · cases hto
      have hk : strToLower s = "lightblue" := heq.trans (by decide)
      have h0 : ¬ strToLower s = "red" := by rw [hk]; decide
      have h1 : ¬ strToLower s = "orange" := by rw [hk]; decide
      have h2 : ¬ strToLower s = "yellow" := by rw [hk]; decide
      have h3 : ¬ strToLower s = "green" := by rw [hk]; decide
      rw [if_neg h0, if_neg h1, if_neg h2, if_neg h3, if_pos hk] at h
      cases h
    · cases hto
      have hk : strToLower s = "blue" := heq.trans (by decide)
      have h0 : ¬ strToLower s = "red" := by rw [hk]; decide
      have h1 : ¬ strToLower s = "orange" := by rw [hk]; decide
      have h2 : ¬ strToLower s = "yellow" := by rw [hk]; decide
      have h3 : ¬ strToLower s = "green" := by rw [hk]; decide
      have h4 : ¬ strToLower s = "lightblue" := by rw [hk]; decide
      rw [if_neg h0, if_neg h1, if_neg h2, if_neg h3, if_neg h4, if_pos hk] at h
      cases h
    · cases hto
      have hk : strToLower s = "purple" := heq.trans (by decide)
      have h0 : ¬ strToLower s = "red" := by rw [hk]; decide
      have h1 : ¬ strToLower s = "orange" := by rw [hk]; decide
      have h2 : ¬ strToLower s = "yellow" := by rw [hk]; decide
      have h3 : ¬ strToLower s = "green" := by rw [hk]; decide
      have h4 : ¬ strToLower s = "lightblue" := by rw [hk]; decide
      have h5 : ¬ strToLower s = "blue" := by rw [hk]; decide
      rw [if_neg h0, if_neg h1, if_neg h2, if_neg h3, if_neg h4, if_neg h5, if_pos hk] at h
      cases h
    · cases hto
      have hk : strToLower s = "pink" := heq.trans (by decide)
      have h0 : ¬ strToLower s = "red" := by rw [hk]; decide
      have h1 : ¬ strToLower s = "orange" := by rw [hk]; decide
      have h2 : ¬ strToLower s = "yellow" := by rw [hk]; decide
      have h3 : ¬ strToLower s = "green" := by rw [hk]; decide
      have h4 : ¬ strToLower s = "lightblue" := by rw [hk]; decide
      have h5 : ¬ strToLower s = "blue" := by rw [hk]; decide
      have h6 : ¬ strToLower s = "purple" := by rw [hk]; decide
      rw [if_neg h0, if_neg h1, if_neg h2, if_neg h3, if_neg h4, if_neg h5, if_neg h6, if_pos hk] at h
      cases h
  · intro hn
    have h0 : ¬ strToLower s = "red" := fun h =>
      hn ⟨.RED, by decide, "RED", rfl, h.trans (by decide)⟩
    have h1 : ¬ strToLower s = "orange" := fun h =>
      hn ⟨.ORANGE, by decide, "ORANGE", rfl, h.trans (by decide)⟩
    have h2 : ¬ strToLower s = "yellow" := fun h =>
      hn ⟨.YELLOW, by decide, "YELLOW", rfl, h.trans (by decide)⟩
    have h3 : ¬ strToLower s = "green" := fun h =>
      hn ⟨.GREEN, by decide, "GREEN", rfl, h.trans (by decide)⟩
    have h4 : ¬ strToLower s = "lightblue" := fun h =>
      hn ⟨.LIGHTBLUE, by decide, "LIGHTBLUE", rfl, h.trans (by decide)⟩
    have h5 : ¬ strToLower s = "blue" := fun h =>
      hn ⟨.BLUE, by decide, "BLUE", rfl, h.trans (by decide)⟩
    have h6 : ¬ strToLower s = "purple" := fun h =>
      hn ⟨.PURPLE, by decide, "PURPLE", rfl, h.trans (by decide)⟩
    have h7 : ¬ strToLower s = "pink" := fun h =>
      hn ⟨.PINK, by decide, "PINK", rfl, h.trans (by decide)⟩
    rw [if_neg h0, if_neg h1, if_neg h2, if_neg h3, if_neg h4, if_neg h5, if_neg h6, if_neg h7]

/-- `LedOrder::parse` throws nothing but `LedOrderNotFoundException`. -/
theorem ledOrder_parse_error_eq {s : String} {e : Exn} (h : LedOrder.parse s = .error e) :
    e = .LedOrderNotFoundException := by
  unfold LedOrder.parse at h
  repeat' split at h
  all_goals cases h
  rfl

/-- `StripType::parse` throws nothing but `StripTypeNotFoundException`. -/
theorem stripType_parse_error_eq {s : String} {e : Exn} (h : StripType.parse s = .error e) :
    e = .StripTypeNotFoundException := by
  unfold StripType.parse at h
  repeat' split at h
  all_goals cases h
  rfl

/-- `LedColor::parse` throws nothing but `ColorNotFoundException`. -/
theorem ledColor_parse_error_eq {s : String} {e : Exn} (h : LedColor.parse s = .error e) :
    e = .ColorNotFoundException := by
  unfold LedColor.parse at h
  repeat' split at h
  all_goals cases h
  rfl

/-- A successful inner `try` block parsed the four names. -/
theorem parseNames_ok_inv {conf : Config}
    {names : LedOrder.Order × StripType.Type × LedColor.Color × LedColor.Color}
    (h : PianoTutorPlusConfig.parseNames conf = .ok names) :
    LedOrder.parse (conf.get KEY_LED_ORDER) = .ok names.1 ∧
    StripType.parse (conf.get KEY_LED_TYPE) = .ok names.2.1 ∧
    LedColor.parse (conf.get KEY_COLOR_RIGHT) = .ok names.2.2.1 ∧
    LedColor.parse (conf.get KEY_COLOR_LEFT) = .ok names.2.2.2 := by
  unfold PianoTutorPlusConfig.parseNames at h
  simp only [bind, Except.bind, pure, Except.pure] at h
  split at h
  · cases h
  rename_i o ho
  split at h
  · cases h
  rename_i t ht
  split at h
  · cases h
  rename_i r hr
  split at h
  · cases h
  rename_i l hl
  cases h
  exact ⟨ho, ht, hr, hl⟩

/-- The inner `try` block throws nothing but the three exceptions of the
names. -/
theorem parseNames_error {conf : Config} {e : Exn}
    (h : PianoTutorPlusConfig.parseNames conf = .error e) :
    e = .LedOrderNotFoundException ∨ e = .StripTypeNotFoundException ∨
      e = .ColorNotFoundException := by
  unfold PianoTutorPlusConfig.parseNames at h
  simp only [bind, Except.bind, pure, Except.pure] at h
  split at h
  · rename_i e1 h1
    cases h
    exact Or.inl (ledOrder_parse_error_eq h1)
  split at h
  · rename_i e1 h1
    cases h
    exact Or.inr (Or.inl (stripType_parse_error_eq h1))
  split at h
  · rename_i e1 h1
    cases h
    exact Or.inr (Or.inr (ledColor_parse_error_eq h1))
  split at h
  · rename_i e1 h1
    cases h
    exact Or.inr (Or.inr (ledColor_parse_error_eq h1))
  cases h

/-- The inner `try` block with its three `catch` clauses returns the four
names or throws a `ParsingException`. -/
theorem tryCatch_parseNames (conf : Config) :
    (∃ names, PianoTutorPlusConfig.parseNames conf = .ok names ∧
      tryCatch (PianoTutorPlusConfig.parseNames conf) PianoTutorPlusConfig.catchNames
        = .ok names) ∨
    tryCatch (PianoTutorPlusConfig.parseNames conf) PianoTutorPlusConfig.catchNames
      = .error .ParsingException := by
  cases h : PianoTutorPlusConfig.parseNames conf with
  | ok names => exact Or.inl ⟨names, rfl, rfl⟩
  | error e =>
    right
    rcases parseNames_error h with he | he | he <;> subst he <;> rfl

/-- The constructor throws nothing but `OpenFileException` and
`ParsingException`. -/
theorem construct_error (lib : StdLib) (files : String → Option String) (filename : String)
    (e : Exn) (h : PianoTutorPlusConfig.construct lib files filename = .error e) :
    e = .ParsingException ∨ e = .OpenFileException := by
  unfold PianoTutorPlusConfig.construct at h
  split at h
  · rename_i e1 h1
    cases h
    unfold Config.parse at h1
    split at h1
    · cases h1
      exact Or.inr rfl
    · cases h1
  · split at h
    · cases h
    · cases h
      exact Or.inl rfl

/-- A file that is read and on which the `try` block does not succeed makes
the constructor throw a `ParsingException`. -/
theorem construct_error_of_tryBlock (lib : StdLib) (files : String → Option String)
    (filename : String) (conf : Config) (hparse : Config.parse files filename = .ok conf)
    (h : ∀ config, PianoTutorPlusConfig.tryBlock lib conf ≠ .ok config) :
    PianoTutorPlusConfig.construct lib files filename = .error .ParsingException := by
  rw [construct_of_parse_ok lib files filename conf hparse]
  cases hb : PianoTutorPlusConfig.tryBlock lib conf with
  | error e => rfl
  | ok config => exact absurd hb (h config)

/-- A file that is read and has a name that is not recognised makes the inner
`try` block, with its `catch` clauses, and the constructor throw a
`ParsingException`. -/
theorem unknown_name_throws (lib : StdLib) (files : String → Option String)
    (filename : String) (conf : Config) (hparse : Config.parse files filename = .ok conf)
    (hbad : ¬ LedOrder.isName (conf.get KEY_LED_ORDER) ∨
      ¬ StripType.isName (conf.get KEY_LED_TYPE) ∨
      ¬ LedColor.isName (conf.get KEY_COLOR_RIGHT) ∨
      ¬ LedColor.isName (conf.get KEY_COLOR_LEFT)) :
    tryCatch (PianoTutorPlusConfig.parseNames conf) PianoTutorPlusConfig.catchNames
      = .error .ParsingException ∧
    PianoTutorPlusConfig.construct lib files filename = .error .ParsingException := by
  have hnames : ∀ names, PianoTutorPlusConfig.parseNames conf ≠ .ok names := by
    intro names hok
    obtain ⟨ho, ht, hr, hl⟩ := parseNames_ok_inv hok
    rcases hbad with hb | hb | hb | hb
    · rw [(ledOrder_parse_error_iff _).mpr hb] at ho
      cases ho
    · rw [(stripType_parse_error_iff _).mpr hb] at ht
      cases ht
    · rw [(ledColor_parse_error_iff _).mpr hb] at hr
      cases hr
    · rw [(ledColor_parse_error_iff _).mpr hb] at hl
      cases hl
  have htry : tryCatch (PianoTutorPlusConfig.parseNames conf)
      PianoTutorPlusConfig.catchNames = .error .ParsingException := by
    rcases tryCatch_parseNames conf with ⟨names, hok, _⟩ | h
    · exact absurd hok (hnames names)
    · exact h
  refine ⟨htry, construct_error_of_tryBlock lib files filename conf hparse ?_⟩
  intro config hb
  have hinv := (tryBlock_ok_inv lib conf config hb).2.2.2.2.2.2.2
  rw [htry] at hinv
  cases hinv

/-- C15: for every configuration file that is read and whose `LED_ORDER`,
`LED_TYPE`, `COLOR_RIGHT_HAND` or `COLOR_LEFT_HAND` value is not one of the
recognised names (compared without regard to case), the inner `try` block
with its `catch` clauses throws a `ParsingException` and so does the
constructor; and the constructor throws no exception other than
`ParsingException` and `OpenFileException`, so that `ColorNotFoundException`,
`StripTypeNotFoundException` and `LedOrderNotFoundException` never leave it. -/
theorem C15_unknown_name (lib : StdLib) (files : String → Option String)
    (filename : String) :
    (∀ conf : Config, Config.parse files filename = .ok conf →
      (¬ LedOrder.isName (conf.get KEY_LED_ORDER) ∨ ¬ StripType.isName (conf.get KEY_LED_TYPE) ∨
        ¬ LedColor.isName (conf.get KEY_COLOR_RIGHT) ∨
        ¬ LedColor.isName (conf.get KEY_COLOR_LEFT)) →
      tryCatch (PianoTutorPlusConfig.parseNames conf) PianoTutorPlusConfig.catchNames
        = .error .ParsingException ∧
      PianoTutorPlusConfig.construct lib files filename = .error .ParsingException) ∧
    (∀ e : Exn, PianoTutorPlusConfig.construct lib files filename = .error e →
      e = .ParsingException ∨ e = .OpenFileException) := by
  exact ⟨fun conf hparse hbad => unknown_name_throws lib files filename conf hparse hbad,
    construct_error lib files filename⟩

/-- C15 (witness): the sample file whose `LED_ORDER` is `up` is read, `up` is
not the name of an LED order, and the constructor throws a
`ParsingException`. -/
theorem C15_unknown_name_witness :
    Config.parse (onlyFile (sampleText "up" "1.5")) "piano.conf"
      = .ok (Config.parseLines (getlines (sampleText "up" "1.5"))) ∧
    (Config.parseLines (getlines (sampleText "up" "1.5"))).get KEY_LED_ORDER = "up" ∧
    ¬ LedOrder.isName "up" ∧
    PianoTutorPlusConfig.construct sampleLib (onlyFile (sampleText "up" "1.5")) "piano.conf"
      = .error .ParsingException := by
  have hup : ¬ LedOrder.isName "up" := (ledOrder_parse_error_iff "up").mp rfl
  refine ⟨rfl, by decide, hup, ?_⟩
  exact ((C15_unknown_name sampleLib (onlyFile (sampleText "up" "1.5")) "piano.conf").1
    (Config.parseLines (getlines (sampleText "up" "1.5"))) rfl (Or.inl hup)).2

/-! ## Settings that are missing, improper or negative -/

/-- The value of a key that the map does not have is the empty string. -/
theorem Config.get_of_lookup_none {conf : Config} {key : String}
    (h : conf.options.lookup key = none) : conf.get key = "" := by
  unfold Config.get
  rw [h]
  rfl

/-- A file that is read and in which `std::stoi` fails on one of the four
integers, or `std::stof` on the number of LEDs per key, makes the constructor
throw a `ParsingException`. -/
theorem construct_error_of_number (lib : StdLib) (files : String → Option String)
    (filename : String) (conf : Config) (hparse : Config.parse files filename = .ok conf)
    (h : lib.stoi (conf.get KEY_FREQ) = none ∨ lib.stoi (conf.get KEY_GPIO_PIN) = none ∨
      lib.stoi (conf.get KEY_DMA_CHANNEL) = none ∨ lib.stoi (conf.get KEY_LED_COUNT) = none ∨
      lib.stof (conf.get KEY_LED_PER_KEY) = none) :
    PianoTutorPlusConfig.construct lib files filename = .error .ParsingException := by
  apply construct_error_of_tryBlock lib files filename conf hparse
  intro config hb
  have hinv := tryBlock_ok_inv lib conf config hb
  rcases h with h | h | h | h | h
  · obtain ⟨v, hv, _⟩ := hinv.1
    rw [h] at hv; cases hv
  · obtain ⟨v, hv, _⟩ := hinv.2.1
    rw [h] at hv; cases hv
  · obtain ⟨v, hv, _⟩ := hinv.2.2.1
    rw [h] at hv; cases hv
  · obtain ⟨v, hv, _⟩ := hinv.2.2.2.1
    rw [h] at hv; cases hv
  · have hv := hinv.2.2.2.2.1.1
    rw [h] at hv; cases hv

/-- A file that is read and in which one of the four integers is converted to
zero by its cast makes the constructor throw a `ParsingException`. -/
theorem construct_error_of_zero (lib : StdLib) (files : String → Option String)
    (filename : String) (conf : Config) (v : Int)
    (hparse : Config.parse files filename = .ok conf)
    (h : (lib.stoi (conf.get KEY_FREQ) = some v ∧ toUInt v = 0) ∨
      (lib.stoi (conf.get KEY_GPIO_PIN) = some v ∧ toUShort v = 0) ∨
      (lib.stoi (conf.get KEY_DMA_CHANNEL) = some v ∧ toUShort v = 0) ∨
      (lib.stoi (conf.get KEY_LED_COUNT) = some v ∧ toUShort v = 0)) :
    PianoTutorPlusConfig.construct lib files filename = .error .ParsingException := by
  apply construct_error_of_tryBlock lib files filename conf hparse
  intro config hb
  have hinv := tryBlock_ok_inv lib conf config hb
  rcases h with ⟨h, h0⟩ | ⟨h, h0⟩ | ⟨h, h0⟩ | ⟨h, h0⟩
  · obtain ⟨w, hw, he, hp⟩ := hinv.1
    rw [h] at hw; cases hw
    omega
  · obtain ⟨w, hw, he, hp⟩ := hinv.2.1
    rw [h] at hw; cases hw
    omega
  · obtain ⟨w, hw, he, hp⟩ := hinv.2.2.1
    rw [h] at hw; cases hw
    omega
  · obtain ⟨w, hw, he, hp⟩ := hinv.2.2.2.1
    rw [h] at hw; cases hw
    omega

/-- A file that is read and lacks one of the nine keys other than the two
notes makes the constructor throw a `ParsingException`, when `std::stoi` and
`std::stof` fail on the empty string. -/
theorem construct_error_of_missing (lib : StdLib) (files : String → Option String)
    (filename : String) (conf : Config) (key : String)
    (hparse : Config.parse files filename = .ok conf)
    (hstoi : lib.stoi "" = none) (hstof : lib.stof "" = none)
    (hkey : key = KEY_FREQ ∨ key = KEY_GPIO_PIN ∨ key = KEY_DMA_CHANNEL ∨ key = KEY_LED_COUNT ∨
      key = KEY_LED_PER_KEY ∨ key = KEY_LED_ORDER ∨ key = KEY_LED_TYPE ∨
      key = KEY_COLOR_RIGHT ∨ key = KEY_COLOR_LEFT)
    (hmiss : conf.options.lookup key = none) :
    PianoTutorPlusConfig.construct lib files filename = .error .ParsingException := by
  have hget := Config.get_of_lookup_none hmiss
  have ho : ¬ LedOrder.isName "" := (ledOrder_parse_error_iff "").mp rfl
  have ht : ¬ StripType.isName "" := (stripType_parse_error_iff "").mp rfl
  have hc : ¬ LedColor.isName "" := (ledColor_parse_error_iff "").mp rfl
  rcases hkey with rfl | rfl | rfl | rfl | rfl | rfl | rfl | rfl | rfl
  · exact construct_error_of_number lib files filename conf hparse
      (Or.inl (by rw [hget]; exact hstoi))
  · exact construct_error_of_number lib files filename conf hparse
      (Or.inr (Or.inl (by rw [hget]; exact hstoi)))
  · exact construct_error_of_number lib files filename conf hparse
      (Or.inr (Or.inr (Or.inl (by rw [hget]; exact hstoi))))
  · exact construct_error_of_number lib files filename conf hparse
      (Or.inr (Or.inr (Or.inr (Or.inl (by rw [hget]; exact hstoi)))))
  · exact construct_error_of_number lib files filename conf hparse
      (Or.inr (Or.inr (Or.inr (Or.inr (by rw [hget]; exact hstof)))))
  · exact (unknown_name_throws lib files filename conf hparse
      (Or.inl (by rw [hget]; exact ho))).2
  · exact (unknown_name_throws lib files filename conf hparse
      (Or.inr (Or.inl (by rw [hget]; exact ht)))).2
  · exact (unknown_name_throws lib files filename conf hparse
      (Or.inr (Or.inr (Or.inl (by rw [hget]; exact hc))))).2
  · exact (unknown_name_throws lib files filename conf hparse
      (Or.inr (Or.inr (Or.inr (by rw [hget]; exact hc))))).2

/-- C12 (the code at the failing input): the file that has every key but
`KEYBOARD_MIN_NOTE` is read, the map has no value for that key, `note2midi`
returns `-1` for the empty string, and the constructor accepts the file with
`keyboardMinNote = 255`. -/
theorem C12_missing_note_accepted :
    (Config.parseLines (getlines (settingsText (withoutKey "KEYBOARD_MIN_NOTE"
      (sampleSettings "800000" "18" "10" "61" "C2" "C7"))))).options.lookup
        KEY_KEYBOARD_MIN_NOTE = none ∧
    MidiClient.note2midi "" = -1 ∧
    PianoTutorPlusConfig.construct sampleLib
      (onlyFile (settingsText (withoutKey "KEYBOARD_MIN_NOTE"
        (sampleSettings "800000" "18" "10" "61" "C2" "C7"))))
      "piano.conf" = .ok (sampleConfig 255 96 1 .DIR) := by
  refine ⟨by decide, by decide, ?_⟩
  rw [construct_eq_ok sampleLib
    (onlyFile (settingsText (withoutKey "KEYBOARD_MIN_NOTE"
      (sampleSettings "800000" "18" "10" "61" "C2" "C7")))) "piano.conf"
    (Config.parseLines (getlines (settingsText (withoutKey "KEYBOARD_MIN_NOTE"
      (sampleSettings "800000" "18" "10" "61" "C2" "C7")))))
    800000 18 10 61 (.finite 1) (.DIR, .GRB, .BLUE, .GREEN) rfl
    (by decide) (by decide) (by decide) (by decide) (by decide) (by decide) (by decide)
    (by decide) sampleStof_one leZero_one rfl]
  rfl

/-- C13 (the code at the failing input): `H2` and `C10` are not proper note
names, `note2midi` returns `-1` for both, and the constructor accepts the file
whose `KEYBOARD_MIN_NOTE` is `H2` and whose `KEYBOARD_MAX_NOTE` is `C10`, with
`keyboardMinNote = keyboardMaxNote = 255`. -/
theorem C13_improper_note_accepted :
    MidiClient.note2midi "H2" = -1 ∧ MidiClient.note2midi "C10" = -1 ∧
    PianoTutorPlusConfig.construct sampleLib
      (onlyFile (settingsText (sampleSettings "800000" "18" "10" "61" "H2" "C10")))
      "piano.conf" = .ok (sampleConfig 255 255 1 .DIR) := by
  refine ⟨by decide, by decide, ?_⟩
  rw [construct_eq_ok sampleLib
    (onlyFile (settingsText (sampleSettings "800000" "18" "10" "61" "H2" "C10"))) "piano.conf"
    (Config.parseLines (getlines
      (settingsText (sampleSettings "800000" "18" "10" "61" "H2" "C10"))))
    800000 18 10 61 (.finite 1) (.DIR, .GRB, .BLUE, .GREEN) rfl
    (by decide) (by decide) (by decide) (by decide) (by decide) (by decide) (by decide)
    (by decide) sampleStof_one leZero_one rfl]
  rfl

/-- C14 (the code at the failing input): the four integers `-800000`, `-18`,
`-10` and `-61` are read as negative numbers, and the constructor accepts the
file that has them, with `freq = 4294167296`, `gpioPin = 65518`,
`dmaChannel = 65526` and `ledCount = 65475`. -/
theorem C14_negative_integers_accepted :
    sampleLib.stoi "-800000" = some (-800000) ∧ sampleLib.stoi "-18" = some (-18) ∧
    sampleLib.stoi "-10" = some (-10) ∧ sampleLib.stoi "-61" = some (-61) ∧
    PianoTutorPlusConfig.construct sampleLib
      (onlyFile (settingsText (sampleSettings "-800000" "-18" "-10" "-61" "C2" "C7")))
      "piano.conf" = .ok
        { freq := 4294167296, gpioPin := 65518, dmaChannel := 65526, ledCount := 65475,
          ledOrder := .DIR, stripType := .GRB, ledPerKey := .finite 1,
          colorRightHand := .BLUE, colorLeftHand := .GREEN,
          keyboardMinNote := 36, keyboardMaxNote := 96 } := by
  refine ⟨by decide, by decide, by decide, by decide, ?_⟩
  rw [construct_eq_ok sampleLib
    (onlyFile (settingsText (sampleSettings "-800000" "-18" "-10" "-61" "C2" "C7")))
    "piano.conf"
    (Config.parseLines (getlines
      (settingsText (sampleSettings "-800000" "-18" "-10" "-61" "C2" "C7"))))
    (-800000) (-18) (-10) (-61) (.finite 1) (.DIR, .GRB, .BLUE, .GREEN) rfl
    (by decide) (by decide) (by decide) (by decide) (by decide) (by decide) (by decide)
    (by decide) sampleStof_one leZero_one rfl]
  rfl

/-! ## The loop and the start of the program -/

/-- C16: for every loop iteration in which the polled event has type UNKNOWN
or NO_EVENT, the iteration only sleeps: the LED buffer and the rest of the
strip are left unchanged, `render` is not called, the LEDs show what they
showed, and `pin` keeps its value. -/
theorem C16_ignorable_event (config : PianoTutorPlusConfig) (m : Machine) (ev : MidiEvent)
    (h : ev.type = .UNKNOWN ∨ ev.type = .NO_EVENT) :
    mainIteration config m ev = some (m.usleep 10000) ∧
    (m.usleep 10000).strip = m.strip ∧ (m.usleep 10000).renders = m.renders ∧
    (m.usleep 10000).hardware = m.hardware ∧ (m.usleep 10000).pin = m.pin ∧
    (m.usleep 10000).slept = m.slept + 10000 := by
  refine ⟨?_, rfl, rfl, rfl, rfl, rfl⟩
  unfold mainIteration
  rcases h with h | h <;> simp [h]

/-- C16 (witness): on the sample strip, with three calls of `render` so far,
an iteration that polls an empty queue leaves the buffer and the count of
calls as they are. -/
theorem C16_ignorable_event_witness :
    ∃ m : Machine,
      mainIteration (sampleConfig 36 96 1 .DIR)
        { strip := sampleStrip, hardware := fun _ => 0, renders := 3, slept := 0, pin := 7 }
        ⟨0, .NO_EVENT, .RIGHT⟩ = some m ∧
      m.strip.leds = sampleStrip.leds ∧ m.renders = 3 ∧ m.pin = 7 ∧ m.slept = 10000 := by
  have h := C16_ignorable_event (sampleConfig 36 96 1 .DIR)
    { strip := sampleStrip, hardware := fun _ => 0, renders := 3, slept := 0, pin := 7 }
    ⟨0, .NO_EVENT, .RIGHT⟩ (Or.inr rfl)
  exact ⟨_, h.1, rfl, rfl, rfl, rfl⟩

/-- The function `main` once the options give a configuration file. -/
theorem main_of_args (env : MainEnv) (configFile : String)
    (h : parseArgs env.opts "" = .ok configFile) :
    main env = (mainTry env configFile).map (fun r =>
      match r with
      | .ok o => o
      | .error e => mainCatch e) := by
  unfold main
  rw [h]

/-- An exception of the constructor of the configuration reaches the `catch`
clauses of `main`. -/
theorem main_of_construct_error (env : MainEnv) (configFile : String) (e : Exn)
    (h : parseArgs env.opts "" = .ok configFile) (hne : configFile ≠ "")
    (hc : PianoTutorPlusConfig.construct env.lib env.files configFile = .error e) :
    main env = some (mainCatch e) := by
  rw [main_of_args env configFile h]
  unfold mainTry
  rw [if_neg hne, hc]
  rfl

/-- An exception of the constructor of the strip reaches the `catch` clauses
of `main`. -/
theorem main_of_strip_error (env : MainEnv) (configFile : String)
    (config : PianoTutorPlusConfig) (e : Exn)
    (h : parseArgs env.opts "" = .ok configFile) (hne : configFile ≠ "")
    (hc : PianoTutorPlusConfig.construct env.lib env.files configFile = .ok config)
    (hs : LedStrip.create config.freq (toUChar config.dmaChannel) (toUChar config.gpioPin)
      config.stripType (toUChar config.ledCount) env.ws2811_init = .error e) :
    main env = some (mainCatch e) := by
  rw [main_of_args env configFile h]
  unfold mainTry
  rw [if_neg hne, hc]
  simp only [hs]
  rfl

/-- An exception of the constructor of the MIDI client reaches the `catch`
clauses of `main`. -/
theorem main_of_midi_error (env : MainEnv) (configFile : String)
    (config : PianoTutorPlusConfig) (strip : LedStrip) (e : Exn)
    (h : parseArgs env.opts "" = .ok configFile) (hne : configFile ≠ "")
    (hc : PianoTutorPlusConfig.construct env.lib env.files configFile = .ok config)
    (hs : LedStrip.create config.freq (toUChar config.dmaChannel) (toUChar config.gpioPin)
      config.stripType (toUChar config.ledCount) env.ws2811_init = .ok strip)
    (hm : MidiClient.create env.midiOpen = .error e) :
    main env = some (mainCatch e) := by
  rw [main_of_args env configFile h]
  unfold mainTry
  rw [if_neg hne, hc]
  simp only [hs, hm]
  rfl

/-- A run that starts and whose loop is left returns 0. -/
theorem main_of_loop (env : MainEnv) (configFile : String)
    (config : PianoTutorPlusConfig) (strip : LedStrip) (m : Machine)
    (h : parseArgs env.opts "" = .ok configFile) (hne : configFile ≠ "")
    (hc : PianoTutorPlusConfig.construct env.lib env.files configFile = .ok config)
    (hs : LedStrip.create config.freq (toUChar config.dmaChannel) (toUChar config.gpioPin)
      config.stripType (toUChar config.ledCount) env.ws2811_init = .ok strip)
    (hm : MidiClient.create env.midiOpen = .ok ())
    (hl : mainLoop config
      { strip := strip, hardware := env.hardware, renders := 0, slept := 0, pin := 0 }
      env.events = some m) :
    main env = some (.returned 0) := by
  rw [main_of_args env configFile h]
  unfold mainTry
  rw [if_neg hne, hc]
  simp only [hs, hm, hl]
  rfl

/-- A loop iteration on a note event whose pin is defined: the LED is set,
the strip is rendered and the iteration sleeps. -/
theorem mainIteration_of_pin (config : PianoTutorPlusConfig) (m : Machine) (ev : MidiEvent)
    (pin : Int) (hty : ev.type = .NOTE_ON ∨ ev.type = .NOTE_OFF)
    (hpin : mainPin config ev = some pin) :
    mainIteration config m ev = some ((Machine.render
      { m with strip := mainSwitch config m.strip pin ev, pin := pin }).usleep 10000) := by
  unfold mainIteration
  rcases hty with h | h <;> simp [h, hpin]

/-- A loop iteration has a result when the pin of its event, if it is a note
event, is defined. -/
theorem mainIteration_isSome (config : PianoTutorPlusConfig) (m : Machine) (ev : MidiEvent)
    (h : (ev.type = .NOTE_ON ∨ ev.type = .NOTE_OFF) → ∃ pin, mainPin config ev = some pin) :
    ∃ m1, mainIteration config m ev = some m1 := by
  by_cases hty : ev.type = .NOTE_ON ∨ ev.type = .NOTE_OFF
  · obtain ⟨pin, hpin⟩ := h hty
    exact ⟨_, mainIteration_of_pin config m ev pin hty hpin⟩
  · have hig : ev.type = .UNKNOWN ∨ ev.type = .NO_EVENT := by
      cases hev : ev.type
      · exact absurd (Or.inl hev) hty
      · exact absurd (Or.inr hev) hty
      · exact Or.inl rfl
      · exact Or.inr rfl
    refine ⟨m.usleep 10000, ?_⟩
    unfold mainIteration
    rcases hig with h1 | h1 <;> simp [h1]

/-- The loop has a result when the pin of every note event is defined. -/
theorem mainLoop_isSome (config : PianoTutorPlusConfig) (evs : List MidiEvent)
    (h : ∀ ev ∈ evs, (ev.type = .NOTE_ON ∨ ev.type = .NOTE_OFF) →
      ∃ pin, mainPin config ev = some pin) :
    ∀ m : Machine, ∃ m1, mainLoop config m evs = some m1 := by
  induction evs with
  | nil => exact fun m => ⟨m, rfl⟩
  | cons ev evs ih =>
    intro m
    obtain ⟨m1, h1⟩ := mainIteration_isSome config m ev (h ev (List.mem_cons_self ev evs))
    obtain ⟨m2, h2⟩ := ih (fun e he => h e (List.mem_cons_of_mem ev he)) m1
    refine ⟨m2, ?_⟩
    show (mainIteration config m ev).bind (fun m1 => mainLoop config m1 evs) = some m2
    rw [h1]
    exact h2

/-- The loop of the sample run has a result. -/
theorem sampleEnv_loop (strip : LedStrip) :
    ∃ m : Machine, mainLoop (sampleConfig 36 96 (3 / 2) .DIR)
      { strip := strip, hardware := fun _ => 0, renders := 0, slept := 0, pin := 0 }
      [⟨60, .NOTE_ON, .RIGHT⟩, ⟨60, .NOTE_OFF, .RIGHT⟩, ⟨0, .NO_EVENT, .RIGHT⟩] = some m := by
  apply mainLoop_isSome
  intro ev hev hty
  have hp : ∀ ty hand, mainPin (sampleConfig 36 96 (3 / 2) .DIR) ⟨60, ty, hand⟩ = some 36 := by
    intro ty hand
    rw [mainPin_sample 36 96 (3 / 2) .DIR ⟨60, ty, hand⟩ 36 36 36
      (by norm_num [keyOffset, sampleConfig, Fin.coe_ofNat_eq_mod])
      (roundToBinary32_eq_self _ 36 0 (by norm_num) (by norm_num) (by norm_num))
      (by norm_num [cRound])]
    exact floatToInt_eq_some (by decide) (by decide)
  simp only [List.mem_cons, List.mem_singleton, List.not_mem_nil, or_false] at hev
  rcases hev with rfl | rfl | rfl
  · exact ⟨36, hp _ _⟩
  · exact ⟨36, hp _ _⟩
  · rcases hty with h | h <;> cases h

/-- C17: once the options give a configuration file, the three startup
failures that `main` catches end the process through `exit` with the statuses
`ERR_OPEN_FILE = -1` (no file name, or a file that cannot be opened),
`ERR_PARSE_FILE = -2` (a file that cannot be parsed) and
`ERR_MIDI_DEVICE = -3` (a MIDI device that cannot be opened); the three
statuses are pairwise distinct and not zero, also as the low eight bits that
the parent process sees; and a run with no startup failure whose loop is left
returns 0. -/
theorem C17_exit_statuses (env : MainEnv) (configFile : String)
    (h : parseArgs env.opts "" = .ok configFile) :
    (configFile = "" → main env = some (.exited ERR_OPEN_FILE)) ∧
    (configFile ≠ "" →
      PianoTutorPlusConfig.construct env.lib env.files configFile = .error .OpenFileException →
      main env = some (.exited ERR_OPEN_FILE)) ∧
    (configFile ≠ "" →
      PianoTutorPlusConfig.construct env.lib env.files configFile = .error .ParsingException →
      main env = some (.exited ERR_PARSE_FILE)) ∧
    (∀ (config : PianoTutorPlusConfig) (strip : LedStrip), configFile ≠ "" →
      PianoTutorPlusConfig.construct env.lib env.files configFile = .ok config →
      LedStrip.create config.freq (toUChar config.dmaChannel) (toUChar config.gpioPin)
        config.stripType (toUChar config.ledCount) env.ws2811_init = .ok strip →
      MidiClient.create env.midiOpen = .error .MidiDeviceException →
      main env = some (.exited ERR_MIDI_DEVICE)) ∧
    (∀ (config : PianoTutorPlusConfig) (strip : LedStrip) (m : Machine), configFile ≠ "" →
      PianoTutorPlusConfig.construct env.lib env.files configFile = .ok config →
      LedStrip.create config.freq (toUChar config.dmaChannel) (toUChar config.gpioPin)
        config.stripType (toUChar config.ledCount) env.ws2811_init = .ok strip →
      MidiClient.create env.midiOpen = .ok () →
      mainLoop config
        { strip := strip, hardware := env.hardware, renders := 0, slept := 0, pin := 0 }
        env.events = some m →
      main env = some (.returned 0)) ∧
    (ERR_OPEN_FILE = -1 ∧ ERR_PARSE_FILE = -2 ∧ ERR_MIDI_DEVICE = -3) ∧
    (ERR_OPEN_FILE ≠ ERR_PARSE_FILE ∧ ERR_OPEN_FILE ≠ ERR_MIDI_DEVICE ∧
      ERR_PARSE_FILE ≠ ERR_MIDI_DEVICE) ∧
    (ERR_OPEN_FILE ≠ 0 ∧ ERR_PARSE_FILE ≠ 0 ∧ ERR_MIDI_DEVICE ≠ 0) ∧
    (toUChar ERR_OPEN_FILE = 255 ∧ toUChar ERR_PARSE_FILE = 254 ∧
      toUChar ERR_MIDI_DEVICE = 253) := by
  refine ⟨?_, ?_, ?_, ?_, ?_, ⟨rfl, rfl, rfl⟩, ⟨by decide, by decide, by decide⟩,
    ⟨by decide, by decide, by decide⟩, ⟨by decide, by decide, by decide⟩⟩
  · intro he
    rw [main_of_args env configFile h]
    unfold mainTry
    rw [if_pos he]
    rfl
  · intro hne hc
    exact main_of_construct_error env configFile _ h hne hc
  · intro hne hc
    exact main_of_construct_error env configFile _ h hne hc
  · intro config strip hne hc hs hm
    exact main_of_midi_error env configFile config strip _ h hne hc hs hm
  · intro config strip m hne hc hs hm hl
    exact main_of_loop env configFile config strip m h hne hc hs hm hl

/-- C17 (witness): four runs on the sample files. A file that does not exist
ends the run with status -1, the file with no LEDs per key with status -2, a
MIDI device that cannot be opened with status -3, and the run that starts
returns 0. -/
theorem C17_exit_statuses_witness :
    main (sampleEnv "nofile.conf" (some (fun _ => 0)) true) = some (.exited (-1)) ∧
    main (sampleEnv "zero.conf" (some (fun _ => 0)) true) = some (.exited (-2)) ∧
    main (sampleEnv "piano.conf" (some (fun _ => 0)) false) = some (.exited (-3)) ∧
    main (sampleEnv "piano.conf" (some (fun _ => 0)) true) = some (.returned 0) := by
  refine ⟨?_, ?_, ?_, ?_⟩
  · exact (C17_exit_statuses (sampleEnv "nofile.conf" (some (fun _ => 0)) true)
      "nofile.conf" rfl).2.1 (by decide) rfl
  · exact (C17_exit_statuses (sampleEnv "zero.conf" (some (fun _ => 0)) true)
      "zero.conf" rfl).2.2.1 (by decide) construct_zero_conf
  · exact (C17_exit_statuses (sampleEnv "piano.conf" (some (fun _ => 0)) false)
      "piano.conf" rfl).2.2.2.1 _ _ (by decide) construct_piano_conf rfl rfl
  · obtain ⟨m, hm⟩ := sampleEnv_loop
      { freq := 800000, dmanum := 10, gpionum := 18, count := 61, invert := 0,
        brightness := 255, strip_type := 0x00081000, leds := fun _ => 0 }
    exact (C17_exit_statuses (sampleEnv "piano.conf" (some (fun _ => 0)) true)
      "piano.conf" rfl).2.2.2.2.1 _ _ m (by decide) construct_piano_conf rfl rfl hm

/-- C18 (the code at the failing input): on the sample file, when
`ws2811_init` fails, the `LedStripException` of the constructor of `LedStrip`
meets no `catch` clause and leaves `main`; when the MIDI device cannot be
opened, the `MidiDeviceException` is caught and the process exits with status
-3. -/
theorem C18_strip_failure_uncaught :
    main (sampleEnv "piano.conf" none true) = some (.uncaught .LedStripException) ∧
    main (sampleEnv "piano.conf" none false) = some (.uncaught .LedStripException) ∧
    main (sampleEnv "piano.conf" (some (fun _ => 0)) false) = some (.exited ERR_MIDI_DEVICE) := by
  refine ⟨?_, ?_, ?_⟩
  · exact main_of_strip_error (sampleEnv "piano.conf" none true) "piano.conf" _ _ rfl
      (by decide) construct_piano_conf rfl
  · exact main_of_strip_error (sampleEnv "piano.conf" none false) "piano.conf" _ _ rfl
      (by decide) construct_piano_conf rfl
  · exact main_of_midi_error (sampleEnv "piano.conf" (some (fun _ => 0)) false) "piano.conf"
      _ _ _ rfl (by decide) construct_piano_conf rfl rfl

/-! ## The lines of the configuration file -/

/-- A white-space character is neither `=` nor `#`. -/
theorem isspace_ne {c : Char} (h : isspace c = true) : c ≠ '=' ∧ c ≠ '#' := by
  constructor
  · rintro rfl
    revert h
    decide
  · rintro rfl
    revert h
    decide

/-- White space in front of a text is dropped by `ltrim`. -/
theorem ltrim_append_spaces (a b : List Char) (ha : ∀ c ∈ a, isspace c = true) :
    ltrim (a ++ b) = ltrim b := by
  unfold ltrim
  exact List.dropWhile_append_of_pos ha

/-- A text of white space is emptied by `ltrim`. -/
theorem ltrim_spaces (a : List Char) (ha : ∀ c ∈ a, isspace c = true) : ltrim a = [] := by
  have h := ltrim_append_spaces a [] ha
  rw [List.append_nil] at h
  rw [h]
  rfl

/-- A text that does not start with white space is left as it is by `ltrim`. -/
theorem ltrim_of_head (v : List Char) (hv : ∀ c, v.head? = some c → isspace c = false) :
    ltrim v = v := by
  unfold ltrim
  cases v with
  | nil => rfl
  | cons x xs =>
    have hx : isspace x = false := hv x rfl
    rw [List.dropWhile_cons_of_neg (by rw [hx]; decide)]

/-- A text that does not end with white space is left as it is by `rtrim`,
and white space after it is dropped. -/
theorem rtrim_append_spaces (v b : List Char)
    (hv : ∀ c, v.getLast? = some c → isspace c = false) (hb : ∀ c ∈ b, isspace c = true) :
    rtrim (v ++ b) = v := by
  unfold rtrim
  rw [List.reverse_append, List.dropWhile_append_of_pos (fun c hc => hb c (List.mem_reverse.mp hc))]
  cases hr : v.reverse with
  | nil =>
    have : v = [] := List.reverse_eq_nil_iff.mp hr
    rw [this]
    rfl
  | cons y ys =>
    have hy : v.getLast? = some y := by
      rw [← List.head?_reverse, hr]
      rfl
    have hsp : isspace y = false := hv y hy
    rw [List.dropWhile_cons_of_neg (by rw [hsp]; decide), ← hr, List.reverse_reverse]

/-- The helper `trim` removes the white space around a text that neither
starts nor ends with white space. -/
theorem trim_pad (a v b : List Char) (ha : ∀ c ∈ a, isspace c = true)
    (hb : ∀ c ∈ b, isspace c = true)
    (hl : ∀ c, v.head? = some c → isspace c = false)
    (ht : ∀ c, v.getLast? = some c → isspace c = false) :
    trim (a ++ v ++ b) = v := by
  unfold trim
  rw [List.append_assoc, ltrim_append_spaces a (v ++ b) ha]
  cases v with
  | nil =>
    rw [List.nil_append, ltrim_spaces b hb]
    rfl
  | cons x xs =>
    have hx : isspace x = false := hl x rfl
    have : ltrim (x :: xs ++ b) = x :: xs ++ b := by
      unfold ltrim
      rw [List.cons_append, List.dropWhile_cons_of_neg (by rw [hx]; decide)]
    rw [this]
    exact rtrim_append_spaces (x :: xs) b ht hb

/-- The first position of a character that the front of a text does not
have is found in the rest of the text. -/
theorem strFind_append (c : Char) (a b : List Char) (ha : ∀ x ∈ a, x ≠ c) :
    strFind c (a ++ b) = (strFind c b).map (fun i => i + a.length) := by
  induction a with
  | nil =>
    simp only [List.nil_append, List.length_nil, Nat.add_zero]
    cases strFind c b <;> rfl
  | cons x xs ih =>
    have hx : x ≠ c := ha x (List.mem_cons_self x xs)
    have ih1 := ih (fun y hy => ha y (List.mem_cons_of_mem x hy))
    show (if x = c then some 0 else (strFind c (xs ++ b)).map (fun i => i + 1)) = _
    rw [if_neg hx, ih1]
    cases strFind c b with
    | none => rfl
    | some i =>
      simp only [Option.map_some', List.length_cons]
      congr 1

/-- A character that a text does not have is not found. -/
theorem strFind_none (c : Char) (a : List Char) (ha : ∀ x ∈ a, x ≠ c) : strFind c a = none := by
  have h := strFind_append c a [] ha
  rw [List.append_nil] at h
  rw [h]
  rfl

/-- The first position of a character that starts the rest of a text. -/
theorem strFind_append_cons (c : Char) (a b : List Char) (ha : ∀ x ∈ a, x ≠ c) :
    strFind c (a ++ c :: b) = some a.length := by
  rw [strFind_append c a (c :: b) ha]
  show (if c = c then some 0 else _).map _ = _
  rw [if_pos rfl]
  simp

/-- The body of the loop of `Config::parse` on a line that, once its leading
white space is dropped, is a text without `=` and `#`, then `=`, then the
rest: the text before `=` is the key, and the value is the rest, up to its
first `#` when it has one. -/
theorem parseLine_core (config : Config) (line : String) (kp rest : List Char)
    (hline : ltrim line.data = kp ++ '=' :: rest) (hkp : ∀ c ∈ kp, c ≠ '=' ∧ c ≠ '#') :
    Config.parseLine config line =
      config.set (String.mk (trim kp))
        (String.mk (trim
          (match strFind '#' rest with
            | some i => rest.take (toSizeT i)
            | none => rest))) := by
  have hhead : ¬ (kp ++ '=' :: rest).headD (Char.ofNat 0) = '#' := by
    cases kp with
    | nil =>
      show ¬ '=' = '#'
      decide
    | cons k ks => exact (hkp k (List.mem_cons_self k ks)).2
  have heq : strFind '=' (kp ++ '=' :: rest) = some kp.length :=
    strFind_append_cons '=' kp rest (fun x hx => (hkp x hx).1)
  have hkey : substr (kp ++ '=' :: rest) 0 kp.length = kp := by
    unfold substr
    rw [List.drop_zero, List.take_left']
    rfl
  have hdrop : (kp ++ '=' :: rest).drop (kp.length + 1) = rest := by
    have : kp ++ '=' :: rest = (kp ++ ['=']) ++ rest := by simp
    rw [this]
    exact List.drop_left' (by simp)
  have hcomment : strFind '#' (kp ++ '=' :: rest)
      = (strFind '#' rest).map (fun i => i + 1 + kp.length) := by
    rw [strFind_append '#' kp _ (fun x hx => (hkp x hx).2)]
    show (if '=' = '#' then some 0 else (strFind '#' rest).map (fun i => i + 1)).map _ = _
    rw [if_neg (by decide)]
    cases strFind '#' rest <;> rfl
  unfold Config.parseLine
  rw [hline, if_neg hhead, heq]
  simp only [hkey, hcomment]
  cases hc : strFind '#' rest with
  | none =>
    simp only [Option.map_none', hdrop]
  | some i =>
    simp only [Option.map_some']
    have hsz : toSizeT (((i + 1 + kp.length : ℕ) : Int) - (kp.length : Int) - 1) = toSizeT i := by
      congr 1
      push_cast
      ring
    rw [hsz]
    unfold substr
    rw [hdrop]

/-- The line `<spaces>KEY<spaces>=rest`, once its leading white space is
dropped, is a text without `=` and `#` that `trim` turns into `KEY`, then
`=`, then the rest. -/
theorem ltrim_setting (sp1 key sp2 rest : List Char)
    (hs1 : ∀ c ∈ sp1, isspace c = true) (hs2 : ∀ c ∈ sp2, isspace c = true)
    (hk : ∀ c ∈ key, c ≠ '=' ∧ c ≠ '#')
    (hkl : ∀ c, key.head? = some c → isspace c = false)
    (hkt : ∀ c, key.getLast? = some c → isspace c = false) :
    ∃ kp : List Char, ltrim (sp1 ++ key ++ sp2 ++ '=' :: rest) = kp ++ '=' :: rest ∧
      (∀ c ∈ kp, c ≠ '=' ∧ c ≠ '#') ∧ trim kp = key := by
  have heqsp : ltrim ('=' :: rest) = '=' :: rest := by
    apply ltrim_of_head
    intro c hc
    cases hc
    decide
  cases key with
  | nil =>
    refine ⟨[], ?_, fun c hc => absurd hc (List.not_mem_nil c), rfl⟩
    rw [List.append_nil, List.append_assoc, ltrim_append_spaces sp1 _ hs1,
      ltrim_append_spaces sp2 _ hs2, heqsp]
    rfl
  | cons k ks =>
    refine ⟨k :: ks ++ sp2, ?_, ?_, ?_⟩
    · rw [List.append_assoc, List.append_assoc, ltrim_append_spaces sp1 _ hs1]
      rw [ltrim_of_head]
      · simp
      · intro c hc
        cases hc
        exact hkl k rfl
    · intro c hc
      rcases List.mem_append.mp hc with h | h
      · exact hk c h
      · exact isspace_ne (hs2 c h)
    · have h := trim_pad [] (k :: ks) sp2 (fun c hc => absurd hc (List.not_mem_nil c)) hs2 hkl hkt
      rw [List.nil_append] at h
      exact h

/-- The value that `operator[]` returns for a key right after an assignment
to the key. -/
theorem Config.get_set (config : Config) (key value : String) :
    (config.set key value).get key = value := by
  unfold Config.get Config.set
  simp

/-- C19: for every line of the form
`<spaces>KEY<spaces>=<spaces>VALUE<spaces>`, where `KEY` and `VALUE` contain
neither `=` nor `#` and neither start nor end with white space, the body of
the loop of `Config::parse` stores the pair, so that `config[KEY]` returns
exactly `VALUE`, and so does the loop of `Config::parse` on lines of which
this one is the last; the same holds when the line goes on with a comment
that starts with `#` (the length of a line being below `2 ^ 64`, the range of
`std::size_t`). -/
theorem C19_setting_line_stored (config : Config) (before : List String)
    (sp1 key sp2 sp3 value sp4 comment : List Char)
    (hs1 : ∀ c ∈ sp1, isspace c = true) (hs2 : ∀ c ∈ sp2, isspace c = true)
    (hs3 : ∀ c ∈ sp3, isspace c = true) (hs4 : ∀ c ∈ sp4, isspace c = true)
    (hk : ∀ c ∈ key, c ≠ '=' ∧ c ≠ '#') (hv : ∀ c ∈ value, c ≠ '=' ∧ c ≠ '#')
    (hkl : ∀ c, key.head? = some c → isspace c = false)
    (hkt : ∀ c, key.getLast? = some c → isspace c = false)
    (hvl : ∀ c, value.head? = some c → isspace c = false)
    (hvt : ∀ c, value.getLast? = some c → isspace c = false)
    (hlen : (sp3 ++ value ++ sp4).length < 18446744073709551616) :
    (Config.parseLine config (settingLine sp1 key sp2 sp3 value sp4)).get (String.mk key)
      = String.mk value ∧
    (Config.parseLine config
      (settingLineWithComment sp1 key sp2 sp3 value sp4 comment)).get (String.mk key)
      = String.mk value ∧
    (Config.parseLines (before ++ [settingLine sp1 key sp2 sp3 value sp4])).get (String.mk key)
      = String.mk value ∧
    (Config.parseLines
      (before ++ [settingLineWithComment sp1 key sp2 sp3 value sp4 comment])).get (String.mk key)
      = String.mk value := by
  have hnohash : ∀ c ∈ sp3 ++ value ++ sp4, c ≠ '#' := by
    intro c hc
    rcases List.mem_append.mp hc with h | h
    · rcases List.mem_append.mp h with h1 | h1
      · exact (isspace_ne (hs3 c h1)).2
      · exact (hv c h1).2
    · exact (isspace_ne (hs4 c h)).2
  have hplain : ∀ cfg : Config,
      (Config.parseLine cfg (settingLine sp1 key sp2 sp3 value sp4)).get (String.mk key)
        = String.mk value := by
    intro cfg
    obtain ⟨kp, hl, hkp, htrim⟩ := ltrim_setting sp1 key sp2 (sp3 ++ value ++ sp4)
      hs1 hs2 hk hkl hkt
    have hline : ltrim (settingLine sp1 key sp2 sp3 value sp4).data
        = kp ++ '=' :: (sp3 ++ value ++ sp4) := by
      rw [← hl]
      unfold settingLine
      simp
    rw [parseLine_core cfg _ kp _ hline hkp, strFind_none '#' _ hnohash, htrim,
      trim_pad sp3 value sp4 hs3 hs4 hvl hvt]
    exact Config.get_set cfg _ _
  have hcomment : ∀ cfg : Config,
      (Config.parseLine cfg
        (settingLineWithComment sp1 key sp2 sp3 value sp4 comment)).get (String.mk key)
        = String.mk value := by
    intro cfg
    obtain ⟨kp, hl, hkp, htrim⟩ := ltrim_setting sp1 key sp2
      (sp3 ++ value ++ sp4 ++ '#' :: comment) hs1 hs2 hk hkl hkt
    have hline : ltrim (settingLineWithComment sp1 key sp2 sp3 value sp4 comment).data
        = kp ++ '=' :: (sp3 ++ value ++ sp4 ++ '#' :: comment) := by
      rw [← hl]
      unfold settingLineWithComment
      simp
    have hsz : toSizeT ((sp3 ++ value ++ sp4).length : Int) = (sp3 ++ value ++ sp4).length := by
      unfold toSizeT
      omega
    rw [parseLine_core cfg _ kp _ hline hkp, strFind_append_cons '#' _ comment hnohash]
    simp only
    rw [hsz, List.take_left', htrim, trim_pad sp3 value sp4 hs3 hs4 hvl hvt]
    · exact Config.get_set cfg _ _
    · rfl
  refine ⟨hplain config, hcomment config, ?_, ?_⟩
  · unfold Config.parseLines
    rw [List.foldl_append]
    exact hplain _
  · unfold Config.parseLines
    rw [List.foldl_append]
    exact hcomment _

/-- C19 (witness): after a comment line and an earlier `LED_COUNT = 88`, the
line of two blanks, `LED_COUNT`, a tab, `=`, a blank, `61`, two blanks and
the comment `# one LED per key` makes `config["LED_COUNT"]` return `61`. -/
theorem C19_setting_line_stored_witness :
    settingLineWithComment [' ', ' '] "LED_COUNT".data ['\t'] [' '] "61".data [' ', ' ']
      " one LED per key".data = "  LED_COUNT\t= 61  # one LED per key" ∧
    (Config.parseLines (["# keyboard", "LED_COUNT = 88"] ++
      ["  LED_COUNT\t= 61  # one LED per key"])).get "LED_COUNT" = "61" := by
  have hline : settingLineWithComment [' ', ' '] "LED_COUNT".data ['\t'] [' '] "61".data
      [' ', ' '] " one LED per key".data = "  LED_COUNT\t= 61  # one LED per key" := by
    decide
  refine ⟨hline, ?_⟩
  have h := (C19_setting_line_stored { options := [] } ["# keyboard", "LED_COUNT = 88"]
    [' ', ' '] "LED_COUNT".data ['\t'] [' '] "61".data [' ', ' '] " one LED per key".data
    (by decide) (by decide) (by decide) (by decide) (by decide) (by decide)
    (fun c hc => by
      have : c = 'L' := (Option.some.inj hc).symm
      rw [this]
      decide)
    (fun c hc => by
      have : c = 'T' := (Option.some.inj hc).symm
      rw [this]
      decide)
    (fun c hc => by
      have : c = '6' := (Option.some.inj hc).symm
      rw [this]
      decide)
    (fun c hc => by
      have : c = '1' := (Option.some.inj hc).symm
      rw [this]
      decide)
    (by decide)).2.2.2
  rw [hline] at h
  exact h

/-- A line whose first character after the leading white space is `#` stores
nothing. -/
theorem parseLine_comment (config : Config) (line : String)
    (h : (ltrim line.data).head? = some '#') : Config.parseLine config line = config := by
  unfold Config.parseLine
  have hd : (ltrim line.data).headD (Char.ofNat 0) = '#' := by
    cases hl : ltrim line.data with
    | nil => rw [hl] at h; cases h
    | cons x xs =>
      rw [hl] at h
      exact Option.some.inj h
  rw [if_pos hd]

/-- C20 (the code at the failing input): in the line `GPIO#PIN = 18 # BCM`
the first `#` is at position 4, before the `=`; the body of the loop of
`Config::parse` stores the key `GPIO#PIN`, which holds the `#` and the three
characters after it, and the value `18 # BCM`, which holds the second `#` and
the comment. -/
theorem C20_hash_before_equal_stored :
    strFind '#' "GPIO#PIN = 18 # BCM".data = some 4 ∧
    strFind '=' "GPIO#PIN = 18 # BCM".data = some 9 ∧
    (Config.parseLine { options := [] } "GPIO#PIN = 18 # BCM").options
      = [("GPIO#PIN", "18 # BCM")] ∧
    (Config.parseLines (getlines "FREQUENCY = 800000\nGPIO#PIN = 18 # BCM\n")).get "GPIO#PIN"
      = "18 # BCM" := by
  refine ⟨by decide, by decide, by decide, by decide⟩

/-! ## Note names and MIDI values -/

set_option maxRecDepth 100000 in
/-- The value of `note2midi` on each of the 140 names of a letter and a
digit. -/
theorem note2midi_plain_table :
    ∀ l ∈ noteLetters, ∀ d ∈ noteDigits,
      ∃ s, semitone l false = some s ∧ 0 ≤ s ∧ s ≤ 11 ∧
        MidiClient.note2midi (String.mk [l, d]) = 12 * (digitValue d + 1) + s := by
  decide

set_option maxRecDepth 100000 in
/-- The value of `note2midi` on each of the 100 names of a letter, a `#` and a
digit. -/
theorem note2midi_sharp_table :
    ∀ l ∈ sharpLetters, ∀ d ∈ noteDigits,
      ∃ s, semitone l true = some s ∧ 0 ≤ s ∧ s ≤ 11 ∧
        MidiClient.note2midi (String.mk [l, '#', d]) = 12 * (digitValue d + 1) + s := by
  decide

/-- The digits 0 to 9 have the values 0 to 9. -/
theorem digitValue_bounds : ∀ d ∈ noteDigits, 0 ≤ digitValue d ∧ digitValue d ≤ 9 := by
  decide

/-- C21: for every letter `l` in A-G of either case, with a `#` only when the
letter is A, C, D, F or G, and every digit `d` in 0-9, `note2midi` of the name
made of the letter, the optional `#` and the digit is `12 * (d + 1) + s`, with
`s` the semitone offset of the pitch class, between 0 and 11. -/
theorem C21_note2midi_value (l d : Char) (sharp : Bool)
    (hl : l ∈ noteLetters) (hs : sharp = true → l ∈ sharpLetters) (hd : d ∈ noteDigits) :
    ∃ s, semitone l sharp = some s ∧ 0 ≤ s ∧ s ≤ 11 ∧
      MidiClient.note2midi (String.mk (l :: ((if sharp then ['#'] else []) ++ [d])))
        = 12 * (digitValue d + 1) + s := by
  cases sharp with
  | false => exact note2midi_plain_table l hl d hd
  | true => exact note2midi_sharp_table l (hs rfl) d hd

/-- C21 (witness): the names "C2", "c7" and "f#4" give 36, 96 and 66. -/
theorem C21_note2midi_value_witness :
    MidiClient.note2midi "C2" = 36 ∧ MidiClient.note2midi "c7" = 96 ∧
    MidiClient.note2midi "f#4" = 66 ∧
    ∃ s, semitone 'f' true = some s ∧ 0 ≤ s ∧ s ≤ 11 ∧
      MidiClient.note2midi (String.mk ('f' :: ((if true then ['#'] else []) ++ ['4'])))
        = 12 * (digitValue '4' + 1) + s :=
  ⟨by decide, by decide, by decide,
    C21_note2midi_value 'f' '4' true (by decide) (fun _ => by decide) (by decide)⟩

set_option maxRecDepth 100000 in
/-- The name that `midi2note` gives to each value from 0 to 255. -/
theorem midi2note_table :
    ∀ m ∈ List.range 256, MidiClient.midi2note (m : Int) = some (specNoteName m) := by
  decide

/-- C22: for every MIDI value `m` from 0 to 255, `midi2note` returns the name
at position `m mod 12` of the twelve pitch-class names followed by the decimal
rendering of `m / 12 - 1`. -/
theorem C22_midi2note_name (m : Nat) (hm : m ≤ 255) :
    MidiClient.midi2note (m : Int) = some (specNoteName m) :=
  midi2note_table m (List.mem_range.mpr (by omega))

/-- C22 (witness): 60 gives "C4", 36 gives "C2", 0 gives "C-1" and 255 gives
"D#20". -/
theorem C22_midi2note_name_witness :
    MidiClient.midi2note 60 = some "C4" ∧ MidiClient.midi2note 36 = some "C2" ∧
    MidiClient.midi2note 0 = some "C-1" ∧ MidiClient.midi2note 255 = some "D#20" ∧
    MidiClient.midi2note ((60 : Nat) : Int) = some (specNoteName 60) :=
  ⟨by decide, by decide, by decide, by decide, C22_midi2note_name 60 (by decide)⟩

set_option maxRecDepth 100000 in
/-- The round trip through `midi2note` and `note2midi` on each value from 12
to 131. -/
theorem midi2note_roundtrip_table :
    ∀ m ∈ List.range 120,
      (MidiClient.midi2note ((m : Int) + 12)).map MidiClient.note2midi
        = some ((m : Int) + 12) := by
  decide

/-- C25: for every MIDI value `m` from 12 to 131, `midi2note m` is a name and
`note2midi` of that name is `m`. -/
theorem C25_round_trip (m : Int) (hlo : 12 ≤ m) (hhi : m ≤ 131) :
    ∃ name, MidiClient.midi2note m = some name ∧ MidiClient.note2midi name = m := by
  have h := midi2note_roundtrip_table (m - 12).toNat (List.mem_range.mpr (by omega))
  have hm : (((m - 12).toNat : Nat) : Int) + 12 = m := by omega
  rw [hm] at h
  cases hn : MidiClient.midi2note m with
  | none => rw [hn] at h; simp at h
  | some name =>
    rw [hn] at h
    exact ⟨name, rfl, by simpa using h⟩

/-- C25 (witness): 60 becomes "C4" and "C4" becomes 60; the ends 12 and 131
become "C0" and "B9". -/
theorem C25_round_trip_witness :
    MidiClient.midi2note 12 = some "C0" ∧ MidiClient.midi2note 131 = some "B9" ∧
    MidiClient.midi2note 60 = some "C4" ∧
    ∃ name, MidiClient.midi2note 60 = some name ∧ MidiClient.note2midi name = 60 :=
  ⟨by decide, by decide, by decide, C25_round_trip 60 (by decide) (by decide)⟩

/-! ## Strings that are not note names -/

/-- A property of characters that holds on the 128 ASCII characters and on
every character that `toupper` leaves alone holds on every character. -/
theorem char_cases (P : Char → Prop) (c : Char)
    (hlo : ∀ n < 128, P (Char.ofNat n)) (hhi : 128 ≤ c.toNat → P c) : P c := by
  by_cases h : c.toNat < 128
  · have := hlo c.toNat h
    rwa [Char.ofNat_toNat] at this
  · exact hhi (by omega)

/-- The function `toupper` leaves a character from 128 on as it is. -/
theorem toUpper_of_ge {c : Char} (h : 128 ≤ c.toNat) : c.toUpper = c := by
  unfold Char.toUpper
  have : ¬ (c.toNat ≥ 97 ∧ c.toNat ≤ 122) := by omega
  simp only [this, if_false]

set_option maxRecDepth 100000 in
/-- A character that `toupper` sends to a letter from A to G is one of these
letters in upper or in lower case. -/
theorem mem_noteLetters_of_toUpper (c : Char) (h : 'A' ≤ c.toUpper ∧ c.toUpper ≤ 'G') :
    c ∈ noteLetters := by
  revert h
  refine char_cases (fun c => ('A' ≤ c.toUpper ∧ c.toUpper ≤ 'G') → c ∈ noteLetters) c
    (by decide) ?_
  intro hge h
  rw [toUpper_of_ge hge] at h
  have := h.2
  rw [Char.le_def] at this
  have h71 : c.toNat ≤ 71 := this
  omega

set_option maxRecDepth 100000 in
/-- A character that `toupper` sends to a digit is that digit. -/
theorem mem_noteDigits_of_toUpper (c : Char) (h : '0' ≤ c.toUpper ∧ c.toUpper ≤ '9') :
    c ∈ noteDigits := by
  revert h
  refine char_cases (fun c => ('0' ≤ c.toUpper ∧ c.toUpper ≤ '9') → c ∈ noteDigits) c
    (by decide) ?_
  intro hge h
  rw [toUpper_of_ge hge] at h
  have := h.2
  rw [Char.le_def] at this
  have h57 : c.toNat ≤ 57 := this
  omega

set_option maxRecDepth 100000 in
/-- A character other than the bar that `toupper` sends into the second
bracket of the regular expression is A, C, D, F or G in upper or in lower
case; a character that `toupper` sends to `#` is `#`; and `toupper` sends no
character but NUL to NUL. -/
theorem toUpper_classes (c : Char) :
    ((c.toUpper = 'A' ∨ c.toUpper = '|' ∨ c.toUpper = 'C' ∨ c.toUpper = 'D'
        ∨ c.toUpper = 'F' ∨ c.toUpper = 'G') → c ≠ '|' → c ∈ sharpLetters) ∧
    (c.toUpper = '#' → c = '#') ∧
    (c ≠ Char.ofNat 0 → c.toUpper ≠ Char.ofNat 0) := by
  refine char_cases (fun c =>
    ((c.toUpper = 'A' ∨ c.toUpper = '|' ∨ c.toUpper = 'C' ∨ c.toUpper = 'D'
        ∨ c.toUpper = 'F' ∨ c.toUpper = 'G') → c ≠ '|' → c ∈ sharpLetters) ∧
    (c.toUpper = '#' → c = '#') ∧
    (c ≠ Char.ofNat 0 → c.toUpper ≠ Char.ofNat 0)) c (by decide) ?_
  intro hge
  rw [toUpper_of_ge hge]
  have hne : ∀ k : Char, k.toNat < 128 → c ≠ k := by
    intro k hk hc
    rw [hc] at hge
    omega
  refine ⟨?_, ?_, ?_⟩
  · intro h _
    rcases h with h | h | h | h | h | h <;> exact absurd h (hne _ (by decide))
  · intro h
    exact absurd h (hne _ (by decide))
  · intro _
    exact hne _ (by decide)

/-- The text that the regular expression of `note2midi` is matched against,
for a string without a NUL: the string with each character through
`toupper`. -/
theorem cstr_strToUpper (s : String) (hs : ∀ c ∈ s.data, c ≠ Char.ofNat 0) :
    cstr (strToUpper s).data = s.data.map Char.toUpper := by
  show List.takeWhile _ (s.data.map Char.toUpper) = _
  rw [List.takeWhile_eq_self_iff]
  intro c hc
  obtain ⟨a, ha, rfl⟩ := List.mem_map.mp hc
  simpa using (toUpper_classes a).2.2 (hs a ha)

/-- A string without a bar and without a NUL that is not a proper note name
gets `-1` from `note2midi`. -/
theorem note2midi_of_improper (s : String)
    (hs : ∀ c ∈ s.data, c ≠ '|' ∧ c ≠ Char.ofNat 0)
    (hp : isProperNoteName s = false) : MidiClient.note2midi s = -1 := by
  unfold MidiClient.note2midi
  rw [cstr_strToUpper s (fun c hc => (hs c hc).2)]
  unfold isProperNoteName at hp
  rcases hd : s.data with _ | ⟨a, _ | ⟨b, _ | ⟨c, _ | ⟨d, rest⟩⟩⟩⟩
  · rfl
  · rfl
  · rw [hd] at hp
    simp only [List.map, MidiClient.regexMatch]
    split_ifs with h
    · exfalso
      have h1 := mem_noteLetters_of_toUpper a h.1
      have h2 := mem_noteDigits_of_toUpper b h.2
      simp [h1, h2] at hp
    · rfl
  · rw [hd] at hp hs
    simp only [List.map, MidiClient.regexMatch]
    split_ifs with h
    · exfalso
      have h1 := (toUpper_classes a).1 h.1 (hs a (by simp)).1
      have h2 := (toUpper_classes b).2.1 h.2.1
      have h3 := mem_noteDigits_of_toUpper c h.2.2
      simp [h1, h2, h3] at hp
    · rfl
  · rfl

/-- A proper note name gets a value from 12 on from `note2midi`. -/
theorem note2midi_of_proper (s : String) (hp : isProperNoteName s = true) :
    12 ≤ MidiClient.note2midi s := by
  have hs : s = String.mk s.data := rfl
  unfold isProperNoteName at hp
  rcases hd : s.data with _ | ⟨a, _ | ⟨b, _ | ⟨c, _ | ⟨d, rest⟩⟩⟩⟩
  · rw [hd] at hp; simp at hp
  · rw [hd] at hp; simp at hp
  · rw [hd] at hp hs
    simp only [Bool.and_eq_true, List.contains, List.elem_iff] at hp
    obtain ⟨v, -, hv0, -, hv⟩ := note2midi_plain_table a hp.1 b hp.2
    have := digitValue_bounds b hp.2
    rw [hs, hv]
    omega
  · rw [hd] at hp hs
    simp only [Bool.and_eq_true, List.contains, List.elem_iff, beq_iff_eq] at hp
    obtain ⟨⟨ha, hb⟩, hc⟩ := hp
    subst hb
    obtain ⟨v, -, hv0, -, hv⟩ := note2midi_sharp_table a ha c hc
    have := digitValue_bounds c hc
    rw [hs, hv]
    omega
  · rw [hd] at hp; simp at hp

/-- C26: a proper note name gets a value from 12 on, and a string without a
bar and without a NUL that is not a proper note name gets `-1`; but the
strings `|#5` and `C2` followed by a NUL and a `#` are not proper note names,
and `note2midi` returns 71 for the first and 36 for the second. -/
theorem C26_improper_names_valued :
    (∀ s : String, isProperNoteName s = true → 12 ≤ MidiClient.note2midi s) ∧
    (∀ s : String, (∀ c ∈ s.data, c ≠ '|' ∧ c ≠ Char.ofNat 0) →
      isProperNoteName s = false → MidiClient.note2midi s = -1) ∧
    isProperNoteName "|#5" = false ∧ MidiClient.note2midi "|#5" = 71 ∧
    isProperNoteName "C2\x00#" = false ∧ MidiClient.note2midi "C2\x00#" = 36 :=
  ⟨note2midi_of_proper, note2midi_of_improper, by decide, by decide, by decide, by decide⟩

/-! ## The order of the two notes -/

/-- The MIDI number of a proper note name is kept by the conversion to
`unsigned char`. -/
theorem toUCharFin_note2midi_of_proper (s : String) (hp : isProperNoteName s = true) :
    ((toUCharFin (MidiClient.note2midi s)).val : Int) = MidiClient.note2midi s := by
  have h1 := note2midi_of_proper s hp
  have h2 := note2midi_bounds s
  unfold toUCharFin
  simp only
  omega

/-- C11 (as stated, refuted): the file whose `KEYBOARD_MIN_NOTE` is `C7` (MIDI
number 96) and whose `KEYBOARD_MAX_NOTE` is `C2` (MIDI number 36) is accepted:
the constructor returns a configuration with `keyboardMinNote = 96` and
`keyboardMaxNote = 36`. -/
theorem C11_min_below_max_counterexample :
    MidiClient.note2midi "C7" = 96 ∧ MidiClient.note2midi "C2" = 36 ∧
    PianoTutorPlusConfig.construct sampleLib
      (onlyFile (settingsText (sampleSettings "800000" "18" "10" "61" "C7" "C2")))
      "piano.conf" = .ok (sampleConfig 96 36 1 .DIR) ∧
    ¬ (sampleConfig 96 36 1 .DIR).keyboardMinNote
        < (sampleConfig 96 36 1 .DIR).keyboardMaxNote := by
  refine ⟨by decide, by decide, ?_, by decide⟩
  rw [construct_eq_ok sampleLib
    (onlyFile (settingsText (sampleSettings "800000" "18" "10" "61" "C7" "C2"))) "piano.conf"
    (Config.parseLines (getlines
      (settingsText (sampleSettings "800000" "18" "10" "61" "C7" "C2"))))
    800000 18 10 61 (.finite 1) (.DIR, .GRB, .BLUE, .GREEN) rfl
    (by decide) (by decide) (by decide) (by decide) (by decide) (by decide) (by decide)
    (by decide) sampleStof_one leZero_one rfl]
  rfl

/-- C11 (amended): the constructor does not compare the two notes: a file that
is read, whose four integers are positive values of their fields, whose number
of LEDs per key is a positive finite number, whose four names pass the tests
of the constructor, and whose `KEYBOARD_MIN_NOTE` and `KEYBOARD_MAX_NOTE` are
proper note names, is accepted, with `keyboardMinNote` and `keyboardMaxNote`
the MIDI numbers of the two names, whatever the order of the two numbers is,
also when `KEYBOARD_MIN_NOTE` is greater than or equal to
`KEYBOARD_MAX_NOTE`. -/
theorem C11_notes_not_compared (lib : StdLib) (files : String → Option String)
    (filename : String) (conf : Config) (f g d c : Int) (v : ℚ)
    (names : LedOrder.Order × StripType.Type × LedColor.Color × LedColor.Color)
    (hparse : Config.parse files filename = .ok conf)
    (hf : lib.stoi (conf.get KEY_FREQ) = some f) (hf0 : 0 < f ∧ f < 4294967296)
    (hg : lib.stoi (conf.get KEY_GPIO_PIN) = some g) (hg0 : 0 < g ∧ g < 65536)
    (hd : lib.stoi (conf.get KEY_DMA_CHANNEL) = some d) (hd0 : 0 < d ∧ d < 65536)
    (hc : lib.stoi (conf.get KEY_LED_COUNT) = some c) (hc0 : 0 < c ∧ c < 65536)
    (hq : lib.stof (conf.get KEY_LED_PER_KEY) = some (.finite v)) (hv : 0 < v)
    (hn : tryCatch (PianoTutorPlusConfig.parseNames conf) PianoTutorPlusConfig.catchNames
      = .ok names)
    (hmin : isProperNoteName (conf.get KEY_KEYBOARD_MIN_NOTE) = true)
    (hmax : isProperNoteName (conf.get KEY_KEYBOARD_MAX_NOTE) = true) :
    ∃ config : PianoTutorPlusConfig,
      PianoTutorPlusConfig.construct lib files filename = .ok config ∧
      (config.keyboardMinNote.val : Int)
        = MidiClient.note2midi (conf.get KEY_KEYBOARD_MIN_NOTE) ∧
      (config.keyboardMaxNote.val : Int)
        = MidiClient.note2midi (conf.get KEY_KEYBOARD_MAX_NOTE) ∧
      12 ≤ config.keyboardMinNote.val ∧ 12 ≤ config.keyboardMaxNote.val := by
  have h1 := toUCharFin_note2midi_of_proper _ hmin
  have h2 := toUCharFin_note2midi_of_proper _ hmax
  have h3 := note2midi_of_proper _ hmin
  have h4 := note2midi_of_proper _ hmax
  have hf1 : 0 < toUInt f := by
    unfold toUInt
    omega
  have hg1 : 0 < toUShort g := by
    unfold toUShort
    omega
  have hd1 : 0 < toUShort d := by
    unfold toUShort
    omega
  have hc1 : 0 < toUShort c := by
    unfold toUShort
    omega
  have hq0 : (Float32.finite v).leZero = false := by
    simpa [Float32.leZero] using hv
  refine ⟨_, construct_eq_ok lib files filename conf f g d c (.finite v) names hparse hf hf1
    hg hg1 hd hd1 hc hc1 hq hq0 hn, h1, h2, ?_, ?_⟩
  · show 12 ≤ (toUCharFin (MidiClient.note2midi (conf.get KEY_KEYBOARD_MIN_NOTE))).val
    omega
  · show 12 ≤ (toUCharFin (MidiClient.note2midi (conf.get KEY_KEYBOARD_MAX_NOTE))).val
    omega

/-- C11 (witness): the file whose two notes are both `C4` is read, its
integers and its number of LEDs per key are positive, its names pass, its
notes are proper note names, and the constructor accepts it with
`keyboardMinNote = keyboardMaxNote = 60`. -/
theorem C11_notes_not_compared_witness :
    ∃ config : PianoTutorPlusConfig,
      PianoTutorPlusConfig.construct sampleLib
        (onlyFile (settingsText (sampleSettings "800000" "18" "10" "61" "C4" "C4")))
        "piano.conf" = .ok config ∧
      (config.keyboardMinNote.val : Int) = 60 ∧ (config.keyboardMaxNote.val : Int) = 60 := by
  obtain ⟨config, h, hmin, hmax, _⟩ := C11_notes_not_compared sampleLib
    (onlyFile (settingsText (sampleSettings "800000" "18" "10" "61" "C4" "C4")))
    "piano.conf"
    (Config.parseLines (getlines
      (settingsText (sampleSettings "800000" "18" "10" "61" "C4" "C4"))))
    800000 18 10 61 1 (.DIR, .GRB, .BLUE, .GREEN) rfl
    (by decide) (by decide) (by decide) (by decide) (by decide) (by decide) (by decide)
    (by decide) sampleStof_one (by norm_num) rfl (by decide) (by decide)
  exact ⟨config, h, hmin.trans (by decide), hmax.trans (by decide)⟩

/-! ## The names of the colours -/

/-- Lower case of lower case is lower case. -/
theorem toLower_toLower (b : Char) : b.toLower.toLower = b.toLower := by
  by_cases h : b.toNat ≥ 65 ∧ b.toNat ≤ 90
  · have hb : b = Char.ofNat b.toNat := (Char.ofNat_toNat b).symm
    obtain ⟨h1, h2⟩ := h
    generalize b.toNat = n at hb h1 h2
    subst hb
    interval_cases n <;> decide
  · have : b.toLower = b := by
      unfold Char.toLower
      simp only [h, if_false]
    rw [this, this]

/-- Lower case of upper case is lower case. -/
theorem toLower_toUpper (b : Char) : b.toUpper.toLower = b.toLower := by
  by_cases h : b.toNat ≥ 97 ∧ b.toNat ≤ 122
  · have hb : b = Char.ofNat b.toNat := (Char.ofNat_toNat b).symm
    obtain ⟨h1, h2⟩ := h
    generalize b.toNat = n at hb h1 h2
    subst hb
    interval_cases n <;> decide
  · have : b.toUpper = b := by
      unfold Char.toUpper
      simp only [h, if_false]
    rw [this]

/-- Two spellings of a name that differ in case only are the same string after
`tolower`. -/
theorem strToLower_of_isCaseSpelling {s n : String} (h : isCaseSpelling s n) :
    strToLower s = strToLower n := by
  unfold strToLower
  congr 1
  unfold isCaseSpelling at h
  generalize s.data = a at h ⊢
  generalize n.data = b at h ⊢
  induction h with
  | nil => rfl
  | cons hab _ ih =>
    simp only [List.map_cons]
    rw [ih]
    congr 1
    rcases hab with rfl | rfl | rfl
    · rfl
    · exact toLower_toLower _
    · exact toLower_toUpper _

/-- The function `LedColor::parse` looks at its argument through `tolower`
only. -/
theorem ledColor_parse_congr {s n : String} (h : strToLower s = strToLower n) :
    LedColor.parse s = LedColor.parse n := by
  unfold LedColor.parse
  rw [h]

/-- C23: every colour of `getAllColors` has a name, `parse` of the name is the
colour, and so is `parse` of the name in lower case and of every spelling of
the name that differs from it in the case of its letters only. -/
theorem C23_colour_round_trip :
    ∀ c ∈ LedColor.getAllColors, ∃ n : String,
      LedColor.toString c = some n ∧ LedColor.parse n = .ok c ∧
      LedColor.parse (strToLower n) = .ok c ∧
      ∀ s : String, isCaseSpelling s n → LedColor.parse s = .ok c := by
  intro c _
  have key : ∀ n : String, LedColor.parse n = .ok c →
      LedColor.parse (strToLower n) = .ok c ∧
      ∀ s : String, isCaseSpelling s n → LedColor.parse s = .ok c := by
    intro n hn
    refine ⟨?_, ?_⟩
    · rw [← hn]
      apply ledColor_parse_congr
      unfold strToLower
      congr 1
      simp only [List.map_map]
      apply List.map_congr_left
      intro a _
      exact toLower_toLower a
    · intro s hs
      rw [← hn]
      exact ledColor_parse_congr (strToLower_of_isCaseSpelling hs)
  cases c
  · exact ⟨"RED", rfl, rfl, key _ rfl⟩
  · exact ⟨"ORANGE", rfl, rfl, key _ rfl⟩
  · exact ⟨"YELLOW", rfl, rfl, key _ rfl⟩
  · exact ⟨"GREEN", rfl, rfl, key _ rfl⟩
  · exact ⟨"LIGHTBLUE", rfl, rfl, key _ rfl⟩
  · exact ⟨"BLUE", rfl, rfl, key _ rfl⟩
  · exact ⟨"PURPLE", rfl, rfl, key _ rfl⟩
  · exact ⟨"PINK", rfl, rfl, key _ rfl⟩

/-- C23 (witness): LIGHTBLUE is a colour of `getAllColors`, its name is
"LIGHTBLUE", and "LIGHTBLUE", "lightblue" and "LightBlue" all parse to it. -/
theorem C23_colour_round_trip_witness :
    LedColor.Color.LIGHTBLUE ∈ LedColor.getAllColors ∧
    LedColor.toString .LIGHTBLUE = some "LIGHTBLUE" ∧
    LedColor.parse "LIGHTBLUE" = .ok .LIGHTBLUE ∧
    LedColor.parse "lightblue" = .ok .LIGHTBLUE ∧
    LedColor.parse "LightBlue" = .ok .LIGHTBLUE ∧
    isCaseSpelling "LightBlue" "LIGHTBLUE" ∧
    ∃ n : String,
      LedColor.toString .LIGHTBLUE = some n ∧ LedColor.parse n = .ok .LIGHTBLUE ∧
      LedColor.parse (strToLower n) = .ok .LIGHTBLUE ∧
      ∀ s : String, isCaseSpelling s n → LedColor.parse s = .ok .LIGHTBLUE :=
  ⟨by decide, rfl, rfl, rfl, rfl, by
    unfold isCaseSpelling
    decide,
    C23_colour_round_trip .LIGHTBLUE (by decide)⟩

/-! ## The events of the sequencer -/

/-- C27: `getEvent` on a pending event gives NOTE_OFF for a note-off event and
for a note-on event with velocity 0, NOTE_ON for a note-on event with another
velocity, each with the note of the event and the hand RIGHT exactly when the
channel is 0 and LEFT otherwise; it gives UNKNOWN for an event of another
type, and NO_EVENT when no event is pending. -/
theorem C27_getEvent_classification (ret : MidiEvent) (ev : SndSeqEvent) :
    ((ev.type = SND_SEQ_EVENT_NOTEOFF
        ∨ (ev.type = SND_SEQ_EVENT_NOTEON ∧ ev.velocity = 0)) →
      ∃ r, MidiClient.getEvent ret (.event ev) = some r ∧ r.type = .NOTE_OFF ∧
        r.note = ev.note ∧ (r.hand = .RIGHT ↔ ev.channel = 0) ∧
        (r.hand = .LEFT ↔ ev.channel ≠ 0)) ∧
    ((ev.type = SND_SEQ_EVENT_NOTEON ∧ 0 < ev.velocity) →
      ∃ r, MidiClient.getEvent ret (.event ev) = some r ∧ r.type = .NOTE_ON ∧
        r.note = ev.note ∧ (r.hand = .RIGHT ↔ ev.channel = 0) ∧
        (r.hand = .LEFT ↔ ev.channel ≠ 0)) ∧
    ((ev.type ≠ SND_SEQ_EVENT_NOTEON ∧ ev.type ≠ SND_SEQ_EVENT_NOTEOFF) →
      ∃ r, MidiClient.getEvent ret (.event ev) = some r ∧ r.type = .UNKNOWN) ∧
    (∃ r, MidiClient.getEvent ret .again = some r ∧ r.type = .NO_EVENT) := by
  have hhand : (((if ev.channel = 0 then MidiEvent.Hand.RIGHT else MidiEvent.Hand.LEFT)
      = MidiEvent.Hand.RIGHT ↔ ev.channel = 0) ∧
      ((if ev.channel = 0 then MidiEvent.Hand.RIGHT else MidiEvent.Hand.LEFT)
      = MidiEvent.Hand.LEFT ↔ ev.channel ≠ 0)) := by
    by_cases hc : ev.channel = 0 <;> simp [hc]
  refine ⟨?_, ?_, ?_, ⟨_, rfl, rfl⟩⟩
  · intro h
    have hty : ev.type = SND_SEQ_EVENT_NOTEON ∨ ev.type = SND_SEQ_EVENT_NOTEOFF := by
      rcases h with h | h
      · exact Or.inr h
      · exact Or.inl h.1
    refine ⟨⟨ev.note, .NOTE_OFF, if ev.channel = 0 then .RIGHT else .LEFT⟩, ?_, rfl, rfl,
      hhand.1, hhand.2⟩
    simp only [MidiClient.getEvent, if_pos hty, if_pos h]
  · intro h
    have hty : ev.type = SND_SEQ_EVENT_NOTEON ∨ ev.type = SND_SEQ_EVENT_NOTEOFF := Or.inl h.1
    have hoff : ¬ (ev.type = SND_SEQ_EVENT_NOTEOFF
        ∨ (ev.type = SND_SEQ_EVENT_NOTEON ∧ ev.velocity = 0)) := by
      rintro (h1 | h1)
      · rw [h.1] at h1
        exact absurd h1 (by decide)
      · have := h.2
        rw [h1.2] at this
        exact absurd this (lt_irrefl _)
    refine ⟨⟨ev.note, .NOTE_ON, if ev.channel = 0 then .RIGHT else .LEFT⟩, ?_, rfl, rfl,
      hhand.1, hhand.2⟩
    simp only [MidiClient.getEvent, if_pos hty, if_neg hoff]
  · intro h
    have hty : ¬ (ev.type = SND_SEQ_EVENT_NOTEON ∨ ev.type = SND_SEQ_EVENT_NOTEOFF) := by
      rintro (h1 | h1)
      · exact h.1 h1
      · exact h.2 h1
    exact ⟨{ ret with type := .UNKNOWN }, by simp only [MidiClient.getEvent, if_neg hty], rfl⟩

/-- C27 (witness): a note-on event of key 60 with velocity 0 on channel 1
gives the NOTE_OFF event of key 60 and the left hand; the same event with
velocity 64 on channel 0 gives the NOTE_ON event of the right hand. -/
theorem C27_getEvent_classification_witness :
    MidiClient.getEvent ⟨0, .UNKNOWN, .RIGHT⟩ (.event ⟨SND_SEQ_EVENT_NOTEON, 1, 60, 0⟩)
      = some ⟨60, .NOTE_OFF, .LEFT⟩ ∧
    MidiClient.getEvent ⟨0, .UNKNOWN, .LEFT⟩ (.event ⟨SND_SEQ_EVENT_NOTEON, 0, 60, 64⟩)
      = some ⟨60, .NOTE_ON, .RIGHT⟩ ∧
    ∃ r, MidiClient.getEvent ⟨0, .UNKNOWN, .RIGHT⟩ (.event ⟨SND_SEQ_EVENT_NOTEON, 1, 60, 0⟩)
        = some r ∧ r.type = .NOTE_OFF ∧ r.note = 60 ∧
      (r.hand = .RIGHT ↔ (1 : Fin 256) = 0) ∧ (r.hand = .LEFT ↔ (1 : Fin 256) ≠ 0) :=
  ⟨rfl, rfl,
    (C27_getEvent_classification ⟨0, .UNKNOWN, .RIGHT⟩ ⟨SND_SEQ_EVENT_NOTEON, 1, 60, 0⟩).1
      (Or.inr ⟨rfl, rfl⟩)⟩

/-! ## The strip: one LED, all LEDs, and what the hardware shows -/

/-- C28: `switchOn(pos, c)` stores the colour `c` at `pos` and
`switchOff(pos)` stores 0 there, for every position and so for every position
below the LED count; both leave every other cell of the buffer, the
brightness and the LED count as they are. -/
theorem C28_switch_frame (s : LedStrip) (pos : Nat) (c : LedColor.Color) :
    (s.switchOn pos c).leds pos = c.val ∧ (s.switchOff pos).leds pos = 0 ∧
    (∀ i, i ≠ pos →
      (s.switchOn pos c).leds i = s.leds i ∧ (s.switchOff pos).leds i = s.leds i) ∧
    (s.switchOn pos c).brightness = s.brightness ∧
    (s.switchOff pos).brightness = s.brightness ∧
    (s.switchOn pos c).count = s.count ∧ (s.switchOff pos).count = s.count := by
  refine ⟨?_, ?_, ?_, rfl, rfl, rfl, rfl⟩
  · simp [LedStrip.switchOn]
  · simp [LedStrip.switchOff]
  · intro i hi
    simp [LedStrip.switchOn, LedStrip.switchOff, hi]

/-- C28 (witness): on the sample strip, LED 24 gets GREEN and then 0, and
LED 25 keeps its value. -/
theorem C28_switch_frame_witness :
    (sampleStrip.switchOn 24 .GREEN).leds 24 = 0x00002000 ∧
    (sampleStrip.switchOff 24).leds 24 = 0 ∧
    (sampleStrip.switchOn 24 .GREEN).leds 25 = sampleStrip.leds 25 ∧
    (sampleStrip.switchOff 24).leds 25 = sampleStrip.leds 25 :=
  ⟨(C28_switch_frame sampleStrip 24 .GREEN).1, (C28_switch_frame sampleStrip 24 .GREEN).2.1,
    ((C28_switch_frame sampleStrip 24 .GREEN).2.2.1 25 (by decide)).1,
    ((C28_switch_frame sampleStrip 24 .GREEN).2.2.1 25 (by decide)).2⟩

/-! ## Purity of the mapping and the state of the hardware -/

/-- A loop iteration on an event that is not ignorable and that has a
result: the pin of the event is defined, and the result is the set, rendered
and slept machine. -/
theorem mainIteration_some_inv (config : PianoTutorPlusConfig) (m m1 : Machine)
    (ev : MidiEvent) (hev : ev.type ≠ .UNKNOWN ∧ ev.type ≠ .NO_EVENT)
    (h : mainIteration config m ev = some m1) :
    ∃ pin, mainPin config ev = some pin ∧
      m1 = (Machine.render
        { m with strip := mainSwitch config m.strip pin ev, pin := pin }).usleep 10000 := by
  unfold mainIteration at h
  rw [if_pos hev] at h
  cases hp : mainPin config ev with
  | none => rw [hp] at h; cases h
  | some pin =>
    rw [hp] at h
    exact ⟨pin, rfl, (Option.some.inj h).symm⟩

/-- A loop iteration on an ignorable event only sleeps. -/
theorem mainIteration_ignorable (config : PianoTutorPlusConfig) (m : Machine)
    (ev : MidiEvent) (hev : ¬ (ev.type ≠ .UNKNOWN ∧ ev.type ≠ .NO_EVENT)) :
    mainIteration config m ev = some (m.usleep 10000) := by
  unfold mainIteration
  rw [if_neg hev]

/-- The loop over a sequence of events followed by one more event. -/
theorem mainLoop_append_one (config : PianoTutorPlusConfig) (evs : List MidiEvent)
    (ev : MidiEvent) : ∀ m : Machine,
    mainLoop config m (evs ++ [ev])
      = (mainLoop config m evs).bind (fun m1 => mainIteration config m1 ev) := by
  induction evs with
  | nil =>
    intro m
    show (mainIteration config m ev).bind (fun m1 => some m1) = mainIteration config m ev
    cases mainIteration config m ev <;> rfl
  | cons e evs ih =>
    intro m
    show (mainIteration config m e).bind (fun m1 => mainLoop config m1 (evs ++ [ev])) = _
    cases h : mainIteration config m e with
    | none =>
      have : mainLoop config m (e :: evs) = none := by
        show (mainIteration config m e).bind (fun m1 => mainLoop config m1 evs) = none
        rw [h]; rfl
      rw [this]; rfl
    | some m1 =>
      have : mainLoop config m (e :: evs) = mainLoop config m1 evs := by
        show (mainIteration config m e).bind (fun m1 => mainLoop config m1 evs) = _
        rw [h]; rfl
      rw [this]
      exact ih m1

/-- The pin and the stored value of a loop iteration on an event that is not
ignorable depend on the configuration and on the event only. -/
theorem mainIteration_command (config : PianoTutorPlusConfig) (ev : MidiEvent)
    (hev : ev.type ≠ .UNKNOWN ∧ ev.type ≠ .NO_EVENT) (m m1 : Machine)
    (h : mainIteration config m ev = some m1) :
    mainPin config ev = some m1.pin ∧
    m1.strip.leds (toUChar m1.pin)
      = (if ev.type = .NOTE_ON then
          (if ev.hand = .RIGHT then config.colorRightHand else config.colorLeftHand).val
        else 0) ∧
    ∀ i, i ≠ toUChar m1.pin → m1.strip.leds i = m.strip.leds i := by
  obtain ⟨pin, hp, rfl⟩ := mainIteration_some_inv config m m1 ev hev h
  refine ⟨hp, ?_, ?_⟩
  · show (mainSwitch config m.strip pin ev).leds (toUChar pin) = _
    unfold mainSwitch
    by_cases hon : ev.type = .NOTE_ON
    · rw [if_pos hon, if_pos hon]
      simp [LedStrip.switchOn]
    · rw [if_neg hon, if_neg hon]
      simp [LedStrip.switchOff]
  · intro i hi
    show (mainSwitch config m.strip pin ev).leds i = _
    have hi2 : i ≠ toUChar pin := hi
    unfold mainSwitch
    by_cases hon : ev.type = .NOTE_ON
    · rw [if_pos hon]
      simp [LedStrip.switchOn, hi2]
    · rw [if_neg hon]
      simp [LedStrip.switchOff, hi2]

/-- C24: for a fixed configuration, two events with the same note, hand and
type that are not ignorable, processed in any two states of the loop, either
both have no defined pin or both get the same pin, which is the pin computed
from the configuration and the event and not the one left by an earlier event,
and store the same value, the colour of the hand or 0, at the same position of
the buffer, leaving the other cells as they were; in particular this holds
after any two sequences of earlier events. -/
theorem C24_mapping_pure (config : PianoTutorPlusConfig) (e1 e2 : MidiEvent)
    (hnote : e1.note = e2.note) (hhand : e1.hand = e2.hand) (htype : e1.type = e2.type)
    (hev : e1.type ≠ .UNKNOWN ∧ e1.type ≠ .NO_EVENT) :
    (∀ m1 m2 : Machine,
      (mainIteration config m1 e1).isSome = (mainIteration config m2 e2).isSome) ∧
    (∀ m1 m2 r1 r2 : Machine,
      mainIteration config m1 e1 = some r1 → mainIteration config m2 e2 = some r2 →
        r1.pin = r2.pin ∧ mainPin config e1 = some r1.pin ∧
        r1.strip.leds (toUChar r1.pin) = r2.strip.leds (toUChar r2.pin) ∧
        (∀ i, i ≠ toUChar r1.pin →
          r1.strip.leds i = m1.strip.leds i ∧ r2.strip.leds i = m2.strip.leds i)) ∧
    (∀ (m0 : Machine) (before1 before2 : List MidiEvent) (r1 r2 : Machine),
      mainLoop config m0 (before1 ++ [e1]) = some r1 →
      mainLoop config m0 (before2 ++ [e2]) = some r2 →
        r1.pin = r2.pin ∧
        r1.strip.leds (toUChar r1.pin) = r2.strip.leds (toUChar r2.pin)) := by
  have he : e1 = e2 := by
    cases e1; cases e2
    simp only at hnote hhand htype
    rw [hnote, hhand, htype]
  subst he
  have hpair : ∀ m1 m2 r1 r2 : Machine,
      mainIteration config m1 e1 = some r1 → mainIteration config m2 e1 = some r2 →
        r1.pin = r2.pin ∧ mainPin config e1 = some r1.pin ∧
        r1.strip.leds (toUChar r1.pin) = r2.strip.leds (toUChar r2.pin) ∧
        (∀ i, i ≠ toUChar r1.pin →
          r1.strip.leds i = m1.strip.leds i ∧ r2.strip.leds i = m2.strip.leds i) := by
    intro m1 m2 r1 r2 h1 h2
    obtain ⟨p1, v1, f1⟩ := mainIteration_command config e1 hev m1 r1 h1
    obtain ⟨p2, v2, f2⟩ := mainIteration_command config e1 hev m2 r2 h2
    have hpin : r1.pin = r2.pin := Option.some.inj (p1.symm.trans p2)
    refine ⟨hpin, p1, by rw [v1, v2], ?_⟩
    intro i hi
    exact ⟨f1 i hi, f2 i (by rw [← hpin]; exact hi)⟩
  refine ⟨?_, hpair, ?_⟩
  · intro m1 m2
    unfold mainIteration
    rw [if_pos hev, if_pos hev]
    cases mainPin config e1 <;> rfl
  · intro m0 before1 before2 r1 r2 h1 h2
    rw [mainLoop_append_one] at h1 h2
    cases ha : mainLoop config m0 before1 with
    | none => rw [ha] at h1; cases h1
    | some a =>
      cases hb : mainLoop config m0 before2 with
      | none => rw [hb] at h2; cases h2
      | some b =>
        rw [ha] at h1
        rw [hb] at h2
        obtain ⟨hp, -, hv, -⟩ := hpair a b r1 r2 h1 h2
        exact ⟨hp, hv⟩

/-- With one LED per key the loop has a result on every sequence of events. -/
theorem mainLoop_one_isSome (config : PianoTutorPlusConfig) (h : config.ledPerKey = .finite 1)
    (evs : List MidiEvent) (m : Machine) : ∃ m1, mainLoop config m evs = some m1 :=
  mainLoop_isSome config evs
    (fun ev _ _ => ⟨_, mainPin_of_ledPerKey_one config ev h⟩) m

/-- C24 (witness): with one LED per key and the lowest key 36, the press of
key 60 by the right hand gets the same pin and stores the same value whether
it is the first event or follows a press of key 72 by the left hand. -/
theorem C24_mapping_pure_witness :
    ∃ r1 r2 : Machine,
      mainLoop (sampleConfig 36 96 1 .DIR)
        { strip := sampleStrip, hardware := fun _ => 0, renders := 0, slept := 0, pin := 0 }
        ([] ++ [⟨60, .NOTE_ON, .RIGHT⟩]) = some r1 ∧
      mainLoop (sampleConfig 36 96 1 .DIR)
        { strip := sampleStrip, hardware := fun _ => 0, renders := 0, slept := 0, pin := 0 }
        ([⟨72, .NOTE_ON, .LEFT⟩] ++ [⟨60, .NOTE_ON, .RIGHT⟩]) = some r2 ∧
      r1.pin = r2.pin ∧
      r1.strip.leds (toUChar r1.pin) = r2.strip.leds (toUChar r2.pin) := by
  obtain ⟨r1, h1⟩ := mainLoop_one_isSome (sampleConfig 36 96 1 .DIR) rfl
    ([] ++ [⟨60, .NOTE_ON, .RIGHT⟩])
    { strip := sampleStrip, hardware := fun _ => 0, renders := 0, slept := 0, pin := 0 }
  obtain ⟨r2, h2⟩ := mainLoop_one_isSome (sampleConfig 36 96 1 .DIR) rfl
    ([⟨72, .NOTE_ON, .LEFT⟩] ++ [⟨60, .NOTE_ON, .RIGHT⟩])
    { strip := sampleStrip, hardware := fun _ => 0, renders := 0, slept := 0, pin := 0 }
  exact ⟨r1, r2, h1, h2,
    (C24_mapping_pure (sampleConfig 36 96 1 .DIR) ⟨60, .NOTE_ON, .RIGHT⟩
      ⟨60, .NOTE_ON, .RIGHT⟩ rfl rfl rfl ⟨by decide, by decide⟩).2.2 _ _ _ r1 r2 h1 h2⟩

/-- The loop leaves the LED count of the strip as it is. -/
theorem mainIteration_count (config : PianoTutorPlusConfig) (m m1 : Machine) (ev : MidiEvent)
    (h : mainIteration config m ev = some m1) : m1.strip.count = m.strip.count := by
  by_cases hev : ev.type ≠ .UNKNOWN ∧ ev.type ≠ .NO_EVENT
  · obtain ⟨pin, -, rfl⟩ := mainIteration_some_inv config m m1 ev hev h
    show (mainSwitch config m.strip pin ev).count = _
    unfold mainSwitch
    split_ifs <;> rfl
  · rw [mainIteration_ignorable config m ev hev] at h
    rw [← Option.some.inj h]
    rfl

/-- The loop leaves the LED count of the strip as it is. -/
theorem mainLoop_count (config : PianoTutorPlusConfig) (evs : List MidiEvent) :
    ∀ m m1 : Machine, mainLoop config m evs = some m1 → m1.strip.count = m.strip.count := by
  induction evs with
  | nil =>
    intro m m1 h
    rw [← Option.some.inj h]
  | cons ev evs ih =>
    intro m m1 h
    have h2 : (mainIteration config m ev).bind (fun m1 => mainLoop config m1 evs) = some m1 := h
    cases hi : mainIteration config m ev with
    | none => rw [hi] at h2; cases h2
    | some a =>
      rw [hi] at h2
      rw [ih a m1 h2, mainIteration_count config m a ev hi]

/-- The loop over one event is the iteration on that event. -/
theorem mainLoop_single (config : PianoTutorPlusConfig) (m : Machine) (ev : MidiEvent) :
    mainLoop config m [ev] = mainIteration config m ev := by
  show (mainIteration config m ev).bind (fun m1 => mainLoop config m1 [])
    = mainIteration config m ev
  cases mainIteration config m ev <;> rfl

/-- C29: after `clearAll` every LED at a position below the count of the
strip is 0 in the buffer; the destructor, which runs `clearAll` and then
`render`, leaves every LED of the strip showing 0; and so does the program on
the path on which the loop is left: whatever the loop did, the state that is
committed last has every LED off. -/
theorem C29_shutdown_all_off (config : PianoTutorPlusConfig) (m mEnd : Machine)
    (events : List MidiEvent) (hloop : mainLoop config m events = some mEnd) :
    (∀ s : LedStrip, ∀ i < s.count, (s.clearAll).leds i = 0) ∧
    (∀ i < mEnd.strip.count, (mEnd.destroyStrip).hardware i = 0) ∧
    (mEnd.destroyStrip).renders = mEnd.renders + 1 ∧
    mainShutdown config m events = some mEnd.destroyStrip ∧
    ∀ i < m.strip.count, (mEnd.destroyStrip).hardware i = 0 := by
  have hclear : ∀ s : LedStrip, ∀ i < s.count, (s.clearAll).leds i = 0 := by
    intro s i hi
    simp [LedStrip.clearAll, hi]
  have hoff : ∀ i < mEnd.strip.count, (mEnd.destroyStrip).hardware i = 0 := by
    intro i hi
    have hc : (mEnd.strip.clearAll).count = mEnd.strip.count := rfl
    show (if i < (mEnd.strip.clearAll).count then (mEnd.strip.clearAll).leds i
      else mEnd.hardware i) = 0
    rw [hc, if_pos hi]
    exact hclear _ i hi
  refine ⟨hclear, hoff, rfl, ?_, ?_⟩
  · unfold mainShutdown
    rw [hloop]
    rfl
  · intro i hi
    exact hoff i (by rw [mainLoop_count config events m mEnd hloop]; exact hi)

/-- C29 (witness): key 60 is pressed and the loop is left with key 60 still
held; the LED of the key is on when the loop is left and off after the
destructor. -/
theorem C29_shutdown_all_off_witness :
    ∃ mEnd : Machine,
      mainLoop (sampleConfig 36 96 1 .DIR)
        { strip := sampleStrip, hardware := fun _ => 0, renders := 0, slept := 0, pin := 0 }
        [⟨60, .NOTE_ON, .RIGHT⟩] = some mEnd ∧
      mEnd.hardware 24 = 0x00000020 ∧
      (mEnd.destroyStrip).hardware 24 = 0 ∧
      ∀ i < 61, (mEnd.destroyStrip).hardware i = 0 := by
  have hpin : mainPin (sampleConfig 36 96 1 .DIR) ⟨60, .NOTE_ON, .RIGHT⟩ = some 24 := by
    rw [mainPin_of_ledPerKey_one _ _ rfl]
    rfl
  have hit := mainIteration_of_pin (sampleConfig 36 96 1 .DIR)
    { strip := sampleStrip, hardware := fun _ => 0, renders := 0, slept := 0, pin := 0 }
    ⟨60, .NOTE_ON, .RIGHT⟩ 24 (Or.inl rfl) hpin
  have hloop := hit
  rw [← mainLoop_single] at hloop
  refine ⟨_, hloop, by decide, ?_, ?_⟩
  · exact (C29_shutdown_all_off _ _ _ _ hloop).2.1 24 (by decide)
  · exact (C29_shutdown_all_off _ _ _ _ hloop).2.2.2.2

/-- C30: when the LEDs of the strip show the colours of the buffer before a
loop iteration they show them after it, for every polled event; an iteration
that changes the buffer renders, and an iteration changes what the LEDs show
only through a render. -/
theorem C30_buffer_committed (config : PianoTutorPlusConfig) (m m1 : Machine)
    (ev : MidiEvent) (hit : mainIteration config m ev = some m1)
    (hagree : ∀ i < m.strip.count, m.hardware i = m.strip.leds i) :
    (∀ i < m1.strip.count, m1.hardware i = m1.strip.leds i) ∧
    (m1.strip.leds ≠ m.strip.leds → m1.renders = m.renders + 1) ∧
    (m1.hardware ≠ m.hardware → m1.renders = m.renders + 1) ∧
    (m1.renders = m.renders ∨ m1.renders = m.renders + 1) := by
  by_cases hev : ev.type ≠ .UNKNOWN ∧ ev.type ≠ .NO_EVENT
  · obtain ⟨pin, -, rfl⟩ := mainIteration_some_inv config m m1 ev hev hit
    refine ⟨?_, fun _ => rfl, fun _ => rfl, Or.inr rfl⟩
    intro i hi
    have hi2 : i < (mainSwitch config m.strip pin ev).count := hi
    show (if i < (mainSwitch config m.strip pin ev).count
      then (mainSwitch config m.strip pin ev).leds i else m.hardware i) = _
    rw [if_pos hi2]
    rfl
  · rw [mainIteration_ignorable config m ev hev] at hit
    have hm : m1 = m.usleep 10000 := (Option.some.inj hit).symm
    subst hm
    exact ⟨hagree, fun h => absurd rfl h, fun h => absurd rfl h, Or.inl rfl⟩

/-- C30 (witness): on the sample strip, whose LEDs show the buffer, the press
of key 60 leaves the LEDs showing the buffer, with LED 24 in the colour of the
right hand in both. -/
theorem C30_buffer_committed_witness :
    ∃ m1 : Machine,
      mainIteration (sampleConfig 36 96 1 .DIR)
        { strip := sampleStrip, hardware := fun _ => 0, renders := 0, slept := 0, pin := 0 }
        ⟨60, .NOTE_ON, .RIGHT⟩ = some m1 ∧
      m1.strip.leds 24 = 0x00000020 ∧ m1.hardware 24 = 0x00000020 ∧
      ∀ i < m1.strip.count, m1.hardware i = m1.strip.leds i := by
  have hpin : mainPin (sampleConfig 36 96 1 .DIR) ⟨60, .NOTE_ON, .RIGHT⟩ = some 24 := by
    rw [mainPin_of_ledPerKey_one _ _ rfl]
    rfl
  have hit := mainIteration_of_pin (sampleConfig 36 96 1 .DIR)
    { strip := sampleStrip, hardware := fun _ => 0, renders := 0, slept := 0, pin := 0 }
    ⟨60, .NOTE_ON, .RIGHT⟩ 24 (Or.inl rfl) hpin
  exact ⟨_, hit, by decide, by decide,
    (C30_buffer_committed _ _ _ _ hit (fun _ _ => rfl)).1⟩

end PianoTutor
